import Mathlib

/-!
# Streak and reward bookkeeping of the community bot

A shallow embedding of `streak-system.js`, `daily-rewards.js` and the quests
part of `quests-trades.js`.

* The SQLite database is a record of tables; each table is the list of its rows
  in insertion order.  `SELECT ... WHERE key = ?` with `.get` is the first
  matching row, `UPDATE ... WHERE key = ?` rewrites every matching row.
* Calendar dates (`YYYY-MM-DD` text computed from the clock) are represented by
  their day number since the epoch; a nullable date column is an `Option`.
* JavaScript numbers that hold integers are `Int`; `NaN` and `undefined` are
  `none`.
* The clock is an explicit argument `now` (milliseconds since the epoch).
* The outcome of `Math.random()` in the quest generators is an explicit
  argument, the shuffled template array.
* A function without `try` returns the exception it throws next to the
  database at that point.
-/

namespace Lbb

/-! ## Number and string helpers -/

/-- Decimal digit character of a value below ten. -/
def digitChar (d : Nat) : Char := Char.ofNat (48 + d)

/-- Decimal digits of `n`, most significant first, pushed in front of `acc`. -/
def toDigitsFuel : Nat → Nat → List Char → List Char
  | 0, _, acc => acc
  | fuel + 1, n, acc =>
    if n / 10 = 0 then digitChar (n % 10) :: acc
    else toDigitsFuel fuel (n / 10) (digitChar (n % 10) :: acc)

/-- Decimal rendering of a natural number. -/
def natToString (n : Nat) : String := ⟨toDigitsFuel (n + 1) n []⟩

/-- The method `value.toString()` on an integer-valued number. -/
def numberToString (v : Int) : String :=
  if v < 0 then ⟨Char.ofNat 45 :: (natToString v.natAbs).data⟩ else natToString v.natAbs

/-- Code points of the decimal digits. -/
def isDigitCode (c : Char) : Prop := 48 ≤ c.toNat ∧ c.toNat ≤ 57

/-- White space as skipped by `parseInt` (WhiteSpace and LineTerminator). -/
def isWhiteSpace (c : Char) : Bool :=
  let n := c.toNat
  decide (n = 9 ∨ n = 10 ∨ n = 11 ∨ n = 12 ∨ n = 13 ∨ n = 32 ∨ n = 160 ∨ n = 5760
    ∨ (8192 ≤ n ∧ n ≤ 8202) ∨ n = 8232 ∨ n = 8233 ∨ n = 8239 ∨ n = 8287
    ∨ n = 12288 ∨ n = 65279)

/-- Value of a character as a digit in the given radix, if it is one. -/
def digitValue (radix : Nat) (c : Char) : Option Nat :=
  let n := c.toNat
  let d : Option Nat :=
    if 48 ≤ n ∧ n ≤ 57 then some (n - 48)
    else if 97 ≤ n ∧ n ≤ 122 then some (n - 87)
    else if 65 ≤ n ∧ n ≤ 90 then some (n - 55)
    else none
  match d with
  | some d => if d < radix then some d else none
  | none => none

/-- Value of the longest prefix of digits; `acc` is `none` until a digit is read. -/
def parseDigits (radix : Nat) : List Char → Option Nat → Option Nat
  | [], acc => acc
  | c :: cs, acc =>
    match digitValue radix c with
    | some d => parseDigits radix cs (some (acc.getD 0 * radix + d))
    | none => acc

/-- Sign step of `parseInt`: a leading minus or plus is consumed. -/
def parseSign : List Char → Bool × List Char
  | [] => (false, [])
  | c :: rest =>
    if c.toNat = 45 then (true, rest)
    else if c.toNat = 43 then (false, rest)
    else (false, c :: rest)

/-- Radix step of `parseInt` without a radix argument: `0x` selects sixteen. -/
def parseRadix : List Char → Nat × List Char
  | c0 :: c1 :: rest =>
    if c0.toNat = 48 ∧ (c1.toNat = 120 ∨ c1.toNat = 88) then (16, rest)
    else (10, c0 :: c1 :: rest)
  | cs => (10, cs)

/-- The global `parseInt(x)`; `none` as argument is `undefined`, `none` as
result is `NaN`. -/
def parseInt : Option String → Option Int
  | none => none
  | some s =>
    let signed := parseSign (s.data.dropWhile isWhiteSpace)
    let based := parseRadix signed.2
    match parseDigits based.1 based.2 none with
    | some n => some (if signed.1 then -(n : Int) else (n : Int))
    | none => none

/-- The expression `x || d` on numbers: `NaN` and zero are falsy. -/
def orDefault (x : Option Int) (d : Int) : Int :=
  match x with
  | some v => if v = 0 then d else v
  | none => d

/-! ## Database tables -/

/-- A row of `users`: the key, the balance columns, and the counters read by
`checkAchievements`, which take their default 0. -/
structure User where
  user_id : String
  gems : Int
  respect_count : Int
  total_voice_minutes : Int := 0
  total_messages : Int := 0
  streak_count : Int := 0
  deriving DecidableEq, Repr

/-- A row of `streak_settings`. -/
structure StreakSetting where
  setting_key : String
  setting_value : String
  updated_at : Nat
  updated_by : Option String
  deriving DecidableEq, Repr

/-- A row of `activity_streaks`. -/
structure ActivityStreak where
  user_id : String
  current_streak : Int
  longest_streak : Int
  last_activity_date : Option Int
  today_voice_minutes : Int
  today_messages : Int
  streak_qualified_today : Int
  total_streak_days : Int
  deriving DecidableEq, Repr

/-- A row of `transactions`; the autoincrement key is the position in the table. -/
structure Transaction where
  user_id : String
  transaction_type : String
  amount : Int
  description : String
  created_at : Nat
  deriving DecidableEq, Repr

/-- A row of `daily_rewards`. -/
structure DailyReward where
  user_id : String
  current_streak : Int
  last_claim_date : Option Int
  total_claims : Int
  next_milestone : Int
  deriving DecidableEq, Repr

/-- A row of `reward_claims`; the autoincrement key is the position in the table. -/
structure RewardClaim where
  user_id : String
  claim_date : Int
  day_number : Int
  reward_type : String
  reward_value : Int
  claimed_at : Nat
  deriving DecidableEq, Repr

/-- A row of `quests`.  Rows are never deleted, so the autoincrement key of a
new row is one more than the largest key in the table. -/
structure Quest where
  quest_id : Nat
  quest_type : String
  quest_name : String
  quest_description : String
  requirement_type : String
  requirement_value : Int
  reward_gems : Int
  reward_respect : Int
  start_date : Int
  end_date : Int
  is_weekly : Int
  deriving DecidableEq, Repr

/-- A row of `user_quests`; its own autoincrement key is the position in the
table, the pair of `user_id` and `quest_id` is declared unique. -/
structure UserQuest where
  user_id : String
  quest_id : Nat
  progress : Int
  completed : Int
  claimed : Int
  started_at : Nat
  deriving DecidableEq, Repr

/-- A row of `friends`; a friendship is stored as two rows, one per direction. -/
structure Friend where
  user_id : String
  friend_id : String
  created_at : Nat
  deriving DecidableEq, Repr

/-- A row of `trades`.  The value columns are text; rows are never deleted, so
the autoincrement key of a new row is one more than the largest key. -/
structure Trade where
  trade_id : Nat
  sender_id : String
  receiver_id : String
  offer_type : String
  offer_value : String
  request_type : String
  request_value : String
  status : String
  created_at : Nat
  updated_at : Option Nat
  deriving DecidableEq, Repr

/-- A row of `respect_given`. -/
structure RespectGiven where
  giver_id : String
  receiver_id : String
  given_at : Nat
  deriving DecidableEq, Repr

/-- A row of `clans`: the key, the name and the leader. -/
structure Clan where
  clan_id : Nat
  clan_name : String
  leader_id : String
  deriving DecidableEq, Repr

/-- An entry of `ACHIEVEMENTS` and a row of `achievements`; `is_secret` is
absent from the entries that are not secret. -/
structure Achievement where
  achievement_id : String
  name : String
  description : String
  category : String
  requirement_type : String
  requirement_value : Int
  reward_gems : Int
  reward_badge : String
  icon : String
  rarity : String
  is_secret : Option Int := none
  deriving DecidableEq, Repr

/-- A row of `user_achievements`. -/
structure UserAchievement where
  user_id : String
  achievement_id : String
  progress : Int
  unlocked : Int
  unlocked_at : Option Nat
  deriving DecidableEq, Repr

/-- The database file: the connection setting for foreign-key enforcement and
the tables. -/
structure DB where
  foreign_keys : Bool := true
  users : List User := []
  streak_settings : List StreakSetting := []
  activity_streaks : List ActivityStreak := []
  transactions : List Transaction := []
  daily_rewards : List DailyReward := []
  reward_claims : List RewardClaim := []
  quests : List Quest := []
  user_quests : List UserQuest := []
  friends : List Friend := []
  trades : List Trade := []
  respect_given : List RespectGiven := []
  clans : List Clan := []
  achievements : List Achievement := []
  user_achievements : List UserAchievement := []
  deriving DecidableEq, Repr

/-- The date text `new Date().toISOString().split('T')[0]`, as a day number. -/
def isoDate (now : Nat) : Int := ((now / 86400000 : Nat) : Int)

/-- Helper `getYesterday()` (the same in both modules). -/
def getYesterday (now : Nat) : Int := isoDate now - 1

/-- Helper `getNextMilestone(currentStreak)` (the same in both modules);
`none` is `null`. -/
def getNextMilestone (currentStreak : Int) : Option Int :=
  if currentStreak ≥ 90 then none
  else if currentStreak ≥ 60 then some 90
  else if currentStreak ≥ 30 then some 60
  else if currentStreak ≥ 14 then some 30
  else if currentStreak ≥ 7 then some 14
  else some 7

/-- Whether a `users` row with this key exists. -/
def userExists (db : DB) (userId : String) : Bool :=
  db.users.any (fun u => decide (u.user_id = userId))

/-- Whether a row referencing `userId` through `FOREIGN KEY(user_id)` can be inserted. -/
def fkOk (db : DB) (userId : String) : Bool :=
  !db.foreign_keys || userExists db userId

/-- The statement `UPDATE users SET gems = gems + ? WHERE user_id = ?`. -/
def addGems (users : List User) (userId : String) (amount : Int) : List User :=
  users.map (fun u => if u.user_id = userId then { u with gems := u.gems + amount } else u)

/-- The query `SELECT * FROM users WHERE user_id = ?` with `.get`. -/
def selectUser (db : DB) (userId : String) : Option User :=
  db.users.find? (fun u => decide (u.user_id = userId))

/-- The gems balance of a user, if the user exists. -/
def gemsOf (db : DB) (userId : String) : Option Int :=
  (selectUser db userId).map (fun x => x.gems)

/-! ## streak-system.js: settings -/

/-- The object `milestones` of the settings: its keys are 7, 14, 30, 60, 90. -/
structure Milestones where
  d7 : Int
  d14 : Int
  d30 : Int
  d60 : Int
  d90 : Int
  deriving DecidableEq, Repr

/-- The value returned by `getStreakSettings`. -/
structure Settings where
  required_voice_minutes : Int
  required_messages : Int
  streak_reward_gems : Int
  milestones : Milestones
  deriving DecidableEq, Repr

/-- The table `defaults` of `initializeSettings`. -/
def settingDefaults : List (String × String) :=
  [("required_voice_minutes", "5"), ("required_messages", "5"), ("streak_reward_gems", "10"),
   ("streak_milestone_7_gems", "50"), ("streak_milestone_14_gems", "100"),
   ("streak_milestone_30_gems", "250"), ("streak_milestone_60_gems", "500"),
   ("streak_milestone_90_gems", "1000")]

/-- Function `initializeSettings`: `INSERT OR IGNORE` of every default. -/
def initializeSettings (rows : List StreakSetting) (now : Nat) : List StreakSetting :=
  settingDefaults.foldl
    (fun acc kv =>
      if acc.any (fun r => decide (r.setting_key = kv.1)) then acc
      else acc ++ [{ setting_key := kv.1, setting_value := kv.2, updated_at := now,
                     updated_by := none }])
    rows

/-- The property `config[key]` after the `forEach` over all rows: the value of
the last row with that key, `none` when it is `undefined`. -/
def configLookup (rows : List StreakSetting) (key : String) : Option String :=
  rows.foldl (fun acc s => if s.setting_key = key then some s.setting_value else acc) none

/-- Function `getStreakSettings`. -/
def getStreakSettings (db : DB) : Settings :=
  let config := configLookup db.streak_settings
  { required_voice_minutes := orDefault (parseInt (config "required_voice_minutes")) 5
    required_messages := orDefault (parseInt (config "required_messages")) 5
    streak_reward_gems := orDefault (parseInt (config "streak_reward_gems")) 10
    milestones :=
      { d7 := orDefault (parseInt (config "streak_milestone_7_gems")) 50
        d14 := orDefault (parseInt (config "streak_milestone_14_gems")) 100
        d30 := orDefault (parseInt (config "streak_milestone_30_gems")) 250
        d60 := orDefault (parseInt (config "streak_milestone_60_gems")) 500
        d90 := orDefault (parseInt (config "streak_milestone_90_gems")) 1000 } }

/-- The list `validKeys` of `updateStreakSettings`. -/
def validKeys : List String :=
  ["required_voice_minutes", "required_messages", "streak_reward_gems",
   "streak_milestone_7_gems", "streak_milestone_14_gems", "streak_milestone_30_gems",
   "streak_milestone_60_gems", "streak_milestone_90_gems"]

/-- The statement `INSERT INTO streak_settings ... ON CONFLICT(setting_key) DO UPDATE`. -/
def upsertSetting (rows : List StreakSetting) (key value : String) (now : Nat)
    (updatedBy : String) : List StreakSetting :=
  if rows.any (fun r => decide (r.setting_key = key)) then
    rows.map (fun r =>
      if r.setting_key = key then
        { r with setting_value := value, updated_at := now, updated_by := some updatedBy }
      else r)
  else
    rows ++ [{ setting_key := key, setting_value := value, updated_at := now,
               updated_by := some updatedBy }]

/-- Result of `updateStreakSettings`. -/
structure UpdateResult where
  success : Bool
  error : Option String := none
  deriving DecidableEq, Repr

/-- Function `updateStreakSettings(settings, updatedBy)`; `settings` is the list
`Object.entries(settings)` with integer values. -/
def updateStreakSettings (db : DB) (now : Nat) (settings : List (String × Int))
    (updatedBy : String) : DB × UpdateResult :=
  let rows := settings.foldl
    (fun acc kv =>
      if validKeys.contains kv.1 then upsertSetting acc kv.1 (numberToString kv.2) now updatedBy
      else acc)
    db.streak_settings
  ({ db with streak_settings := rows }, { success := true })

/-! ## streak-system.js: activity tracking -/

/-- The query `SELECT * FROM activity_streaks WHERE user_id = ?` with `.get`. -/
def selectStreak (db : DB) (userId : String) : Option ActivityStreak :=
  db.activity_streaks.find? (fun r => decide (r.user_id = userId))

/-- An `UPDATE activity_streaks SET ... WHERE user_id = ?` whose assignments are `f`. -/
def updateStreak (db : DB) (userId : String) (f : ActivityStreak → ActivityStreak) : DB :=
  { db with activity_streaks :=
      db.activity_streaks.map (fun r => if r.user_id = userId then f r else r) }

/-- The object returned by `trackUserActivity`; an absent property is `none`. -/
structure TrackResult where
  qualified : Bool
  reward : Option Int := none
  voice : Option Int := none
  messages : Option Int := none
  required_voice : Option Int := none
  required_messages : Option Int := none
  error : Option String := none
  deriving DecidableEq, Repr

/-- The property `milestones[streakDay]`; `none` is `undefined`. -/
def Milestones.get (m : Milestones) (streakDay : Int) : Option Int :=
  if streakDay = 7 then some m.d7
  else if streakDay = 14 then some m.d14
  else if streakDay = 30 then some m.d30
  else if streakDay = 60 then some m.d60
  else if streakDay = 90 then some m.d90
  else none

/-- The description text of a milestone transaction. -/
def milestoneDescription (streakDay : Int) : String :=
  "Streak milestone: Day " ++ numberToString streakDay

/-- The row of the `INSERT INTO transactions` of `checkAndAwardMilestone`. -/
def milestoneTransaction (userId : String) (reward streakDay : Int) (now : Nat) : Transaction :=
  { user_id := userId, transaction_type := "streak_milestone", amount := reward,
    description := milestoneDescription streakDay, created_at := now }

/-- Function `checkAndAwardMilestone(userId, streakDay)`.  A failed insert of
the transaction row is caught inside the function: it then returns false and
the balance update before it stays. -/
def checkAndAwardMilestone (db : DB) (now : Nat) (userId : String) (streakDay : Int) :
    DB × Bool :=
  let settings := getStreakSettings db
  match settings.milestones.get streakDay with
  | none => (db, false)
  | some reward =>
    if reward = 0 then (db, false)
    else
      let db1 := { db with users := addGems db.users userId reward }
      if fkOk db1 userId then
        ({ db1 with transactions := db1.transactions ++
            [milestoneTransaction userId reward streakDay now] }, true)
      else (db1, false)

/-- The row of the `INSERT INTO activity_streaks` for a user without a record. -/
def freshStreak (today : Int) (userId : String) : ActivityStreak :=
  { user_id := userId, current_streak := 0, longest_streak := 0,
    last_activity_date := some today, today_voice_minutes := 0, today_messages := 0,
    streak_qualified_today := 0, total_streak_days := 0 }

/-- The database after that `INSERT INTO activity_streaks`. -/
def withFreshStreak (db : DB) (today : Int) (userId : String) : DB :=
  { db with activity_streaks := db.activity_streaks ++ [freshStreak today userId] }

/-- Lines 140-150 of `trackUserActivity`: get or create the streak record.  The
error is the exception that the surrounding `try` catches. -/
def loadOrCreateStreak (db : DB) (today : Int) (userId : String) :
    Except String (DB × ActivityStreak) :=
  match selectStreak db userId with
  | some streak => .ok (db, streak)
  | none =>
    if fkOk db userId then
      let db1 := withFreshStreak db today userId
      match selectStreak db1 userId with
      | some streak => .ok (db1, streak)
      | none => .error "Cannot read properties of undefined"
    else .error "FOREIGN KEY constraint failed"

/-- Lines 153-210 of `trackUserActivity`: the day rollover (continue, reset or
carry) or the same-day update of the counters. -/
def applyActivity (db : DB) (now : Nat) (userId : String) (streak : ActivityStreak)
    (voiceMinutes messages : Int) : DB :=
  let today := isoDate now
  if streak.last_activity_date ≠ some today then
    let yesterday := getYesterday now
    if streak.last_activity_date = some yesterday ∧ streak.streak_qualified_today = 1 then
      let newStreak := streak.current_streak + 1
      let longestStreak := max newStreak streak.longest_streak
      let db1 := updateStreak db userId (fun r =>
        { r with current_streak := newStreak, longest_streak := longestStreak,
                 last_activity_date := some today, today_voice_minutes := voiceMinutes,
                 today_messages := messages, streak_qualified_today := 0,
                 total_streak_days := r.total_streak_days + 1 })
      (checkAndAwardMilestone db1 now userId newStreak).1
    else if streak.last_activity_date ≠ some yesterday then
      updateStreak db userId (fun r =>
        { r with current_streak := 0, last_activity_date := some today,
                 today_voice_minutes := voiceMinutes, today_messages := messages,
                 streak_qualified_today := 0 })
    else
      updateStreak db userId (fun r =>
        { r with last_activity_date := some today, today_voice_minutes := voiceMinutes,
                 today_messages := messages, streak_qualified_today := 0 })
  else
    updateStreak db userId (fun r =>
      { r with today_voice_minutes := r.today_voice_minutes + voiceMinutes,
               today_messages := r.today_messages + messages })

/-- The row that lines 153-210 of `trackUserActivity` leave for a row `streak`
read before them (the assignments of the four `UPDATE` statements). -/
def rolledRow (now : Nat) (streak : ActivityStreak) (voiceMinutes messages : Int) :
    ActivityStreak :=
  let today := isoDate now
  let yesterday := getYesterday now
  if streak.last_activity_date ≠ some today then
    if streak.last_activity_date = some yesterday ∧ streak.streak_qualified_today = 1 then
      { streak with current_streak := streak.current_streak + 1,
                    longest_streak := max (streak.current_streak + 1) streak.longest_streak,
                    last_activity_date := some today, today_voice_minutes := voiceMinutes,
                    today_messages := messages, streak_qualified_today := 0,
                    total_streak_days := streak.total_streak_days + 1 }
    else if streak.last_activity_date ≠ some yesterday then
      { streak with current_streak := 0, last_activity_date := some today,
                    today_voice_minutes := voiceMinutes, today_messages := messages,
                    streak_qualified_today := 0 }
    else
      { streak with last_activity_date := some today, today_voice_minutes := voiceMinutes,
                    today_messages := messages, streak_qualified_today := 0 }
  else
    { streak with today_voice_minutes := streak.today_voice_minutes + voiceMinutes,
                  today_messages := streak.today_messages + messages }

/-- Lines 212-247 of `trackUserActivity`: the qualification check on the row
read back after the update. -/
def checkQualified (db : DB) (settings : Settings) (userId : String)
    (streak : ActivityStreak) (voiceMinutes messages : Int) : DB × TrackResult :=
  let totalVoice := streak.today_voice_minutes + voiceMinutes
  let totalMessages := streak.today_messages + messages
  if totalVoice ≥ settings.required_voice_minutes ∧
      totalMessages ≥ settings.required_messages ∧
      streak.streak_qualified_today = 0 then
    let db1 := updateStreak db userId (fun r => { r with streak_qualified_today := 1 })
    let reward := settings.streak_reward_gems
    ({ db1 with users := addGems db1.users userId reward },
     { qualified := true, reward := some reward, voice := some totalVoice,
       messages := some totalMessages,
       required_voice := some settings.required_voice_minutes,
       required_messages := some settings.required_messages })
  else
    (db,
     { qualified := false, voice := some totalVoice, messages := some totalMessages,
       required_voice := some settings.required_voice_minutes,
       required_messages := some settings.required_messages })

/-- Function `trackUserActivity(userId, voiceMinutes, messages)`.  An exception
is caught and reported as `qualified: false` with the error message. -/
def trackUserActivity (db : DB) (now : Nat) (userId : String)
    (voiceMinutes messages : Int) : DB × TrackResult :=
  let today := isoDate now
  let settings := getStreakSettings db
  match loadOrCreateStreak db today userId with
  | .error e => (db, { qualified := false, error := some e })
  | .ok (db1, streak) =>
    let db2 := applyActivity db1 now userId streak voiceMinutes messages
    match selectStreak db2 userId with
    | none => (db2, { qualified := false, error := some "Cannot read properties of undefined" })
    | some streak2 => checkQualified db2 settings userId streak2 voiceMinutes messages

/-- The property `today_progress` of a streak status. -/
structure TodayProgress where
  voice_minutes : Int
  messages : Int
  qualified : Bool
  voice_remaining : Int
  messages_remaining : Int
  deriving DecidableEq, Repr

/-- The object returned by `getUserStreakStatus`. -/
structure StreakStatus where
  current_streak : Int
  longest_streak : Int
  total_streak_days : Int
  today_progress : TodayProgress
  next_milestone : Option Int
  settings : Settings
  deriving DecidableEq, Repr

/-- Function `getUserStreakStatus(userId)`. -/
def getUserStreakStatus (db : DB) (now : Nat) (userId : String) : StreakStatus :=
  let today := isoDate now
  let settings := getStreakSettings db
  match selectStreak db userId with
  | none =>
    { current_streak := 0, longest_streak := 0, total_streak_days := 0,
      today_progress :=
        { voice_minutes := 0, messages := 0, qualified := false,
          voice_remaining := settings.required_voice_minutes,
          messages_remaining := settings.required_messages },
      next_milestone := some 7, settings := settings }
  | some row =>
    let streak : ActivityStreak :=
      if row.last_activity_date ≠ some today then
        { row with today_voice_minutes := 0, today_messages := 0, streak_qualified_today := 0 }
      else row
    let voiceRemaining := max 0 (settings.required_voice_minutes - streak.today_voice_minutes)
    let messagesRemaining := max 0 (settings.required_messages - streak.today_messages)
    { current_streak := streak.current_streak, longest_streak := streak.longest_streak,
      total_streak_days := streak.total_streak_days,
      today_progress :=
        { voice_minutes := streak.today_voice_minutes, messages := streak.today_messages,
          qualified := decide (streak.streak_qualified_today = 1),
          voice_remaining := voiceRemaining, messages_remaining := messagesRemaining },
      next_milestone := getNextMilestone streak.current_streak, settings := settings }

/-! ## daily-rewards.js: eligibility -/

/-- The query `SELECT ... FROM daily_rewards WHERE user_id = ?` with `.get`. -/
def selectDailyReward (db : DB) (userId : String) : Option DailyReward :=
  db.daily_rewards.find? (fun r => decide (r.user_id = userId))

/-- Helper `getNextClaimDate(currentDate)`. -/
def getNextClaimDate (currentDate : Int) : Int := currentDate + 1

/-- The object returned by `canClaimDailyReward`; an absent property is `none`. -/
structure ClaimCheck where
  canClaim : Bool
  streakDay : Option Int := none
  reason : Option String := none
  streakBroken : Option Bool := none
  isNewUser : Option Bool := none
  nextClaimDate : Option Int := none
  deriving DecidableEq, Repr

/-- Function `canClaimDailyReward(userId)`. -/
def canClaimDailyReward (db : DB) (now : Nat) (userId : String) : ClaimCheck :=
  let today := isoDate now
  match selectDailyReward db userId with
  | none => { canClaim := true, streakDay := some 1, isNewUser := some true }
  | some rewardData =>
    let lastClaim := rewardData.last_claim_date
    if lastClaim = some today then
      { canClaim := false, reason := some "already_claimed_today",
        nextClaimDate := some (getNextClaimDate today) }
    else
      let yesterday := getYesterday now
      let isStreakActive : Bool := decide (lastClaim = some yesterday) || lastClaim.isNone
      let newStreakDay : Int := if isStreakActive then rewardData.current_streak + 1 else 1
      { canClaim := true, streakDay := some newStreakDay,
        streakBroken := some (!isStreakActive && lastClaim.isSome) }

/-! ## daily-rewards.js: reward schedule and claim -/

/-- An entry of the reward schedule; `special` is absent on ordinary days. -/
structure Reward where
  gems : Int
  respect : Int
  description : String
  special : Option Bool := none
  deriving DecidableEq, Repr

/-- The constant `DAILY_REWARDS`, as the list of its properties. -/
def DAILY_REWARDS : List (String × Reward) :=
  [("day1", { gems := 10, respect := 1, description := "Day 1" }),
   ("day2", { gems := 15, respect := 1, description := "Day 2" }),
   ("day3", { gems := 20, respect := 2, description := "Day 3" }),
   ("day4", { gems := 25, respect := 2, description := "Day 4" }),
   ("day5", { gems := 30, respect := 3, description := "Day 5" }),
   ("day6", { gems := 40, respect := 3, description := "Day 6" }),
   ("day7", { gems := 100, respect := 10, description := "Week Milestone!", special := some true }),
   ("day14", { gems := 250, respect := 25, description := "2-Week Milestone!",
               special := some true }),
   ("day30", { gems := 500, respect := 50, description := "Month Milestone!",
               special := some true }),
   ("day60", { gems := 1000, respect := 100, description := "2-Month Milestone!",
               special := some true }),
   ("day90", { gems := 2000, respect := 200, description := "3-Month Milestone!",
               special := some true })]

/-- The property key built by the template text of `getDailyReward`. -/
def dayKey (streakDay : Int) : String := "day" ++ numberToString streakDay

/-- The property `DAILY_REWARDS[key]`; `none` is `undefined`. -/
def dailyRewardAt (key : String) : Option Reward :=
  (DAILY_REWARDS.find? (fun e => decide (e.1 = key))).map (fun e => e.2)

/-- Function `getDailyReward(streakDay)`; the divisions are `Math.floor`. -/
def getDailyReward (streakDay : Int) : Reward :=
  match dailyRewardAt (dayKey streakDay) with
  | some reward => reward
  | none =>
    if streakDay > 7 then
      let weekNumber := (streakDay - 1) / 7 + 1
      let baseGems := 40 + weekNumber * 5
      let baseRespect := 3 + weekNumber / 2
      { gems := baseGems, respect := baseRespect,
        description := "Day " ++ numberToString streakDay }
    else
      { gems := 10, respect := 1, description := "Day " ++ numberToString streakDay }

/-- The property `reward` of a successful claim: the schedule entry and `day`. -/
structure ClaimedReward where
  gems : Int
  respect : Int
  description : String
  special : Option Bool
  day : Int
  deriving DecidableEq, Repr

/-- The object `{ ...reward, day: streakDay }`. -/
def Reward.withDay (reward : Reward) (streakDay : Int) : ClaimedReward :=
  { gems := reward.gems, respect := reward.respect, description := reward.description,
    special := reward.special, day := streakDay }

/-- The object returned by `claimDailyReward`; an absent property is `none`,
and so is a `nextMilestone` that is `null`. -/
structure ClaimResult where
  success : Bool
  reward : Option ClaimedReward := none
  streakDay : Option Int := none
  nextMilestone : Option Int := none
  streakBroken : Option Bool := none
  error : Option String := none
  deriving DecidableEq, Repr

/-- The `CASE` expression that the upsert of `claimDailyReward` assigns to
`next_milestone`. -/
def nextMilestoneCase (streakDay : Int) : Int :=
  if streakDay ≥ 90 then 90
  else if streakDay ≥ 60 then 90
  else if streakDay ≥ 30 then 60
  else if streakDay ≥ 14 then 30
  else if streakDay ≥ 7 then 14
  else 7

/-- The assignments of the `DO UPDATE SET` of the upsert of `claimDailyReward`. -/
def claimedRow (r : DailyReward) (streakDay today : Int) : DailyReward :=
  { r with current_streak := streakDay, last_claim_date := some today,
           total_claims := r.total_claims + 1, next_milestone := nextMilestoneCase streakDay }

/-- The row of the `INSERT INTO daily_rewards` of `claimDailyReward`. -/
def firstClaimRow (userId : String) (streakDay today : Int) : DailyReward :=
  { user_id := userId, current_streak := streakDay, last_claim_date := some today,
    total_claims := 1, next_milestone := 7 }

/-- The statement `INSERT INTO daily_rewards ... ON CONFLICT(user_id) DO UPDATE`;
the error is the refused insert of a row for an unknown user. -/
def upsertDailyReward (db : DB) (userId : String) (streakDay today : Int) : Except String DB :=
  if db.daily_rewards.any (fun r => decide (r.user_id = userId)) then
    .ok { db with daily_rewards := db.daily_rewards.map (fun r =>
      if r.user_id = userId then claimedRow r streakDay today else r) }
  else if fkOk db userId then
    .ok { db with daily_rewards := db.daily_rewards ++ [firstClaimRow userId streakDay today] }
  else .error "FOREIGN KEY constraint failed"

/-- The statement `UPDATE users SET gems = gems + ?, respect_count =
respect_count + ? WHERE user_id = ?`. -/
def addGemsRespect (users : List User) (userId : String) (gems respect : Int) : List User :=
  users.map (fun u =>
    if u.user_id = userId then
      { u with gems := u.gems + gems, respect_count := u.respect_count + respect }
    else u)

/-- The row of the `INSERT INTO reward_claims` of `claimDailyReward`. -/
def rewardClaimRow (userId : String) (today streakDay : Int) (reward : Reward) (now : Nat) :
    RewardClaim :=
  { user_id := userId, claim_date := today, day_number := streakDay, reward_type := "daily",
    reward_value := reward.gems, claimed_at := now }

/-- The row of the `INSERT INTO transactions` of `claimDailyReward`. -/
def dailyRewardTransaction (userId : String) (streakDay : Int) (reward : Reward) (now : Nat) :
    Transaction :=
  { user_id := userId, transaction_type := "daily_reward", amount := reward.gems,
    description := "Daily reward: Day " ++ numberToString streakDay, created_at := now }

/-- The result of `claimDailyReward` when an exception was caught. -/
def claimFailed (message : String) : ClaimResult :=
  { success := false, error := some message }

/-- Function `claimDailyReward(userId)`.  The statements run one after the
other without a transaction, so a caught exception leaves the writes before it.
A check with `canClaim` true always carries `streakDay`, so the branch for an
absent `streakDay` is never taken. -/
def claimDailyReward (db : DB) (now : Nat) (userId : String) : DB × ClaimResult :=
  let claimCheck := canClaimDailyReward db now userId
  if claimCheck.canClaim = false then
    (db, claimFailed
      (match claimCheck.reason with
       | some reason => if reason = "" then "Cannot claim reward" else reason
       | none => "Cannot claim reward"))
  else
    let today := isoDate now
    match claimCheck.streakDay with
    | none => (db, claimFailed "streakDay is undefined")
    | some streakDay =>
      let reward := getDailyReward streakDay
      match upsertDailyReward db userId streakDay today with
      | .error e => (db, claimFailed e)
      | .ok db1 =>
        if fkOk db1 userId then
          let db2 := { db1 with reward_claims := db1.reward_claims ++
            [rewardClaimRow userId today streakDay reward now] }
          let users3 := addGemsRespect db2.users userId reward.gems reward.respect
          let db3 := { db2 with users := users3 }
          if fkOk db3 userId then
            ({ db3 with transactions := db3.transactions ++
                [dailyRewardTransaction userId streakDay reward now] },
             { success := true,
               reward := some (reward.withDay streakDay),
               streakDay := some streakDay,
               nextMilestone := getNextMilestone streakDay,
               streakBroken := some (claimCheck.streakBroken.getD false) })
          else (db3, claimFailed "FOREIGN KEY constraint failed")
        else (db1, claimFailed "FOREIGN KEY constraint failed")

/-- The database after a claim in which every statement ran. -/
def claimedDb (db1 : DB) (now : Nat) (u : String) (d : Int) : DB :=
  { db1 with
    reward_claims := db1.reward_claims ++ [rewardClaimRow u (isoDate now) d (getDailyReward d) now]
    users := addGemsRespect db1.users u (getDailyReward d).gems (getDailyReward d).respect
    transactions := db1.transactions ++ [dailyRewardTransaction u d (getDailyReward d) now] }

/-- The result of a claim in which every statement ran. -/
def claimedResult (db : DB) (now : Nat) (u : String) (d : Int) : ClaimResult :=
  { success := true, reward := some ((getDailyReward d).withDay d), streakDay := some d,
    nextMilestone := getNextMilestone d,
    streakBroken := some ((canClaimDailyReward db now u).streakBroken.getD false) }

/-- The milestone days of the daily-reward streak. -/
def claimMilestones : List Int := [7, 14, 30, 60, 90]

/-! ## quests-trades.js: quests -/

/-- An entry of `questTemplates` or `weeklyTemplates`. -/
structure QuestTemplate where
  type : String
  name : String
  desc : String
  req : Int
  gems : Int
  respect : Int
  deriving DecidableEq, Repr

/-- The array `questTemplates` of `generateDailyQuests`. -/
def questTemplates : List QuestTemplate :=
  [{ type := "voice", name := "Vocal Legend", desc := "Stay in voice for 30 minutes",
     req := 30, gems := 5, respect := 2 },
   { type := "voice", name := "Chatterbox", desc := "Stay in voice for 60 minutes",
     req := 60, gems := 10, respect := 5 },
   { type := "messages", name := "Text Master", desc := "Send 20 messages",
     req := 20, gems := 5, respect := 2 },
   { type := "messages", name := "Conversation King", desc := "Send 50 messages",
     req := 50, gems := 10, respect := 5 },
   { type := "respect", name := "Generous Soul", desc := "Give 3 Respect",
     req := 3, gems := 5, respect := 0 },
   { type := "friends", name := "Social Butterfly", desc := "Add 2 new friends",
     req := 2, gems := 10, respect := 3 }]

/-- The array `weeklyTemplates` of `generateWeeklyQuests`. -/
def weeklyTemplates : List QuestTemplate :=
  [{ type := "voice", name := "Weekly Warrior",
     desc := "Stay in voice for 300 minutes this week", req := 300, gems := 50, respect := 20 },
   { type := "messages", name := "Message Marathon", desc := "Send 500 messages this week",
     req := 500, gems := 50, respect := 20 },
   { type := "streak", name := "Streak Master", desc := "Maintain a 7-day streak",
     req := 7, gems := 100, respect := 30 },
   { type := "respect", name := "Respectful", desc := "Give 20 Respect this week",
     req := 20, gems := 75, respect := 10 }]

/-- The autoincrement key given to the next row of `quests`. -/
def nextQuestId (quests : List Quest) : Nat :=
  (quests.map (fun q => q.quest_id)).foldl max 0 + 1

/-- The row of an `INSERT INTO quests` for a template. -/
def questRow (questId : Nat) (questType : String) (q : QuestTemplate) (startDate endDate : Int)
    (isWeekly : Int) : Quest :=
  { quest_id := questId, quest_type := questType, quest_name := q.name,
    quest_description := q.desc, requirement_type := q.type, requirement_value := q.req,
    reward_gems := q.gems, reward_respect := q.respect, start_date := startDate,
    end_date := endDate, is_weekly := isWeekly }

/-- One `INSERT INTO quests` of the `forEach` over the selected templates. -/
def insertQuest (questType : String) (startDate endDate : Int) (isWeekly : Int) (db : DB)
    (q : QuestTemplate) : DB :=
  { db with quests := db.quests ++
      [questRow (nextQuestId db.quests) questType q startDate endDate isWeekly] }

/-- Function `generateDailyQuests()`.  The argument `shuffled` is the array
left by `questTemplates.sort(() => 0.5 - Math.random())`, a rearrangement of
the templates decided by the random source. -/
def generateDailyQuests (db : DB) (now : Nat) (shuffled : List QuestTemplate) : DB :=
  let today := isoDate now
  let tomorrowStr := isoDate now + 1
  let count := (db.quests.filter (fun q => decide (q.start_date = today))).length
  if count = 0 then
    let selected := shuffled.take 3
    selected.foldl (insertQuest "daily" today tomorrowStr 0) db
  else db

/-- The method `getDay()` of the clock date: 0 is Sunday; day 0 of the epoch
was a Thursday. -/
def getDay (now : Nat) : Int := (isoDate now + 4) % 7

/-- The date text `weekStartStr` of `generateWeeklyQuests`. -/
def weekStart (now : Nat) : Int := isoDate now - getDay now

/-- Function `generateWeeklyQuests()`.  The argument `shuffled` is the array
left by `weeklyTemplates.sort(() => 0.5 - Math.random())`. -/
def generateWeeklyQuests (db : DB) (now : Nat) (shuffled : List QuestTemplate) : DB :=
  let weekStartStr := weekStart now
  let weekEndStr := weekStart now + 7
  let count := (db.quests.filter
    (fun q => decide (q.start_date = weekStartStr ∧ q.is_weekly = 1))).length
  if count = 0 then
    let selected := shuffled.take 2
    selected.foldl (insertQuest "weekly" weekStartStr weekEndStr 1) db
  else db

/-- The query of `updateQuestProgress`: the quests of the requirement type
that are active today, left-joined with the user's rows of `user_quests`, kept
when the joined row is missing or not completed.  The result rows are the pairs
of `quest_id` and `requirement_value`. -/
def activeQuestRows (db : DB) (today : Int) (userId type : String) : List (Nat × Int) :=
  db.quests.flatMap (fun q =>
    if q.requirement_type = type ∧ q.start_date ≤ today ∧ q.end_date > today then
      let joined := db.user_quests.filter
        (fun uq => decide (uq.quest_id = q.quest_id ∧ uq.user_id = userId))
      if joined.isEmpty then [(q.quest_id, q.requirement_value)]
      else (joined.filter (fun uq => decide (uq.completed = 0))).map
        (fun _ => (q.quest_id, q.requirement_value))
    else [])

/-- The query `SELECT ... FROM user_quests WHERE user_id = ? AND quest_id = ?`
with `.get`. -/
def selectUserQuest (db : DB) (userId : String) (questId : Nat) : Option UserQuest :=
  db.user_quests.find? (fun r => decide (r.user_id = userId ∧ r.quest_id = questId))

/-- The row of the `INSERT INTO user_quests` of `updateQuestProgress`;
`completed` and `claimed` take their default 0. -/
def freshUserQuest (userId : String) (questId : Nat) (amount : Int) (now : Nat) : UserQuest :=
  { user_id := userId, quest_id := questId, progress := amount, completed := 0, claimed := 0,
    started_at := now }

/-- The statement `INSERT INTO user_quests ... ON CONFLICT(user_id, quest_id)
DO UPDATE SET progress = progress + ?`.  The quest key was read from `quests`,
so only the reference to the user can be refused. -/
def upsertProgress (db : DB) (now : Nat) (userId : String) (questId : Nat) (amount : Int) :
    Except String DB :=
  if db.user_quests.any (fun r => decide (r.user_id = userId ∧ r.quest_id = questId)) then
    .ok { db with user_quests := db.user_quests.map (fun r =>
      if r.user_id = userId ∧ r.quest_id = questId then { r with progress := r.progress + amount }
      else r) }
  else if fkOk db userId then
    .ok { db with user_quests := db.user_quests ++ [freshUserQuest userId questId amount now] }
  else .error "FOREIGN KEY constraint failed"

/-- The statement `UPDATE user_quests SET completed = 1 WHERE user_id = ? AND
quest_id = ?`. -/
def markCompleted (db : DB) (userId : String) (questId : Nat) : DB :=
  { db with user_quests := db.user_quests.map (fun r =>
      if r.user_id = userId ∧ r.quest_id = questId then { r with completed := 1 } else r) }

/-- The body of the `forEach` of `updateQuestProgress` for one result row. -/
def progressStep (now : Nat) (userId : String) (amount : Int) (db : DB) (quest : Nat × Int) :
    Except String DB :=
  match upsertProgress db now userId quest.1 amount with
  | .error e => .error e
  | .ok db1 =>
    match selectUserQuest db1 userId quest.1 with
    | none => .error "Cannot read properties of undefined"
    | some current =>
      if current.progress ≥ quest.2 then .ok (markCompleted db1 userId quest.1) else .ok db1

/-- The `forEach` of `updateQuestProgress`: the database so far and the
exception that ended the loop, if any. -/
def progressLoop (now : Nat) (userId : String) (amount : Int) :
    List (Nat × Int) → DB → DB × Option String
  | [], db => (db, none)
  | quest :: rest, db =>
    match progressStep now userId amount db quest with
    | .error e => (db, some e)
    | .ok db1 => progressLoop now userId amount rest db1

/-- Function `updateQuestProgress(userId, type, amount)`.  The function has no
`try`: the second component is the exception it throws, if any, and the first
the database at that point. -/
def updateQuestProgress (db : DB) (now : Nat) (userId type : String) (amount : Int) :
    DB × Option String :=
  progressLoop now userId amount (activeQuestRows db (isoDate now) userId type) db

/-- The object returned by `claimQuestReward`; `rewards` holds gems and respect. -/
structure QuestClaimResult where
  success : Bool
  error : Option String := none
  rewards : Option (Int × Int) := none
  deriving DecidableEq, Repr

/-- The statement `UPDATE users SET respect_count = respect_count + ? WHERE
user_id = ?`. -/
def addRespect (users : List User) (userId : String) (amount : Int) : List User :=
  users.map (fun u =>
    if u.user_id = userId then { u with respect_count := u.respect_count + amount } else u)

/-- The row of the `INSERT INTO transactions` of `claimQuestReward`. -/
def questTransaction (userId : String) (quest : Quest) (now : Nat) : Transaction :=
  { user_id := userId, transaction_type := "quest_reward", amount := quest.reward_gems,
    description := "Quest: " ++ quest.quest_name, created_at := now }

/-- The statement `UPDATE user_quests SET claimed = 1 WHERE user_id = ? AND
quest_id = ?`. -/
def markClaimed (db : DB) (userId : String) (questId : Nat) : DB :=
  { db with user_quests := db.user_quests.map (fun r =>
      if r.user_id = userId ∧ r.quest_id = questId then { r with claimed := 1 } else r) }

/-- The gems part of `claimQuestReward`: balance update and transaction row. -/
def giveQuestGems (db : DB) (now : Nat) (userId : String) (quest : Quest) :
    DB × Option String :=
  if quest.reward_gems > 0 then
    let db1 := { db with users := addGems db.users userId quest.reward_gems }
    if fkOk db1 userId then
      ({ db1 with transactions := db1.transactions ++ [questTransaction userId quest now] }, none)
    else (db1, some "FOREIGN KEY constraint failed")
  else (db, none)

/-- Function `claimQuestReward(userId, questId)`.  The function has no `try`:
`Except.error` is an exception it throws, next to the database at that point. -/
def claimQuestReward (db : DB) (now : Nat) (userId : String) (questId : Nat) :
    DB × Except String QuestClaimResult :=
  match db.user_quests.find? (fun r =>
      decide (r.user_id = userId ∧ r.quest_id = questId ∧ r.completed = 1 ∧ r.claimed = 0)) with
  | none => (db, .ok { success := false, error := some "Quest not completed or already claimed" })
  | some _ =>
    match db.quests.find? (fun q => decide (q.quest_id = questId)) with
    | none => (db, .error "Cannot read properties of undefined")
    | some quest =>
      match giveQuestGems db now userId quest with
      | (db1, some e) => (db1, .error e)
      | (db1, none) =>
        let db2 :=
          if quest.reward_respect > 0 then
            { db1 with users := addRespect db1.users userId quest.reward_respect }
          else db1
        (markClaimed db2 userId questId,
         .ok { success := true, rewards := some (quest.reward_gems, quest.reward_respect) })

/-- The bounds on the streak columns of a row: `0 ≤ current_streak ≤
longest_streak`. -/
def streakBounds (r : ActivityStreak) : Prop :=
  0 ≤ r.current_streak ∧ r.current_streak ≤ r.longest_streak

instance (r : ActivityStreak) : Decidable (streakBounds r) := by
  unfold streakBounds; infer_instance

/-- Every row of `activity_streaks` satisfies `streakBounds`. -/
def streaksBounded (db : DB) : Prop := ∀ r ∈ db.activity_streaks, streakBounds r

instance (db : DB) : Decidable (streaksBounded db) := by
  unfold streaksBounded; infer_instance

/-! ## quests-trades.js: trades -/

/-- The object returned by `createTrade`, `acceptTrade` and `rejectTrade`. -/
structure TradeResult where
  success : Bool
  error : Option String := none
  trade_id : Option Nat := none
  deriving DecidableEq, Repr

/-- The query `SELECT 1 FROM friends WHERE user_id = ? AND friend_id = ?`:
whether it finds a row. -/
def areFriends (db : DB) (userId friendId : String) : Bool :=
  db.friends.any (fun f => decide (f.user_id = userId ∧ f.friend_id = friendId))

/-- The statements of the route `POST /api/friends/add` of server.js on valid
ids: a request between new friends inserts both directions.  The second insert
is refused by `UNIQUE(user_id, friend_id)` when its row exists; the route
catches that and the first row stays. -/
def addFriend (db : DB) (now : Nat) (userId friendId : String) : DB :=
  if userId = "" ∨ friendId = "" ∨ userId = friendId then db
  else if areFriends db userId friendId then db
  else
    let db1 := { db with friends := db.friends ++
      [{ user_id := userId, friend_id := friendId, created_at := now }] }
    if areFriends db1 friendId userId then db1
    else { db1 with friends := db1.friends ++
      [{ user_id := friendId, friend_id := userId, created_at := now }] }

/-- The statements of the route `POST /api/friends/remove` of server.js: both
directions are deleted. -/
def removeFriend (db : DB) (userId friendId : String) : DB :=
  if userId = "" ∨ friendId = "" then db
  else
    let rows := db.friends.filter
      (fun f => !decide (f.user_id = userId ∧ f.friend_id = friendId))
    { db with friends :=
        rows.filter (fun f => !decide (f.user_id = friendId ∧ f.friend_id = userId)) }

/-- The comparison `balance < parseInt(value)`; it is false against `NaN`. -/
def lessThanParsed (balance : Int) (value : Option Int) : Bool :=
  match value with
  | some v => decide (balance < v)
  | none => false

/-- The two balance checks of `createTrade` (on the sender and the offer) and of
`acceptTrade` (on the receiver and the request).  `Except.error` is the
exception of reading a column of a missing user; `some` is the error text of
the refusal. -/
def checkBalance (db : DB) (userId type : String) (value : Option Int) :
    Except String (Option String) :=
  if type = "gems" then
    match selectUser db userId with
    | none => .error "Cannot read properties of undefined"
    | some user =>
      if lessThanParsed user.gems value then .ok (some "Insufficient gems") else .ok none
  else if type = "respect" then
    match selectUser db userId with
    | none => .error "Cannot read properties of undefined"
    | some user =>
      if lessThanParsed user.respect_count value then .ok (some "Insufficient respect")
      else .ok none
  else .ok none

/-- The autoincrement key given to the next row of `trades`. -/
def nextTradeId (trades : List Trade) : Nat :=
  (trades.map (fun t => t.trade_id)).foldl max 0 + 1

/-- The row of the `INSERT INTO trades` of `createTrade`; `status` takes its
default. -/
def newTrade (tradeId : Nat) (senderId receiverId offerType offerValue requestType
    requestValue : String) (now : Nat) : Trade :=
  { trade_id := tradeId, sender_id := senderId, receiver_id := receiverId,
    offer_type := offerType, offer_value := offerValue, request_type := requestType,
    request_value := requestValue, status := "pending", created_at := now, updated_at := none }

/-- Function `createTrade(senderId, receiverId, offerType, offerValue,
requestType, requestValue)`; the values are the texts stored in the row.  The
function has no `try`: `Except.error` is an exception it throws. -/
def createTrade (db : DB) (now : Nat) (senderId receiverId offerType offerValue requestType
    requestValue : String) : DB × Except String TradeResult :=
  if areFriends db senderId receiverId = false then
    (db, .ok { success := false, error := some "Can only trade with friends" })
  else
    match checkBalance db senderId offerType (parseInt (some offerValue)) with
    | .error e => (db, .error e)
    | .ok (some refusal) => (db, .ok { success := false, error := some refusal })
    | .ok none =>
      if fkOk db senderId ∧ fkOk db receiverId then
        let tradeId := nextTradeId db.trades
        ({ db with trades := db.trades ++
            [newTrade tradeId senderId receiverId offerType offerValue requestType requestValue
              now] },
         .ok { success := true, trade_id := some tradeId })
      else (db, .error "FOREIGN KEY constraint failed")

/-- The query `SELECT * FROM trades WHERE trade_id = ? AND receiver_id = ? AND
status = 'pending'` with `.get`. -/
def selectPendingTrade (db : DB) (tradeId : Nat) (userId : String) : Option Trade :=
  db.trades.find? (fun t =>
    decide (t.trade_id = tradeId ∧ t.receiver_id = userId ∧ t.status = "pending"))

/-- The statements `UPDATE users SET gems = gems - ?` and `UPDATE users SET
respect_count = respect_count - ?` of `acceptTrade`, chosen by the type; any
other type runs no statement. -/
def debit (users : List User) (type : String) (amount : Int) (userId : String) : List User :=
  if type = "gems" then
    users.map (fun u => if u.user_id = userId then { u with gems := u.gems - amount } else u)
  else if type = "respect" then
    users.map (fun u =>
      if u.user_id = userId then { u with respect_count := u.respect_count - amount } else u)
  else users

/-- The statements `UPDATE users SET gems = gems + ?` and `UPDATE users SET
respect_count = respect_count + ?` of `acceptTrade`, chosen by the type. -/
def credit (users : List User) (type : String) (amount : Int) (userId : String) : List User :=
  if type = "gems" then
    users.map (fun u => if u.user_id = userId then { u with gems := u.gems + amount } else u)
  else if type = "respect" then
    users.map (fun u =>
      if u.user_id = userId then { u with respect_count := u.respect_count + amount } else u)
  else users

/-- The statement `UPDATE trades SET status = ?, updated_at = ? WHERE trade_id = ?`. -/
def setTradeStatus (trades : List Trade) (tradeId : Nat) (status : String) (now : Nat) :
    List Trade :=
  trades.map (fun t =>
    if t.trade_id = tradeId then { t with status := status, updated_at := some now } else t)

/-- A row of the two `INSERT INTO transactions` of `acceptTrade`. -/
def tradeTransaction (userId : String) (amount : Int) (now : Nat) : Transaction :=
  { user_id := userId, transaction_type := "trade", amount := amount,
    description := "Trade with user", created_at := now }

/-- Lines 238-290 of `acceptTrade` on number balances, for value texts that are
numbers: the four balance statements, the status update and the two
transaction rows. -/
def executeTrade (db : DB) (now : Nat) (tradeId : Nat) (userId : String) (trade : Trade)
    (offer request : Int) : DB × Except String TradeResult :=
  let users1 := debit db.users trade.offer_type offer trade.sender_id
  let users2 := credit users1 trade.request_type request trade.sender_id
  let users3 := debit users2 trade.request_type request userId
  let users4 := credit users3 trade.offer_type offer userId
  let db1 := { db with users := users4, trades := setTradeStatus db.trades tradeId "accepted" now }
  if fkOk db1 trade.sender_id then
    let db2 := { db1 with transactions := db1.transactions ++
      [tradeTransaction trade.sender_id (-offer) now] }
    if fkOk db2 userId then
      ({ db2 with transactions := db2.transactions ++ [tradeTransaction userId (-request) now] },
       .ok { success := true })
    else (db2, .error "FOREIGN KEY constraint failed")
  else (db1, .error "FOREIGN KEY constraint failed")

/-- A row of `users` as the statements of `acceptTrade` leave it: a balance
cell holds NULL, here `none`, after arithmetic with a NULL parameter. -/
structure UserCells where
  user_id : String
  gems : Option Int
  respect_count : Option Int
  total_voice_minutes : Int
  total_messages : Int
  streak_count : Int
  deriving DecidableEq, Repr

/-- A row of `users` whose balance cells hold numbers. -/
def User.cells (u : User) : UserCells :=
  { user_id := u.user_id, gems := some u.gems, respect_count := some u.respect_count,
    total_voice_minutes := u.total_voice_minutes, total_messages := u.total_messages,
    streak_count := u.streak_count }

/-- The row read back when no balance cell is NULL. -/
def UserCells.toUser (c : UserCells) : Option User :=
  match c.gems, c.respect_count with
  | some gems, some respect =>
    some { user_id := c.user_id, gems := gems, respect_count := respect,
           total_voice_minutes := c.total_voice_minutes, total_messages := c.total_messages,
           streak_count := c.streak_count }
  | _, _ => none

/-- The users table read back when no balance cell of any row is NULL. -/
def readUsers : List UserCells → Option (List User)
  | [] => some []
  | c :: rest =>
    match c.toUser, readUsers rest with
    | some u, some us => some (u :: us)
    | _, _ => none

/-- The SQL expression `cell - ?`; the parameter is the result of `parseInt`,
and `NaN` is bound as NULL: the difference is then NULL. -/
def sqlSub (cell parameter : Option Int) : Option Int :=
  match cell, parameter with
  | some a, some b => some (a - b)
  | _, _ => none

/-- The SQL expression `cell + ?`, NULL when the cell or the parameter is. -/
def sqlAdd (cell parameter : Option Int) : Option Int :=
  match cell, parameter with
  | some a, some b => some (a + b)
  | _, _ => none

/-- The statements `UPDATE users SET gems = gems - ?` and `UPDATE users SET
respect_count = respect_count - ?` of `acceptTrade`, chosen by the type, with
the parameter `parseInt(value)`; any other type runs no statement. -/
def debitCells (cells : List UserCells) (type : String) (amount : Option Int)
    (userId : String) : List UserCells :=
  if type = "gems" then
    cells.map (fun c => if c.user_id = userId then { c with gems := sqlSub c.gems amount } else c)
  else if type = "respect" then
    cells.map (fun c =>
      if c.user_id = userId then { c with respect_count := sqlSub c.respect_count amount } else c)
  else cells

/-- The statements `UPDATE users SET gems = gems + ?` and `UPDATE users SET
respect_count = respect_count + ?` of `acceptTrade`, chosen by the type. -/
def creditCells (cells : List UserCells) (type : String) (amount : Option Int)
    (userId : String) : List UserCells :=
  if type = "gems" then
    cells.map (fun c => if c.user_id = userId then { c with gems := sqlAdd c.gems amount } else c)
  else if type = "respect" then
    cells.map (fun c =>
      if c.user_id = userId then { c with respect_count := sqlAdd c.respect_count amount } else c)
  else cells

/-- Whether a row referencing `userId` can be inserted, on a users table given
by its cells. -/
def cellsFkOk (db : DB) (cells : List UserCells) (userId : String) : Bool :=
  !db.foreign_keys || cells.any (fun c => decide (c.user_id = userId))

/-- A run of `acceptTrade`: the three tables it writes, as it leaves them, and
what it returns or throws (`Except.error`; the function has no `try`). -/
structure TradeRun where
  users : List UserCells
  trades : List Trade
  transactions : List Transaction
  result : Except String TradeResult

/-- A run that wrote nothing. -/
def TradeRun.unchanged (db : DB) (result : Except String TradeResult) : TradeRun :=
  { users := db.users.map User.cells, trades := db.trades, transactions := db.transactions,
    result := result }

/-- The database after a run, when the run left no balance cell NULL. -/
def TradeRun.readBack (db : DB) (run : TradeRun) : Option (DB × Except String TradeResult) :=
  match readUsers run.users with
  | some users =>
    some ({ db with users := users, trades := run.trades, transactions := run.transactions },
          run.result)
  | none => none

/-- Lines 238-290 of `acceptTrade`: the four balance statements, the status
update and the two inserts into `transactions`.  A value text that is not a
number reaches the statements as NULL; `transactions.amount` is `NOT NULL`, so
the insert of such an amount throws, after the statements before it. -/
def executeTradeCells (db : DB) (now : Nat) (tradeId : Nat) (userId : String)
    (trade : Trade) : TradeRun :=
  let offer := parseInt (some trade.offer_value)
  let request := parseInt (some trade.request_value)
  let cells1 := debitCells (db.users.map User.cells) trade.offer_type offer trade.sender_id
  let cells2 := creditCells cells1 trade.request_type request trade.sender_id
  let cells3 := debitCells cells2 trade.request_type request userId
  let cells4 := creditCells cells3 trade.offer_type offer userId
  let trades := setTradeStatus db.trades tradeId "accepted" now
  match offer with
  | none =>
    { users := cells4, trades := trades, transactions := db.transactions,
      result := .error "NOT NULL constraint failed: transactions.amount" }
  | some offerAmount =>
    if cellsFkOk db cells4 trade.sender_id then
      let rows1 := db.transactions ++ [tradeTransaction trade.sender_id (-offerAmount) now]
      match request with
      | none =>
        { users := cells4, trades := trades, transactions := rows1,
          result := .error "NOT NULL constraint failed: transactions.amount" }
      | some requestAmount =>
        if cellsFkOk db cells4 userId then
          { users := cells4, trades := trades,
            transactions := rows1 ++ [tradeTransaction userId (-requestAmount) now],
            result := .ok { success := true } }
        else
          { users := cells4, trades := trades, transactions := rows1,
            result := .error "FOREIGN KEY constraint failed" }
    else
      { users := cells4, trades := trades, transactions := db.transactions,
        result := .error "FOREIGN KEY constraint failed" }

/-- Function `acceptTrade(tradeId, userId)`, with every cell it writes. -/
def acceptTradeCells (db : DB) (now : Nat) (tradeId : Nat) (userId : String) : TradeRun :=
  match selectPendingTrade db tradeId userId with
  | none =>
    TradeRun.unchanged db
      (.ok { success := false, error := some "Trade not found or already processed" })
  | some trade =>
    match checkBalance db userId trade.request_type (parseInt (some trade.request_value)) with
    | .error e => TradeRun.unchanged db (.error e)
    | .ok (some refusal) => TradeRun.unchanged db (.ok { success := false, error := some refusal })
    | .ok none => executeTradeCells db now tradeId userId trade

/-- Function `acceptTrade(tradeId, userId)`, read back as a database with
number balances: the run `acceptTradeCells`, and `none` exactly when that run
left a balance cell NULL. -/
def acceptTrade (db : DB) (now : Nat) (tradeId : Nat) (userId : String) :
    Option (DB × Except String TradeResult) :=
  (acceptTradeCells db now tradeId userId).readBack db

/-- The query `SELECT SUM(gems) FROM users` on cells: NULL cells do not count. -/
def cellsGems (cells : List UserCells) : Int := (cells.filterMap (fun c => c.gems)).sum

/-- The query `SELECT SUM(respect_count) FROM users` on cells. -/
def cellsRespect (cells : List UserCells) : Int :=
  (cells.filterMap (fun c => c.respect_count)).sum

/-- Function `rejectTrade(tradeId, userId)`. -/
def rejectTrade (db : DB) (now : Nat) (tradeId : Nat) (userId : String) : DB × TradeResult :=
  match selectPendingTrade db tradeId userId with
  | none => (db, { success := false, error := some "Trade not found" })
  | some _ =>
    ({ db with trades := setTradeStatus db.trades tradeId "rejected" now }, { success := true })

/-- The amount that a leg of the given type moves in `resource`: the amount
when the type is that resource, nothing otherwise. -/
def legAmount (type resource : String) (amount : Int) : Int :=
  if type = resource then amount else 0

/-- A user row after a debit of `out` in `outType` followed by a credit of
`into` in `inType`. -/
def settledRow (outType : String) (out : Int) (inType : String) (into : Int) (u : User) : User :=
  { u with
    gems := u.gems - legAmount outType "gems" out + legAmount inType "gems" into,
    respect_count :=
      u.respect_count - legAmount outType "respect" out + legAmount inType "respect" into }

/-- The users after the four legs of a trade between two different users. -/
def settledUsers (users : List User) (trade : Trade) (receiverId : String)
    (offer request : Int) : List User :=
  users.map (fun u =>
    if u.user_id = trade.sender_id then
      settledRow trade.offer_type offer trade.request_type request u
    else if u.user_id = receiverId then
      settledRow trade.request_type request trade.offer_type offer u
    else u)

/-- The sum of `gems` over all users. -/
def totalGems (db : DB) : Int := (db.users.map (fun u => u.gems)).sum

/-- The sum of `respect_count` over all users. -/
def totalRespect (db : DB) : Int := (db.users.map (fun u => u.respect_count)).sum

/-- The key declared `PRIMARY KEY` of `users` is unique. -/
def userKeysUnique (db : DB) : Prop := (db.users.map (fun u => u.user_id)).Nodup

instance (db : DB) : Decidable (userKeysUnique db) := by
  unfold userKeysUnique; infer_instance

/-- The references declared `FOREIGN KEY` of `trades`: sender and receiver of
every trade are rows of `users`. -/
def tradesReferenceUsers (db : DB) : Prop :=
  ∀ t ∈ db.trades, userExists db t.sender_id = true ∧ userExists db t.receiver_id = true

instance (db : DB) : Decidable (tradesReferenceUsers db) := by
  unfold tradesReferenceUsers; infer_instance

/-- The friend rows come in both directions, as the friend routes write them. -/
def friendsSymmetric (db : DB) : Prop :=
  ∀ f ∈ db.friends, areFriends db f.friend_id f.user_id = true

instance (db : DB) : Decidable (friendsSymmetric db) := by
  unfold friendsSymmetric; infer_instance

/-! ## achievements.js -/

/-- The constant `ACHIEVEMENTS`, as the list of its values in property order. -/
def ACHIEVEMENTS : List Achievement :=
  [{ achievement_id := "voice_novice", name := "Voice Novice",
     description := "Spend 60 minutes in voice channels",
     category := "voice", requirement_type := "total_voice_minutes",
     requirement_value := 60, reward_gems := 50,
     reward_badge := "voice_bronze", icon := "🎤", rarity := "common" },
   { achievement_id := "voice_enthusiast", name := "Voice Enthusiast",
     description := "Spend 500 minutes in voice channels",
     category := "voice", requirement_type := "total_voice_minutes",
     requirement_value := 500, reward_gems := 150,
     reward_badge := "voice_silver", icon := "🎧", rarity := "uncommon" },
   { achievement_id := "voice_master", name := "Voice Master",
     description := "Spend 2000 minutes in voice channels",
     category := "voice", requirement_type := "total_voice_minutes",
     requirement_value := 2000, reward_gems := 500,
     reward_badge := "voice_gold", icon := "🎙️", rarity := "rare" },
   { achievement_id := "night_owl", name := "Night Owl",
     description := "Be in voice between 12 AM - 6 AM ten times",
     category := "voice", requirement_type := "late_night_sessions",
     requirement_value := 10, reward_gems := 200,
     reward_badge := "night_owl", icon := "🦉", rarity := "rare" },
   { achievement_id := "chatterbox", name := "Chatterbox",
     description := "Send 1000 messages",
     category := "messages", requirement_type := "total_messages",
     requirement_value := 1000, reward_gems := 100,
     reward_badge := "message_bronze", icon := "💬", rarity := "common" },
   { achievement_id := "conversation_king", name := "Conversation King",
     description := "Send 5000 messages",
     category := "messages", requirement_type := "total_messages",
     requirement_value := 5000, reward_gems := 300,
     reward_badge := "message_silver", icon := "👑", rarity := "uncommon" },
   { achievement_id := "message_legend", name := "Message Legend",
     description := "Send 20000 messages",
     category := "messages", requirement_type := "total_messages",
     requirement_value := 20000, reward_gems := 1000,
     reward_badge := "message_gold", icon := "⭐", rarity := "epic" },
   { achievement_id := "streak_starter", name := "Streak Starter",
     description := "Maintain a 7-day streak",
     category := "streaks", requirement_type := "streak_count",
     requirement_value := 7, reward_gems := 100,
     reward_badge := "streak_week", icon := "🔥", rarity := "common" },
   { achievement_id := "loyal_member", name := "Loyal Member",
     description := "Maintain a 30-day streak",
     category := "streaks", requirement_type := "streak_count",
     requirement_value := 30, reward_gems := 500,
     reward_badge := "streak_month", icon := "💎", rarity := "rare" },
   { achievement_id := "dedication_master", name := "Dedication Master",
     description := "Maintain a 100-day streak",
     category := "streaks", requirement_type := "streak_count",
     requirement_value := 100, reward_gems := 2000,
     reward_badge := "streak_legend", icon := "👑", rarity := "legendary" },
   { achievement_id := "social_butterfly", name := "Social Butterfly",
     description := "Add 10 friends",
     category := "social", requirement_type := "friends_count",
     requirement_value := 10, reward_gems := 150,
     reward_badge := "social_bronze", icon := "🦋", rarity := "common" },
   { achievement_id := "generous_soul", name := "Generous Soul",
     description := "Give 100 respect to others",
     category := "social", requirement_type := "respect_given",
     requirement_value := 100, reward_gems := 300,
     reward_badge := "generous", icon := "💝", rarity := "uncommon" },
   { achievement_id := "respect_legend", name := "Respect Legend",
     description := "Receive 500 respect from others",
     category := "social", requirement_type := "respect_count",
     requirement_value := 500, reward_gems := 500,
     reward_badge := "respected", icon := "🌟", rarity := "rare" },
   { achievement_id := "clan_founder", name := "Clan Founder",
     description := "Create a clan",
     category := "clans", requirement_type := "clan_created",
     requirement_value := 1, reward_gems := 200,
     reward_badge := "founder", icon := "🏰", rarity := "uncommon" },
   { achievement_id := "clan_leader", name := "Clan Leader",
     description := "Lead a clan to Top 3 ranking",
     category := "clans", requirement_type := "clan_top3",
     requirement_value := 1, reward_gems := 1000,
     reward_badge := "top_clan", icon := "👑", rarity := "epic" },
   { achievement_id := "trader_novice", name := "Trader Novice",
     description := "Complete 10 trades",
     category := "trading", requirement_type := "trades_completed",
     requirement_value := 10, reward_gems := 100,
     reward_badge := "trader_bronze", icon := "🤝", rarity := "common" },
   { achievement_id := "merchant", name := "Merchant",
     description := "Complete 50 trades",
     category := "trading", requirement_type := "trades_completed",
     requirement_value := 50, reward_gems := 500,
     reward_badge := "merchant", icon := "💰", rarity := "rare" },
   { achievement_id := "quest_hunter", name := "Quest Hunter",
     description := "Complete 20 quests",
     category := "quests", requirement_type := "quests_completed",
     requirement_value := 20, reward_gems := 300,
     reward_badge := "quest_hunter", icon := "🎯", rarity := "uncommon" },
   { achievement_id := "early_bird", name := "Early Bird",
     description := "???",
     category := "secret", requirement_type := "early_morning_sessions",
     requirement_value := 5, reward_gems := 250,
     reward_badge := "early_bird", icon := "🌅", rarity := "rare", is_secret := some 1 },
   { achievement_id := "completionist", name := "Completionist",
     description := "Unlock all non-secret achievements",
     category := "secret", requirement_type := "achievements_unlocked",
     requirement_value := 20, reward_gems := 5000,
     reward_badge := "completionist", icon := "🏆", rarity := "legendary", is_secret := some 1 }]

/-- Function `initializeAchievements()`: `INSERT OR REPLACE` of every entry into
`achievements`; a replaced row goes to the end of the table. -/
def initializeAchievements (db : DB) : DB :=
  let replace (rows : List Achievement) (a : Achievement) : List Achievement :=
    rows.filter (fun r => !decide (r.achievement_id = a.achievement_id)) ++
      [{ a with is_secret := some (orDefault a.is_secret 0) }]
  { db with achievements := ACHIEVEMENTS.foldl replace db.achievements }

/-- Whether a row referencing `achievementId` through `FOREIGN
KEY(achievement_id)` can be inserted. -/
def achievementFkOk (db : DB) (achievementId : String) : Bool :=
  !db.foreign_keys || db.achievements.any (fun a => decide (a.achievement_id = achievementId))

/-- The query `SELECT unlocked FROM user_achievements WHERE user_id = ? AND
achievement_id = ?` with `.get`. -/
def selectUserAchievement (db : DB) (userId achievementId : String) : Option UserAchievement :=
  db.user_achievements.find? (fun r =>
    decide (r.user_id = userId ∧ r.achievement_id = achievementId))

/-- The property `ACHIEVEMENTS[achievementId]`. -/
def achievementOf (achievementId : String) : Option Achievement :=
  ACHIEVEMENTS.find? (fun a => decide (a.achievement_id = achievementId))

/-- The last step of `unlockAchievement`: the reward, when it is positive. -/
def awardAchievement (db : DB) (userId achievementId : String) : DB :=
  match achievementOf achievementId with
  | some a =>
    if a.reward_gems > 0 then { db with users := addGems db.users userId a.reward_gems } else db
  | none => db

/-- Function `unlockAchievement(userId, achievementId)`.  A refused insert is
caught inside the function, which then returns false. -/
def unlockAchievement (db : DB) (now : Nat) (userId achievementId : String) : DB × Bool :=
  match selectUserAchievement db userId achievementId with
  | some existing =>
    if existing.unlocked ≠ 0 then (db, false)
    else
      let rows := db.user_achievements.map (fun r =>
        if r.user_id = userId ∧ r.achievement_id = achievementId then
          { r with unlocked := 1, unlocked_at := some now }
        else r)
      (awardAchievement { db with user_achievements := rows } userId achievementId, true)
  | none =>
    if fkOk db userId ∧ achievementFkOk db achievementId then
      let row : UserAchievement :=
        { user_id := userId, achievement_id := achievementId, progress := 100, unlocked := 1,
          unlocked_at := some now }
      (awardAchievement { db with user_achievements := db.user_achievements ++ [row] } userId
        achievementId, true)
    else (db, false)

/-- A `SELECT COUNT(*)` over a table. -/
def countRows {α : Type} (rows : List α) (p : α → Bool) : Int := ((rows.filter p).length : Int)

/-- The object `stats` of `checkAchievements`, as the list of its properties. -/
def achievementStats (db : DB) (userId : String) (user : User) : List (String × Int) :=
  [("total_voice_minutes", user.total_voice_minutes),
   ("total_messages", user.total_messages),
   ("streak_count", user.streak_count),
   ("respect_count", user.respect_count),
   ("friends_count", countRows db.friends (fun f => decide (f.user_id = userId))),
   ("respect_given", countRows db.respect_given (fun g => decide (g.giver_id = userId))),
   ("trades_completed", countRows db.trades (fun t =>
      decide ((t.sender_id = userId ∨ t.receiver_id = userId) ∧ t.status = "accepted"))),
   ("quests_completed", countRows db.user_quests (fun q =>
      decide (q.user_id = userId ∧ q.completed = 1))),
   ("achievements_unlocked", countRows db.user_achievements (fun r =>
      decide (r.user_id = userId ∧ r.unlocked = 1))),
   ("clan_created", countRows db.clans (fun c => decide (c.leader_id = userId)))]

/-- The expression `stats[key] || 0`. -/
def statValue (stats : List (String × Int)) (key : String) : Int :=
  orDefault ((stats.find? (fun e => decide (e.1 = key))).map (fun e => e.2)) 0

/-- One round of the loop of `checkAchievements` over `ACHIEVEMENTS`. -/
def checkStep (now : Nat) (userId : String) (stats : List (String × Int))
    (acc : DB × List Achievement) (achievement : Achievement) : DB × List Achievement :=
  if statValue stats achievement.requirement_type ≥ achievement.requirement_value then
    let r := unlockAchievement acc.1 now userId achievement.achievement_id
    if r.2 then (r.1, acc.2 ++ [achievement]) else (r.1, acc.2)
  else acc

/-- Function `checkAchievements(userId)`; the result `none` is `undefined`, for
a missing user.  The statistics are read once, before the loop. -/
def checkAchievements (db : DB) (now : Nat) (userId : String) :
    DB × Option (List Achievement) :=
  match selectUser db userId with
  | none => (db, none)
  | some user =>
    let stats := achievementStats db userId user
    let r := ACHIEVEMENTS.foldl (checkStep now userId stats) (db, [])
    (r.1, some r.2)

/-- The entries of `ACHIEVEMENTS` that are not secret. -/
def nonSecretAchievements : List Achievement :=
  ACHIEVEMENTS.filter (fun a => decide (orDefault a.is_secret 0 = 0))

/-- The key declared `PRIMARY KEY` of `quests` is unique. -/
def questKeysUnique (db : DB) : Prop := (db.quests.map (fun q => q.quest_id)).Nodup

/-- The pair declared `UNIQUE(user_id, quest_id)` of `user_quests` is unique. -/
def userQuestKeysUnique (db : DB) : Prop :=
  (db.user_quests.map (fun r => (r.user_id, r.quest_id))).Nodup

/-- The row condition of the query of `updateQuestProgress` for a quest, read
on a table with unique keys: the requirement type matches, the quest is active
today, and the user's `completed` for it (0 when the user has no row) is 0. -/
def questSelected (db : DB) (today : Int) (userId type : String) (q : Quest) : Prop :=
  q.requirement_type = type ∧ q.start_date ≤ today ∧ q.end_date > today
    ∧ ((selectUserQuest db userId q.quest_id).map (fun r => r.completed)).getD 0 = 0

instance (db : DB) (today : Int) (userId type : String) (q : Quest) :
    Decidable (questSelected db today userId type q) := by
  unfold questSelected; infer_instance

/-- The user's row for a quest after one pass of the loop body of
`updateQuestProgress`, from the row `old` found before it. -/
def progressedRow (old : Option UserQuest) (userId : String) (questId : Nat)
    (amount requirement : Int) (now : Nat) : UserQuest :=
  let r : UserQuest :=
    match old with
    | some r => { r with progress := r.progress + amount }
    | none => freshUserQuest userId questId amount now
  if r.progress ≥ requirement then { r with completed := 1 } else r

/-- The change that calls of `updateQuestProgress` with `amount` can make to a
row: key, `claimed` and `started_at` stay, `completed` stays or becomes 1, and
`progress` grows by a multiple of `amount`. -/
def rowProgressed (amount : Int) (r r2 : UserQuest) : Prop :=
  r2.user_id = r.user_id ∧ r2.quest_id = r.quest_id ∧ r2.claimed = r.claimed
    ∧ r2.started_at = r.started_at ∧ (r2.completed = r.completed ∨ r2.completed = 1)
    ∧ ∃ n : Nat, r2.progress = r.progress + n * amount

/-- The tables other than `user_quests` are the same in both databases. -/
def sameButUserQuests (db db2 : DB) : Prop := db2 = { db with user_quests := db2.user_quests }

/-- The predicate that every claimed row of `user_quests` is completed. -/
def claimedImpliesCompleted (db : DB) : Prop :=
  ∀ r ∈ db.user_quests, r.claimed = 1 → r.completed = 1

/-- The condition of `claimQuestReward`: a row of the user for the quest with
`completed = 1` and `claimed = 0`. -/
def claimable (db : DB) (userId : String) (questId : Nat) : Prop :=
  ∃ r ∈ db.user_quests, r.user_id = userId ∧ r.quest_id = questId ∧ r.completed = 1
    ∧ r.claimed = 0

instance (db : DB) (userId : String) (questId : Nat) : Decidable (claimable db userId questId) := by
  unfold claimable; infer_instance

instance (db : DB) : Decidable (claimedImpliesCompleted db) := by
  unfold claimedImpliesCompleted; infer_instance

instance (db : DB) : Decidable (questKeysUnique db) := by
  unfold questKeysUnique; infer_instance

instance (db : DB) : Decidable (userQuestKeysUnique db) := by
  unfold userQuestKeysUnique; infer_instance

/-- The result of `claimQuestReward` when the quest is not completed or is
already claimed. -/
def questClaimRefused : QuestClaimResult :=
  { success := false, error := some "Quest not completed or already claimed" }

/-- Index of the ISO week (Monday through Sunday) of a day number; day 4 of
the epoch, 1970-01-05, was a Monday. -/
def isoWeek (day : Int) : Int := (day + 3) / 7

/-- Index of the week counted from Sunday through Saturday; day 3 of the
epoch, 1970-01-04, was a Sunday. -/
def sundayWeek (day : Int) : Int := (day + 4) / 7

/-! ## Scenarios -/

/-- A sequence of `trackUserActivity` calls for one user; every call has its
own clock reading and deltas.  The results are listed in call order. -/
def trackAll (db : DB) (userId : String) : List (Nat × Int × Int) → DB × List TrackResult
  | [] => (db, [])
  | call :: rest =>
    let r := trackUserActivity db call.1 userId call.2.1 call.2.2
    let rs := trackAll r.1 userId rest
    (rs.1, r.2 :: rs.2)

/-- The field of the settings object that a settings key is read into. -/
def Settings.byKey (s : Settings) (key : String) : Option Int :=
  if key = "required_voice_minutes" then some s.required_voice_minutes
  else if key = "required_messages" then some s.required_messages
  else if key = "streak_reward_gems" then some s.streak_reward_gems
  else if key = "streak_milestone_7_gems" then some s.milestones.d7
  else if key = "streak_milestone_14_gems" then some s.milestones.d14
  else if key = "streak_milestone_30_gems" then some s.milestones.d30
  else if key = "streak_milestone_60_gems" then some s.milestones.d60
  else if key = "streak_milestone_90_gems" then some s.milestones.d90
  else none

/-- The streak days that carry a milestone payout. -/
def isMilestoneDay (d : Int) : Prop := d = 7 ∨ d = 14 ∨ d = 30 ∨ d = 60 ∨ d = 90

instance (d : Int) : Decidable (isMilestoneDay d) := by
  unfold isMilestoneDay; infer_instance

/-- The settings read from a freshly initialised `streak_settings` table. -/
def defaultSettings : Settings :=
  { required_voice_minutes := 5, required_messages := 5, streak_reward_gems := 10,
    milestones := { d7 := 50, d14 := 100, d30 := 250, d60 := 500, d90 := 1000 } }

/-- A database with the initial settings and one user `u` who holds no gems and
has no streak record. -/
def scenarioDb : DB :=
  { users := [{ user_id := "u", gems := 0, respect_count := 0 }],
    streak_settings := initializeSettings [] 0 }

/-- The database `scenarioDb` with a streak record for `u`. -/
def scenarioWith (row : ActivityStreak) : DB :=
  { scenarioDb with activity_streaks := [row] }

/-- A database with two users who are friends: the sender `s` holds 50 gems and
no respect, the receiver `r` holds no gems and the given respect. -/
def tradeDb (receiverRespect : Int) : DB :=
  { users := [{ user_id := "s", gems := 50, respect_count := 0 },
              { user_id := "r", gems := 0, respect_count := receiverRespect }],
    friends := [{ user_id := "s", friend_id := "r", created_at := 0 },
                { user_id := "r", friend_id := "s", created_at := 0 }] }

/-- The database `tradeDb` after `s` offered 50 gems for 10 respect. -/
def scenarioD (receiverRespect : Int) : DB :=
  (createTrade (tradeDb receiverRespect) 5 "s" "r" "gems" "50" "respect" "10").1

/-- The database `tradeDb 2` after `s` twice offered 50 gems for 1 respect,
while holding 50 gems each time. -/
def twoOffers : DB :=
  (createTrade (createTrade (tradeDb 2) 5 "s" "r" "gems" "50" "respect" "1").1 6 "s" "r" "gems"
    "50" "respect" "1").1

/-- The database `tradeDb 2` after `s`, holding 50 gems, offered the text `abc`
as gems for 1 respect. -/
def textOffer : DB :=
  (createTrade (tradeDb 2) 5 "s" "r" "gems" "abc" "respect" "1").1

/-- The database `twoOffers` after `r` accepted the first of the two offers. -/
def firstAccepted : DB :=
  match acceptTrade twoOffers 9 1 "r" with
  | some (db, _) => db
  | none => twoOffers

/-- The database after `initializeAchievements` with one user `u`. -/
def achievementsDb (user : User) : DB :=
  initializeAchievements { users := [user] }

/-- The rows of `user_achievements` of a user who unlocked the given
achievements at time 0. -/
def unlockedRows (userId : String) (unlocked : List Achievement) : List UserAchievement :=
  unlocked.map (fun a =>
    { user_id := userId, achievement_id := a.achievement_id, progress := 100, unlocked := 1,
      unlocked_at := some 0 })

/-- A database in which the user `u` has unlocked every achievement that is not
secret. -/
def allNonSecretUnlocked : DB :=
  { achievementsDb { user_id := "u", gems := 0, respect_count := 0 } with
    user_achievements := unlockedRows "u" nonSecretAchievements }

/-- Clock reading at the start of day 9, a Saturday. -/
def day9 : Nat := 777600000

/-- A quest with key 1 that requires 20 messages and is active on day 10. -/
def messagesQuest : Quest :=
  { quest_id := 1, quest_type := "daily", quest_name := "Text Master",
    quest_description := "Send 20 messages", requirement_type := "messages",
    requirement_value := 20, reward_gems := 5, reward_respect := 2, start_date := 10,
    end_date := 11, is_weekly := 0 }

/-- The database `scenarioDb` with the quest `messagesQuest`. -/
def questDb : DB := { scenarioDb with quests := [messagesQuest] }

/-- The database `questDb` with a `user_quests` row of `u` for the quest. -/
def questDbWith (progress completed claimed : Int) : DB :=
  { questDb with user_quests :=
      [{ user_id := "u", quest_id := 1, progress := progress, completed := completed,
         claimed := claimed, started_at := 0 }] }

/-- Clock reading at the start of day 10. -/
def day10 : Nat := 864000000

/-- A streak record of `u`: last active on day 9. -/
def rowDay9 (streak qualified : Int) : ActivityStreak :=
  { user_id := "u", current_streak := streak, longest_streak := 8,
    last_activity_date := some 9, today_voice_minutes := 6, today_messages := 8,
    streak_qualified_today := qualified, total_streak_days := 12 }

/-- A daily-reward record of `u` with claim streak 4 and the given last claim date. -/
def dailyRow (lastClaim : Option Int) : DailyReward :=
  { user_id := "u", current_streak := 4, last_claim_date := lastClaim, total_claims := 9,
    next_milestone := 7 }

/-- A daily-reward record of `u` with the given claim streak, last claimed on day 9. -/
def dailyRowDay9 (streak : Int) : DailyReward :=
  { user_id := "u", current_streak := streak, last_claim_date := some 9, total_claims := 9,
    next_milestone := 7 }

/-- The database `scenarioDb` with a daily-reward record for `u`. -/
def scenarioDaily (row : DailyReward) : DB :=
  { scenarioDb with daily_rewards := [row] }

/-- A streak record of `u`: last active on day 10. -/
def rowDay10 (qualified : Int) : ActivityStreak :=
  { user_id := "u", current_streak := 3, longest_streak := 8,
    last_activity_date := some 10, today_voice_minutes := 6, today_messages := 8,
    streak_qualified_today := qualified, total_streak_days := 12 }

end Lbb


namespace Lbb

/-! ## Lemmas on table updates -/

theorem find_map_update {α : Type} (key : α → String) (f : α → α)
    (hf : ∀ r, key (f r) = key r) (u : String) (l : List α) :
    (l.map (fun r => if key r = u then f r else r)).find? (fun r => decide (key r = u))
      = (l.find? (fun r => decide (key r = u))).map f := by
  induction l with
  | nil => rfl
  | cons a t ih =>
    by_cases h : key a = u
    · simp [List.find?, h, hf]
    · simp [List.find?, h, ih]

theorem selectStreak_updateStreak (db : DB) (u : String) (f : ActivityStreak → ActivityStreak)
    (hf : ∀ r, (f r).user_id = r.user_id) :
    selectStreak (updateStreak db u f) u = (selectStreak db u).map f := by
  unfold selectStreak updateStreak
  exact find_map_update (fun r => r.user_id) f hf u db.activity_streaks

theorem selectUser_addGems (db : DB) (u : String) (a : Int) :
    selectUser { db with users := addGems db.users u a } u
      = (selectUser db u).map (fun x => { x with gems := x.gems + a }) := by
  unfold selectUser addGems
  exact find_map_update (fun r => r.user_id) (fun x => { x with gems := x.gems + a })
    (fun _ => rfl) u db.users

theorem userExists_addGems (db : DB) (u w : String) (a : Int) :
    userExists { db with users := addGems db.users w a } u = userExists db u := by
  unfold userExists addGems
  simp only [List.any_map]
  congr 1
  funext x
  by_cases h : x.user_id = w <;> simp [h]

@[simp] theorem checkAndAwardMilestone_streaks (db : DB) (now : Nat) (u : String) (d : Int) :
    (checkAndAwardMilestone db now u d).1.activity_streaks = db.activity_streaks := by
  unfold checkAndAwardMilestone
  simp only
  split
  · rfl
  · split
    · rfl
    · split <;> rfl

@[simp] theorem checkAndAwardMilestone_settings (db : DB) (now : Nat) (u : String) (d : Int) :
    (checkAndAwardMilestone db now u d).1.streak_settings = db.streak_settings := by
  unfold checkAndAwardMilestone
  simp only
  split
  · rfl
  · split
    · rfl
    · split <;> rfl

theorem selectStreak_congr (db db2 : DB) (u : String)
    (h : db2.activity_streaks = db.activity_streaks) :
    selectStreak db2 u = selectStreak db u := by
  unfold selectStreak; rw [h]

/-- The streak row written by lines 153-210 for a row `s` read before. -/
theorem selectStreak_applyActivity (db : DB) (now : Nat) (u : String) (s : ActivityStreak)
    (v m : Int) (h : selectStreak db u = some s) :
    selectStreak (applyActivity db now u s v m) u = some (rolledRow now s v m) := by
  unfold applyActivity rolledRow
  simp only
  split
  · split
    · rw [selectStreak_congr _ _ _ (checkAndAwardMilestone_streaks _ _ _ _),
        selectStreak_updateStreak, h]
      · rfl
      · intro _; rfl
    · split
      · rw [selectStreak_updateStreak, h]
        · rfl
        · intro _; rfl
      · rw [selectStreak_updateStreak, h]
        · rfl
        · intro _; rfl
  · rw [selectStreak_updateStreak, h]
    · rfl
    · intro _; rfl

end Lbb


namespace Lbb

theorem find_append_none {α : Type} (p : α → Bool) (l : List α) (a : α)
    (h : l.find? p = none) (ha : p a = true) : (l ++ [a]).find? p = some a := by
  rw [List.find?_append, h]
  simp [List.find?, ha]

theorem selectStreak_withFreshStreak (db : DB) (today : Int) (u : String)
    (h : selectStreak db u = none) :
    selectStreak (withFreshStreak db today u) u = some (freshStreak today u) := by
  unfold selectStreak withFreshStreak
  exact find_append_none _ _ _ h (by simp [freshStreak])

theorem loadOrCreateStreak_some (db : DB) (today : Int) (u : String) (s : ActivityStreak)
    (h : selectStreak db u = some s) : loadOrCreateStreak db today u = .ok (db, s) := by
  unfold loadOrCreateStreak; rw [h]

theorem loadOrCreateStreak_new (db : DB) (today : Int) (u : String)
    (h : selectStreak db u = none) (hfk : fkOk db u = true) :
    loadOrCreateStreak db today u
      = .ok (withFreshStreak db today u, freshStreak today u) := by
  unfold loadOrCreateStreak
  rw [h]
  simp only [hfk, if_true, selectStreak_withFreshStreak db today u h]

theorem loadOrCreateStreak_fail (db : DB) (today : Int) (u : String)
    (h : selectStreak db u = none) (hfk : fkOk db u = false) :
    loadOrCreateStreak db today u = .error "FOREIGN KEY constraint failed" := by
  unfold loadOrCreateStreak
  rw [h]
  simp [hfk]

/-- Unfolding of `trackUserActivity` on a user with a streak record. -/
theorem track_existing (db : DB) (now : Nat) (u : String) (s : ActivityStreak) (v m : Int)
    (h : selectStreak db u = some s) :
    trackUserActivity db now u v m
      = checkQualified (applyActivity db now u s v m) (getStreakSettings db) u
          (rolledRow now s v m) v m := by
  unfold trackUserActivity
  simp only [loadOrCreateStreak_some db _ u s h, selectStreak_applyActivity db now u s v m h]

/-- Unfolding of `trackUserActivity` on a user without a streak record. -/
theorem track_new (db : DB) (now : Nat) (u : String) (v m : Int)
    (h : selectStreak db u = none) (hfk : fkOk db u = true) :
    trackUserActivity db now u v m
      = checkQualified
          (applyActivity (withFreshStreak db (isoDate now) u) now u
            (freshStreak (isoDate now) u) v m)
          (getStreakSettings db) u (rolledRow now (freshStreak (isoDate now) u) v m) v m := by
  unfold trackUserActivity
  simp only [loadOrCreateStreak_new db _ u h hfk,
    selectStreak_applyActivity _ now u _ v m (selectStreak_withFreshStreak db _ u h)]

/-- Unfolding of `trackUserActivity` when the insert of the record is refused. -/
theorem track_fail (db : DB) (now : Nat) (u : String) (v m : Int)
    (h : selectStreak db u = none) (hfk : fkOk db u = false) :
    trackUserActivity db now u v m
      = (db, { qualified := false, error := some "FOREIGN KEY constraint failed" }) := by
  unfold trackUserActivity
  simp only [loadOrCreateStreak_fail db _ u h hfk]

theorem rolledRow_fresh (now : Nat) (u : String) (v m : Int) :
    rolledRow now (freshStreak (isoDate now) u) v m
      = { freshStreak (isoDate now) u with today_voice_minutes := v, today_messages := m } := by
  simp [rolledRow, freshStreak]

theorem applyActivity_sameDay (db : DB) (now : Nat) (u : String) (s : ActivityStreak)
    (v m : Int) (h : s.last_activity_date = some (isoDate now)) :
    applyActivity db now u s v m
      = updateStreak db u (fun r =>
          { r with today_voice_minutes := r.today_voice_minutes + v,
                   today_messages := r.today_messages + m }) := by
  simp [applyActivity, h]

end Lbb


namespace Lbb

/-! ## Claims on `trackUserActivity` -/

/-- C1 (the code at Scenario A): for the user of `scenarioDb`, who has no
activity-streak record, with the default settings, `trackUserActivity(u, 5, 5)`
returns qualified = true and reward = 10 and raises the gems by 10, but it
reports voice = 10 and messages = 10, not 5 and 5: the deltas are added once by
the `UPDATE` and a second time to the row read back. -/
theorem C1_scenarioA_reports_doubled_totals :
    (trackUserActivity scenarioDb 0 "u" 5 5).2
        = { qualified := true, reward := some 10, voice := some 10, messages := some 10,
            required_voice := some 5, required_messages := some 5 }
      ∧ selectUser (trackUserActivity scenarioDb 0 "u" 5 5).1 "u"
          = some { user_id := "u", gems := 10, respect_count := 0 }
      ∧ (selectStreak (trackUserActivity scenarioDb 0 "u" 5 5).1 "u").map
          (fun r => (r.today_voice_minutes, r.today_messages)) = some (5, 5) := by
  decide

/-- C2 (the code at a failing input): with the default thresholds (5 and 5) a
new user who sends deltas 3 and 3 has stored today_voice_minutes = 3 and
today_messages = 3, both below the thresholds, and is nevertheless marked
qualified and credited 10 gems, because the check compares stored value plus
delta (6 and 6) with the thresholds. -/
theorem C2_qualifies_below_threshold :
    (trackUserActivity scenarioDb 0 "u" 3 3).2.qualified = true
      ∧ (selectStreak (trackUserActivity scenarioDb 0 "u" 3 3).1 "u").map
          (fun r => (r.today_voice_minutes, r.today_messages, r.streak_qualified_today))
            = some (3, 3, 1)
      ∧ (getStreakSettings scenarioDb).required_voice_minutes = 5
      ∧ (getStreakSettings scenarioDb).required_messages = 5
      ∧ (selectUser (trackUserActivity scenarioDb 0 "u" 3 3).1 "u").map (fun x => x.gems)
          = some 10 := by
  decide

theorem selectStreak_checkQualified (db : DB) (st : Settings) (u : String)
    (r : ActivityStreak) (v m : Int) (h : selectStreak db u = some r) :
    ∃ r2, selectStreak (checkQualified db st u r v m).1 u = some r2
      ∧ r2.current_streak = r.current_streak
      ∧ r2.longest_streak = r.longest_streak
      ∧ r2.last_activity_date = r.last_activity_date
      ∧ r2.today_voice_minutes = r.today_voice_minutes
      ∧ r2.today_messages = r.today_messages
      ∧ r2.streak_qualified_today
          = (if (checkQualified db st u r v m).2.qualified then 1 else r.streak_qualified_today)
      ∧ ((checkQualified db st u r v m).2.qualified = true → r.streak_qualified_today = 0) := by
  unfold checkQualified
  simp only
  split
  · rename_i hc
    refine ⟨{ r with streak_qualified_today := 1 }, ?_, rfl, rfl, rfl, rfl, rfl, by simp,
      fun _ => hc.2.2⟩
    have := selectStreak_updateStreak db u (fun r => { r with streak_qualified_today := 1 })
      (fun _ => rfl)
    rw [h] at this
    exact this
  · exact ⟨r, h, rfl, rfl, rfl, rfl, rfl, by simp, by simp⟩

/-- The row after a call keeps the streak counter written by lines 153-210. -/
theorem track_existing_streak (db : DB) (now : Nat) (u : String) (s : ActivityStreak) (v m : Int)
    (h : selectStreak db u = some s) :
    ∃ s2, selectStreak (trackUserActivity db now u v m).1 u = some s2
      ∧ s2.current_streak = (rolledRow now s v m).current_streak := by
  rw [track_existing db now u s v m h]
  obtain ⟨r2, hr2, hcs, -⟩ := selectStreak_checkQualified (applyActivity db now u s v m)
    (getStreakSettings db) u (rolledRow now s v m) v m (selectStreak_applyActivity db now u s v m h)
  exact ⟨r2, hr2, hcs⟩

/-- C3: for every existing activity-streak row, `current_streak` after
`trackUserActivity` is old + 1 when `last_activity_date` is yesterday and
`streak_qualified_today` was 1, is 0 when `last_activity_date` is neither today
nor yesterday, and is the old value when `last_activity_date` is yesterday but
not qualified or is today; so a non-negative `current_streak` never grows
unless the preceding calendar day was marked qualified. -/
theorem C3_current_streak_after_track (db : DB) (now : Nat) (u : String)
    (s : ActivityStreak) (v m : Int) (h : selectStreak db u = some s) :
    ∃ s2, selectStreak (trackUserActivity db now u v m).1 u = some s2
      ∧ (s.last_activity_date = some (getYesterday now) → s.streak_qualified_today = 1 →
          s2.current_streak = s.current_streak + 1)
      ∧ (s.last_activity_date ≠ some (isoDate now) →
          s.last_activity_date ≠ some (getYesterday now) → s2.current_streak = 0)
      ∧ (s.last_activity_date = some (getYesterday now) → s.streak_qualified_today ≠ 1 →
          s2.current_streak = s.current_streak)
      ∧ (s.last_activity_date = some (isoDate now) → s2.current_streak = s.current_streak)
      ∧ (0 ≤ s.current_streak → s.current_streak < s2.current_streak →
          s.last_activity_date = some (getYesterday now) ∧ s.streak_qualified_today = 1) := by
  rw [track_existing db now u s v m h]
  obtain ⟨r2, hr2, hcs, -⟩ := selectStreak_checkQualified (applyActivity db now u s v m)
    (getStreakSettings db) u (rolledRow now s v m) v m (selectStreak_applyActivity db now u s v m h)
  refine ⟨r2, hr2, ?_⟩
  rw [hcs]
  have hy : getYesterday now ≠ isoDate now := by unfold getYesterday; omega
  unfold rolledRow
  refine ⟨?_, ?_, ?_, ?_, ?_⟩
  · intro h1 h2
    simp [h1, h2, hy]
  · intro h1 h2
    simp [h1, h2]
  · intro h1 h2
    simp [h1, h2, hy]
  · intro h1
    simp [h1]
  · intro h0 hlt
    by_contra hne
    simp only [hne, if_false] at hlt
    split at hlt
    · split at hlt
      · simp at hlt; omega
      · simp at hlt
    · simp at hlt

/-- C3 at a concrete row: streak 3, last active on day 9 and qualified; a call
on day 10 gives streak 4. -/
theorem C3_current_streak_after_track_witness :
    ∃ s2, selectStreak (trackUserActivity (scenarioWith (rowDay9 3 1)) day10 "u" 1 0).1 "u"
        = some s2 ∧ s2.current_streak = 4 := by
  obtain ⟨s2, h1, h2, -⟩ := C3_current_streak_after_track (scenarioWith (rowDay9 3 1)) day10 "u"
    (rowDay9 3 1) 1 0 (by decide)
  exact ⟨s2, h1, h2 (by decide) (by decide)⟩

end Lbb


namespace Lbb

/-- C4 (counterexample): a row with streak 3 whose last activity was yesterday
(day 9) without qualification is rolled over on day 10; the previous day was not
qualified, yet `current_streak` stays 3 and is not reset to 0. -/
theorem C4_unqualified_yesterday_keeps_streak :
    (rowDay9 3 0).last_activity_date ≠ some (isoDate day10)
      ∧ (rowDay9 3 0).streak_qualified_today ≠ 1
      ∧ (selectStreak (trackUserActivity (scenarioWith (rowDay9 3 0)) day10 "u" 1 0).1 "u").map
          (fun r => r.current_streak) = some 3
      ∧ (3 : Int) ≠ 0 := by
  decide

/-- C4 (amended): on every calendar-day rollover processed by
`trackUserActivity` (`last_activity_date` differs from today), `current_streak`
becomes old + 1 if `last_activity_date` is yesterday and that day was qualified,
is reset to 0 if `last_activity_date` is not yesterday, and is carried unchanged
if `last_activity_date` is yesterday but that day was not qualified. -/
theorem C4_rollover_streak (db : DB) (now : Nat) (u : String) (s : ActivityStreak)
    (v m : Int) (h : selectStreak db u = some s)
    (hnew : s.last_activity_date ≠ some (isoDate now)) :
    ∃ s2, selectStreak (trackUserActivity db now u v m).1 u = some s2
      ∧ s2.current_streak
          = (if s.last_activity_date = some (getYesterday now) ∧ s.streak_qualified_today = 1
              then s.current_streak + 1
             else if s.last_activity_date ≠ some (getYesterday now) then 0
             else s.current_streak) := by
  rw [track_existing db now u s v m h]
  obtain ⟨r2, hr2, hcs, -⟩ := selectStreak_checkQualified (applyActivity db now u s v m)
    (getStreakSettings db) u (rolledRow now s v m) v m (selectStreak_applyActivity db now u s v m h)
  refine ⟨r2, hr2, ?_⟩
  rw [hcs]
  unfold rolledRow
  simp only [hnew, ne_eq, not_false_eq_true, if_true]
  split
  · rfl
  · split <;> rfl

/-- C4 (amended) at a concrete row: streak 3, last active yesterday, not
qualified: the streak is carried. -/
theorem C4_rollover_streak_witness :
    ∃ s2, selectStreak (trackUserActivity (scenarioWith (rowDay9 3 0)) day10 "u" 1 0).1 "u"
        = some s2 ∧ s2.current_streak = 3 := by
  obtain ⟨s2, h1, h2⟩ := C4_rollover_streak (scenarioWith (rowDay9 3 0)) day10 "u"
    (rowDay9 3 0) 1 0 (by decide) (by decide)
  exact ⟨s2, h1, h2.trans (by decide)⟩

theorem rolledRow_date (now : Nat) (s : ActivityStreak) (v m : Int) :
    (rolledRow now s v m).last_activity_date = some (isoDate now) := by
  unfold rolledRow
  simp only
  split
  · split
    · rfl
    · split <;> rfl
  · rename_i h
    simpa using h

theorem rolledRow_flag_sameDay (now : Nat) (s : ActivityStreak) (v m : Int)
    (h : s.last_activity_date = some (isoDate now)) :
    (rolledRow now s v m).streak_qualified_today = s.streak_qualified_today := by
  simp [rolledRow, h]

theorem rolledRow_flag_newDay (now : Nat) (s : ActivityStreak) (v m : Int)
    (h : s.last_activity_date ≠ some (isoDate now)) :
    (rolledRow now s v m).streak_qualified_today = 0 := by
  unfold rolledRow
  simp only [h, ne_eq, not_false_eq_true, if_true]
  split
  · rfl
  · split <;> rfl

theorem checkQualified_users (db : DB) (st : Settings) (u : String) (r : ActivityStreak)
    (v m : Int) :
    (checkQualified db st u r v m).1.users
      = (if (checkQualified db st u r v m).2.qualified then addGems db.users u st.streak_reward_gems
         else db.users) := by
  unfold checkQualified
  simp only
  split <;> simp [updateStreak]

theorem checkQualified_transactions (db : DB) (st : Settings) (u : String)
    (r : ActivityStreak) (v m : Int) :
    (checkQualified db st u r v m).1.transactions = db.transactions := by
  unfold checkQualified
  simp only
  split <;> simp [updateStreak]

theorem checkQualified_flagged (db : DB) (st : Settings) (u : String) (r : ActivityStreak)
    (v m : Int) (h : r.streak_qualified_today ≠ 0) :
    (checkQualified db st u r v m).2.qualified = false := by
  unfold checkQualified
  simp [h]

/-- After a call the record exists and is dated today, and a qualifying call
leaves the flag at 1; or the insert was refused and nothing changed. -/
theorem track_post (db : DB) (now : Nat) (u : String) (v m : Int) :
    ((trackUserActivity db now u v m).1 = db ∧ selectStreak db u = none
        ∧ (trackUserActivity db now u v m).2.qualified = false)
      ∨ ∃ r2, selectStreak (trackUserActivity db now u v m).1 u = some r2
          ∧ r2.last_activity_date = some (isoDate now)
          ∧ ((trackUserActivity db now u v m).2.qualified = true →
              r2.streak_qualified_today = 1)
          ∧ ((trackUserActivity db now u v m).2.qualified = false → ∀ s,
              selectStreak db u = some s → s.last_activity_date = some (isoDate now) →
              r2.streak_qualified_today = s.streak_qualified_today) := by
  cases hsel : selectStreak db u with
  | some s =>
    right
    rw [track_existing db now u s v m hsel]
    obtain ⟨r2, hr2, -, -, hd, -, -, hq, -⟩ := selectStreak_checkQualified
      (applyActivity db now u s v m) (getStreakSettings db) u (rolledRow now s v m) v m
      (selectStreak_applyActivity db now u s v m hsel)
    refine ⟨r2, hr2, hd.trans (rolledRow_date now s v m), ?_, ?_⟩
    · intro hqual
      rw [hq, hqual]; rfl
    · intro hqual s0 hs0 hd0
      rw [hq, hqual]
      cases hs0
      simpa using rolledRow_flag_sameDay now s v m hd0
  | none =>
    cases hfk : fkOk db u with
    | false =>
      left
      rw [track_fail db now u v m hsel hfk]
      exact ⟨rfl, rfl, rfl⟩
    | true =>
      right
      rw [track_new db now u v m hsel hfk]
      obtain ⟨r2, hr2, -, -, hd, -, -, hq, -⟩ := selectStreak_checkQualified
        (applyActivity (withFreshStreak db (isoDate now) u) now u (freshStreak (isoDate now) u) v m)
        (getStreakSettings db) u (rolledRow now (freshStreak (isoDate now) u) v m) v m
        (selectStreak_applyActivity _ now u _ v m (selectStreak_withFreshStreak db _ u hsel))
      refine ⟨r2, hr2, hd.trans (rolledRow_date now _ v m), ?_, ?_⟩
      · intro hqual
        rw [hq, hqual]; rfl
      · intro _ s0 hs0
        simp at hs0

/-- From a record dated `d`, calls on date `d` qualify at most once, and never
when the flag is already set. -/
theorem trackAll_sameDay (u : String) (d : Int) (calls : List (Nat × Int × Int)) :
    ∀ (db : DB) (s : ActivityStreak), selectStreak db u = some s →
      s.last_activity_date = some d → (∀ c ∈ calls, isoDate c.1 = d) →
      (trackAll db u calls).2.countP (fun r => r.qualified)
        ≤ (if s.streak_qualified_today = 0 then 1 else 0) := by
  induction calls with
  | nil => intro db s _ _ _; simp [trackAll]
  | cons c rest ih =>
    intro db s hsel hd hc
    have hc1 : isoDate c.1 = d := hc c (List.mem_cons_self _ _)
    have hrest : ∀ x ∈ rest, isoDate x.1 = d := fun x hx => hc x (List.mem_cons_of_mem _ hx)
    have hd1 : s.last_activity_date = some (isoDate c.1) := by rw [hc1]; exact hd
    rcases track_post db c.1 u c.2.1 c.2.2 with ⟨-, hnone, -⟩ | ⟨r2, hr2, hdate, hq1, hq0⟩
    · rw [hsel] at hnone; cases hnone
    · have hih := ih _ r2 hr2 (by rw [hdate, hc1]) hrest
      have hqual : (trackUserActivity db c.1 u c.2.1 c.2.2).2.qualified = true →
          s.streak_qualified_today = 0 := by
        intro hq
        rw [track_existing db c.1 u s c.2.1 c.2.2 hsel] at hq
        by_contra hne
        have := checkQualified_flagged (applyActivity db c.1 u s c.2.1 c.2.2)
          (getStreakSettings db) u (rolledRow c.1 s c.2.1 c.2.2) c.2.1 c.2.2
          (by rw [rolledRow_flag_sameDay c.1 s c.2.1 c.2.2 hd1]; exact hne)
        rw [this] at hq
        cases hq
      simp only [trackAll, List.countP_cons]
      generalize List.countP (fun r => r.qualified)
        (trackAll (trackUserActivity db c.1 u c.2.1 c.2.2).1 u rest).2 = n at hih ⊢
      cases hres : (trackUserActivity db c.1 u c.2.1 c.2.2).2.qualified with
      | true =>
        rw [hq1 hres, if_neg (by decide)] at hih
        rw [hqual hres, if_pos rfl, if_pos rfl]
        omega
      | false =>
        rw [hq0 hres s hsel hd1] at hih
        simpa using hih

/-- In any sequence of calls for one user on one date at most one call
qualifies. -/
theorem trackAll_once (u : String) (d : Int) (calls : List (Nat × Int × Int)) :
    ∀ (db : DB), (∀ c ∈ calls, isoDate c.1 = d) →
      (trackAll db u calls).2.countP (fun r => r.qualified) ≤ 1 := by
  induction calls with
  | nil => intro db _; simp [trackAll]
  | cons c rest ih =>
    intro db hc
    have hc1 : isoDate c.1 = d := hc c (List.mem_cons_self _ _)
    have hrest : ∀ x ∈ rest, isoDate x.1 = d := fun x hx => hc x (List.mem_cons_of_mem _ hx)
    simp only [trackAll, List.countP_cons]
    rcases track_post db c.1 u c.2.1 c.2.2 with ⟨hdb, -, hq⟩ | ⟨r2, hr2, hdate, hq1, -⟩
    · rw [hdb, hq]
      simpa using ih db hrest
    · have hsame := trackAll_sameDay u d rest _ r2 hr2 (by rw [hdate, hc1]) hrest
      generalize List.countP (fun r => r.qualified)
        (trackAll (trackUserActivity db c.1 u c.2.1 c.2.2).1 u rest).2 = n at hsame ⊢
      cases hres : (trackUserActivity db c.1 u c.2.1 c.2.2).2.qualified with
      | true =>
        rw [hq1 hres, if_neg (by decide)] at hsame
        rw [if_pos rfl]
        omega
      | false =>
        have : n ≤ 1 := by
          refine le_trans hsame ?_
          split <;> omega
        simpa using this

/-- C5: the daily qualification reward is granted at most once per calendar
day.  For every state whose record is dated today with the flag at 1, a call
with any deltas returns qualified = false, leaves the flag at 1 and leaves the
`users` table (all gems) unchanged; and in any sequence of calls for one user on
one date, from any state, at most one call returns qualified = true. -/
theorem C5_reward_once_per_day (db : DB) (now : Nat) (u : String) (s : ActivityStreak)
    (v m : Int) (h : selectStreak db u = some s)
    (hd : s.last_activity_date = some (isoDate now)) (hq : s.streak_qualified_today = 1)
    (db0 : DB) (d : Int) (calls : List (Nat × Int × Int))
    (hcalls : ∀ c ∈ calls, isoDate c.1 = d) :
    ((trackUserActivity db now u v m).2.qualified = false
        ∧ (∃ s2, selectStreak (trackUserActivity db now u v m).1 u = some s2
            ∧ s2.streak_qualified_today = 1)
        ∧ (trackUserActivity db now u v m).1.users = db.users)
      ∧ (trackAll db0 u calls).2.countP (fun r => r.qualified) ≤ 1 := by
  refine ⟨?_, trackAll_once u d calls db0 hcalls⟩
  have hflag : (rolledRow now s v m).streak_qualified_today ≠ 0 := by
    rw [rolledRow_flag_sameDay now s v m hd, hq]; decide
  have hres := checkQualified_flagged (applyActivity db now u s v m) (getStreakSettings db) u
    (rolledRow now s v m) v m hflag
  have husers := checkQualified_users (applyActivity db now u s v m) (getStreakSettings db) u
    (rolledRow now s v m) v m
  obtain ⟨r2, hr2, -, -, -, -, -, hq2, -⟩ := selectStreak_checkQualified
    (applyActivity db now u s v m) (getStreakSettings db) u (rolledRow now s v m) v m
    (selectStreak_applyActivity db now u s v m h)
  rw [track_existing db now u s v m h]
  refine ⟨hres, ⟨r2, hr2, ?_⟩, ?_⟩
  · rw [hq2, hres]
    simp only [Bool.false_eq_true, if_false]
    rw [rolledRow_flag_sameDay now s v m hd, hq]
  · rw [husers, hres, applyActivity_sameDay db now u s v m hd]
    rfl

/-- C5 at a concrete state: the record of `u` is dated day 10 and already
qualified; of three calls on day 10 none qualifies. -/
theorem C5_reward_once_per_day_witness :
    (trackUserActivity (scenarioWith (rowDay10 1)) day10 "u" 9 9).2.qualified = false
      ∧ (trackAll scenarioDb "u" [(day10, 3, 3), (day10 + 5, 4, 4), (day10 + 9, 1, 0)]).2.countP
          (fun r => r.qualified) ≤ 1 :=
  have h := C5_reward_once_per_day (scenarioWith (rowDay10 1)) day10 "u" (rowDay10 1) 9 9
    (by decide) (by decide) (by decide) scenarioDb 10
    [(day10, 3, 3), (day10 + 5, 4, 4), (day10 + 9, 1, 0)] (by decide)
  ⟨h.1.1, h.2⟩

end Lbb


namespace Lbb

/-- C6: after a calendar-day rollover the qualified-today flag reads false
until the thresholds are met.  Whenever the record's `last_activity_date`
differs from today, `getUserStreakStatus` reports qualified = false with zero
voice minutes and messages, and a `trackUserActivity` call that returns
qualified = false leaves the stored `streak_qualified_today` at 0, whatever its
previous value. -/
theorem C6_flag_cleared_on_rollover (db : DB) (now : Nat) (u : String) (s : ActivityStreak)
    (v m : Int) (h : selectStreak db u = some s)
    (hnew : s.last_activity_date ≠ some (isoDate now)) :
    ((getUserStreakStatus db now u).today_progress.qualified = false
        ∧ (getUserStreakStatus db now u).today_progress.voice_minutes = 0
        ∧ (getUserStreakStatus db now u).today_progress.messages = 0)
      ∧ ((trackUserActivity db now u v m).2.qualified = false →
          ∃ s2, selectStreak (trackUserActivity db now u v m).1 u = some s2
            ∧ s2.streak_qualified_today = 0) := by
  constructor
  · unfold getUserStreakStatus
    simp [h, hnew]
  · intro hres
    rw [track_existing db now u s v m h] at hres ⊢
    obtain ⟨r2, hr2, -, -, -, -, -, hq2, -⟩ := selectStreak_checkQualified
      (applyActivity db now u s v m) (getStreakSettings db) u (rolledRow now s v m) v m
      (selectStreak_applyActivity db now u s v m h)
    refine ⟨r2, hr2, ?_⟩
    rw [hq2, hres]
    simp only [Bool.false_eq_true, if_false]
    exact rolledRow_flag_newDay now s v m hnew

/-- C6 at a concrete row: last active on day 9 with the flag at 1; on day 10
the status reads not qualified and a call with deltas 1 and 0 stores flag 0. -/
theorem C6_flag_cleared_on_rollover_witness :
    (getUserStreakStatus (scenarioWith (rowDay9 3 1)) day10 "u").today_progress.qualified = false
      ∧ ∃ s2, selectStreak (trackUserActivity (scenarioWith (rowDay9 3 1)) day10 "u" 1 0).1 "u"
          = some s2 ∧ s2.streak_qualified_today = 0 :=
  have h := C6_flag_cleared_on_rollover (scenarioWith (rowDay9 3 1)) day10 "u" (rowDay9 3 1) 1 0
    (by decide) (by decide)
  ⟨h.1.1, h.2 (by decide)⟩

/-! ## Milestone payouts -/

theorem orDefault_ne_zero (x : Option Int) (d : Int) (hd : d ≠ 0) : orDefault x d ≠ 0 := by
  unfold orDefault
  split
  · split
    · exact hd
    · assumption
  · exact hd

theorem milestone_ne_zero (db : DB) (day reward : Int)
    (h : (getStreakSettings db).milestones.get day = some reward) : reward ≠ 0 := by
  unfold Milestones.get getStreakSettings at h
  simp only at h
  split at h
  · cases h; exact orDefault_ne_zero _ _ (by decide)
  · split at h
    · cases h; exact orDefault_ne_zero _ _ (by decide)
    · split at h
      · cases h; exact orDefault_ne_zero _ _ (by decide)
      · split at h
        · cases h; exact orDefault_ne_zero _ _ (by decide)
        · split at h
          · cases h; exact orDefault_ne_zero _ _ (by decide)
          · cases h

theorem milestone_get_isSome (ms : Milestones) (day : Int) :
    isMilestoneDay day ↔ ∃ reward, ms.get day = some reward := by
  unfold isMilestoneDay Milestones.get
  constructor
  · rintro (h | h | h | h | h) <;> subst h <;> simp
  · rintro ⟨reward, h⟩
    by_contra hne
    simp only [not_or] at hne
    simp [hne.1, hne.2.1, hne.2.2.1, hne.2.2.2.1, hne.2.2.2.2] at h

theorem fkOk_addGems (db : DB) (u w : String) (a : Int) :
    fkOk { db with users := addGems db.users w a } u = fkOk db u := by
  unfold fkOk
  rw [userExists_addGems]

theorem checkAndAwardMilestone_paid (db : DB) (now : Nat) (u : String) (day reward : Int)
    (hfk : fkOk db u = true) (h : (getStreakSettings db).milestones.get day = some reward) :
    (checkAndAwardMilestone db now u day).1
      = { db with users := addGems db.users u reward,
                  transactions := db.transactions ++ [milestoneTransaction u reward day now] } := by
  have hne := milestone_ne_zero db day reward h
  unfold checkAndAwardMilestone
  simp only [h, hne, if_false, fkOk_addGems, hfk, if_true]

theorem checkAndAwardMilestone_unpaid (db : DB) (now : Nat) (u : String) (day : Int)
    (h : (getStreakSettings db).milestones.get day = none) :
    (checkAndAwardMilestone db now u day).1 = db := by
  unfold checkAndAwardMilestone
  simp only [h]

theorem yesterday_ne_today (now : Nat) : getYesterday now ≠ isoDate now := by
  unfold getYesterday; omega

/-- The continuation branch on a milestone day: one payout, one transaction. -/
theorem applyActivity_paid (db : DB) (now : Nat) (u : String) (s : ActivityStreak)
    (v m reward : Int) (hfk : fkOk db u = true)
    (hy : s.last_activity_date = some (getYesterday now)) (hq : s.streak_qualified_today = 1)
    (h : (getStreakSettings db).milestones.get (s.current_streak + 1) = some reward) :
    (applyActivity db now u s v m).users = addGems db.users u reward
      ∧ (applyActivity db now u s v m).transactions
          = db.transactions ++ [milestoneTransaction u reward (s.current_streak + 1) now] := by
  unfold applyActivity
  simp only [hy, hq, ne_eq, Option.some.injEq, yesterday_ne_today now, not_false_eq_true,
    if_true, and_self]
  have hfk2 : ∀ f, fkOk (updateStreak db u f) u = true := fun _ => hfk
  have h2 : ∀ f, (getStreakSettings (updateStreak db u f)).milestones.get (s.current_streak + 1)
      = some reward := fun _ => h
  rw [checkAndAwardMilestone_paid _ now u (s.current_streak + 1) reward (hfk2 _) (h2 _)]
  exact ⟨rfl, rfl⟩

/-- Every other branch, and the continuation branch off a milestone day: no
payout and no transaction. -/
theorem applyActivity_unpaid (db : DB) (now : Nat) (u : String) (s : ActivityStreak)
    (v m : Int)
    (h : ¬ (s.last_activity_date = some (getYesterday now) ∧ s.streak_qualified_today = 1
          ∧ isMilestoneDay (s.current_streak + 1))) :
    (applyActivity db now u s v m).users = db.users
      ∧ (applyActivity db now u s v m).transactions = db.transactions := by
  unfold applyActivity
  simp only
  split
  · split
    · rename_i hc
      have hnone : (getStreakSettings db).milestones.get (s.current_streak + 1) = none := by
        cases hg : (getStreakSettings db).milestones.get (s.current_streak + 1) with
        | none => rfl
        | some reward =>
          exact absurd ⟨hc.1, hc.2, (milestone_get_isSome _ _).2 ⟨reward, hg⟩⟩ h
      have h2 : ∀ f, (getStreakSettings (updateStreak db u f)).milestones.get
          (s.current_streak + 1) = none := fun _ => hnone
      rw [checkAndAwardMilestone_unpaid _ now u _ (h2 _)]
      exact ⟨rfl, rfl⟩
    · split <;> exact ⟨rfl, rfl⟩
  · exact ⟨rfl, rfl⟩

theorem gemsOf_addGems (db : DB) (users : List User) (u : String) (a : Int) :
    gemsOf { db with users := addGems users u a } u
      = (gemsOf { db with users := users } u).map (fun g => g + a) := by
  unfold gemsOf
  rw [selectUser_addGems { db with users := users } u a]
  cases selectUser { db with users := users } u <;> rfl

theorem gemsOf_congr (db db2 : DB) (u : String) (h : db2.users = db.users) :
    gemsOf db2 u = gemsOf db u := by
  unfold gemsOf selectUser; rw [h]

end Lbb


namespace Lbb

theorem gems_addGems (users : List User) (u : String) (a : Int) :
    ((addGems users u a).find? (fun x => decide (x.user_id = u))).map (fun x => x.gems)
      = ((users.find? (fun x => decide (x.user_id = u))).map (fun x => x.gems)).map
          (fun g => g + a) := by
  unfold addGems
  rw [find_map_update (fun r => r.user_id) (fun x => { x with gems := x.gems + a })
    (fun _ => rfl) u users]
  cases users.find? (fun x => decide (x.user_id = u)) <;> rfl

theorem userExists_of_selectUser (db : DB) (u : String) (usr : User)
    (h : selectUser db u = some usr) : userExists db u = true := by
  unfold selectUser at h
  unfold userExists
  rw [List.any_eq_true]
  exact ⟨usr, List.mem_of_find?_eq_some h, by simpa using List.find?_some h⟩

theorem fkOk_of_selectUser (db : DB) (u : String) (usr : User)
    (h : selectUser db u = some usr) : fkOk db u = true := by
  unfold fkOk
  rw [userExists_of_selectUser db u usr h]
  simp

/-- The users table after a call, from the table after lines 153-210. -/
theorem track_existing_users (db : DB) (now : Nat) (u : String) (s : ActivityStreak)
    (v m : Int) (h : selectStreak db u = some s) :
    (trackUserActivity db now u v m).1.users
        = (if (trackUserActivity db now u v m).2.qualified
            then addGems (applyActivity db now u s v m).users u
              (getStreakSettings db).streak_reward_gems
           else (applyActivity db now u s v m).users)
      ∧ (trackUserActivity db now u v m).1.transactions
        = (applyActivity db now u s v m).transactions := by
  rw [track_existing db now u s v m h]
  exact ⟨checkQualified_users _ _ _ _ _ _, checkQualified_transactions _ _ _ _ _ _⟩

/-- C7: with the default settings, for a user whose row has `current_streak` 6,
`last_activity_date` yesterday and the flag at 1, one `trackUserActivity` call
today whose deltas meet both thresholds sets `current_streak` to 7, appends
exactly one `streak_milestone` transaction of 50 gems, returns qualified = true
with reward 10, credits 50 and then 10 gems to the user and so raises the user's
gems by exactly 60. -/
theorem C7_day7_milestone_and_reward (db : DB) (now : Nat) (u : String)
    (s : ActivityStreak) (usr : User) (v m : Int)
    (hset : getStreakSettings db = defaultSettings)
    (h : selectStreak db u = some s) (hcs : s.current_streak = 6)
    (hy : s.last_activity_date = some (getYesterday now)) (hq : s.streak_qualified_today = 1)
    (husr : selectUser db u = some usr) (hv : 5 ≤ v) (hm : 5 ≤ m) :
    (∃ s2, selectStreak (trackUserActivity db now u v m).1 u = some s2 ∧ s2.current_streak = 7)
      ∧ (trackUserActivity db now u v m).1.transactions
          = db.transactions ++ [milestoneTransaction u 50 7 now]
      ∧ (trackUserActivity db now u v m).2.qualified = true
      ∧ (trackUserActivity db now u v m).2.reward = some 10
      ∧ (trackUserActivity db now u v m).1.users = addGems (addGems db.users u 50) u 10
      ∧ selectUser (trackUserActivity db now u v m).1 u
          = some { usr with gems := usr.gems + 60 } := by
  have hfk := fkOk_of_selectUser db u usr husr
  have hget : (getStreakSettings db).milestones.get (s.current_streak + 1) = some 50 := by
    rw [hset, hcs]; decide
  obtain ⟨hau, hat⟩ := applyActivity_paid db now u s v m 50 hfk hy hq hget
  have hrow : rolledRow now s v m
      = { s with current_streak := s.current_streak + 1,
                 longest_streak := max (s.current_streak + 1) s.longest_streak,
                 last_activity_date := some (isoDate now), today_voice_minutes := v,
                 today_messages := m, streak_qualified_today := 0,
                 total_streak_days := s.total_streak_days + 1 } := by
    unfold rolledRow
    simp [hy, hq, yesterday_ne_today now]
  have hqual : (trackUserActivity db now u v m).2.qualified = true
      ∧ (trackUserActivity db now u v m).2.reward = some 10 := by
    rw [track_existing db now u s v m h, hrow, hset]
    unfold checkQualified defaultSettings
    have h1 : v + v ≥ 5 := by omega
    have h2 : m + m ≥ 5 := by omega
    simp [h1, h2]
  obtain ⟨husers, htx⟩ := track_existing_users db now u s v m h
  rw [hqual.1, if_pos rfl, hau, hset] at husers
  have husers2 : (trackUserActivity db now u v m).1.users
      = addGems (addGems db.users u 50) u 10 := husers
  refine ⟨?_, ?_, hqual.1, hqual.2, husers2, ?_⟩
  · obtain ⟨s2, hs2, hc⟩ := track_existing_streak db now u s v m h
    exact ⟨s2, hs2, by rw [hc, hrow, hcs]; rfl⟩
  · rw [htx, hat, hcs]; rfl
  · unfold selectUser at husr ⊢
    rw [husers2]
    unfold addGems
    rw [find_map_update (fun (r : User) => r.user_id)
      (fun (x : User) => { x with gems := x.gems + 10 }) (fun _ => rfl) u,
      find_map_update (fun (r : User) => r.user_id)
      (fun (x : User) => { x with gems := x.gems + 50 }) (fun _ => rfl) u, husr]
    simp only [Option.map_some']
    congr 2
    omega

/-- C7 at Scenario B: streak 6, last active on day 9 and qualified, no gems;
a call on day 10 with deltas 5 and 5 leaves 60 gems. -/
theorem C7_day7_milestone_and_reward_witness :
    selectUser (trackUserActivity (scenarioWith (rowDay9 6 1)) day10 "u" 5 5).1 "u"
      = some { user_id := "u", gems := 0 + 60, respect_count := 0 } :=
  (C7_day7_milestone_and_reward (scenarioWith (rowDay9 6 1)) day10 "u" (rowDay9 6 1)
    { user_id := "u", gems := 0, respect_count := 0 } 5 5 (by decide) (by decide) (by decide)
    (by decide) (by decide) (by decide) (by decide) (by decide)).2.2.2.2.2

end Lbb


namespace Lbb

theorem gemsOf_eq (db : DB) (u : String) (users : List User) (h : db.users = users) :
    gemsOf db u = (users.find? (fun x => decide (x.user_id = u))).map (fun x => x.gems) := by
  unfold gemsOf selectUser; rw [h]

theorem option_map_add_zero (o : Option Int) : o.map (fun g => g + 0) = o := by
  cases o <;> simp

theorem option_map_add_add (o : Option Int) (a b : Int) :
    (o.map (fun g => g + a)).map (fun g => g + b) = o.map (fun g => g + a + b) := by
  cases o <;> simp

/-- C8: milestone payouts are keyed by exact equality.  For a user who can be
referenced by a transaction row (`fkOk`: the user exists, or foreign keys are
off): when the call takes the streak-continuation branch (`last_activity_date`
is yesterday and the flag is 1) and the new streak old + 1 is exactly one of 7,
14, 30, 60, 90, the configured reward of that day is credited and exactly one
`streak_milestone` transaction of that amount is appended; in every other case
(another new streak value, or the reset, carry and same-day branches, or a new
record) no transaction is written and the gems change only by the daily
qualification reward of the call, if any. -/
theorem C8_milestone_exact_days (db : DB) (now : Nat) (u : String) (v m : Int)
    (hfk : fkOk db u = true) :
    (∀ s, selectStreak db u = some s → s.last_activity_date = some (getYesterday now) →
        s.streak_qualified_today = 1 → isMilestoneDay (s.current_streak + 1) →
        ∃ reward, (getStreakSettings db).milestones.get (s.current_streak + 1) = some reward
          ∧ (trackUserActivity db now u v m).1.transactions
              = db.transactions ++ [milestoneTransaction u reward (s.current_streak + 1) now]
          ∧ gemsOf (trackUserActivity db now u v m).1 u
              = (gemsOf db u).map (fun g => g + reward
                  + (if (trackUserActivity db now u v m).2.qualified
                      then (getStreakSettings db).streak_reward_gems else 0)))
      ∧ ((¬ ∃ s, selectStreak db u = some s ∧ s.last_activity_date = some (getYesterday now)
            ∧ s.streak_qualified_today = 1 ∧ isMilestoneDay (s.current_streak + 1)) →
          (trackUserActivity db now u v m).1.transactions = db.transactions
            ∧ gemsOf (trackUserActivity db now u v m).1 u
                = (gemsOf db u).map (fun g => g
                    + (if (trackUserActivity db now u v m).2.qualified
                        then (getStreakSettings db).streak_reward_gems else 0))) := by
  constructor
  · intro s hsel hy hq hday
    obtain ⟨reward, hget⟩ := (milestone_get_isSome (getStreakSettings db).milestones _).1 hday
    obtain ⟨hau, hat⟩ := applyActivity_paid db now u s v m reward hfk hy hq hget
    obtain ⟨husers, htx⟩ := track_existing_users db now u s v m hsel
    refine ⟨reward, hget, by rw [htx, hat], ?_⟩
    rw [hau] at husers
    cases hres : (trackUserActivity db now u v m).2.qualified with
    | true =>
      rw [hres, if_pos rfl] at husers
      rw [gemsOf_eq _ u _ husers, gems_addGems, gems_addGems, option_map_add_add]
      rfl
    | false =>
      rw [hres] at husers
      simp only [Bool.false_eq_true, if_false] at husers
      rw [gemsOf_eq _ u _ husers, gems_addGems]
      simp only [Bool.false_eq_true, if_false, add_zero]
      rfl
  · intro hno
    have key : ∀ (dbx : DB) (s : ActivityStreak), dbx.users = db.users →
        dbx.transactions = db.transactions →
        ¬ (s.last_activity_date = some (getYesterday now) ∧ s.streak_qualified_today = 1
          ∧ isMilestoneDay (s.current_streak + 1)) →
        trackUserActivity db now u v m
          = checkQualified (applyActivity dbx now u s v m) (getStreakSettings db) u
              (rolledRow now s v m) v m →
        (trackUserActivity db now u v m).1.transactions = db.transactions
          ∧ gemsOf (trackUserActivity db now u v m).1 u
              = (gemsOf db u).map (fun g => g
                  + (if (trackUserActivity db now u v m).2.qualified
                      then (getStreakSettings db).streak_reward_gems else 0)) := by
      intro dbx s hux htx hnot heq
      obtain ⟨hau, hat⟩ := applyActivity_unpaid dbx now u s v m hnot
      have husers := checkQualified_users (applyActivity dbx now u s v m) (getStreakSettings db)
        u (rolledRow now s v m) v m
      have htrans := checkQualified_transactions (applyActivity dbx now u s v m)
        (getStreakSettings db) u (rolledRow now s v m) v m
      rw [← heq, hau, hux] at husers
      rw [← heq, hat, htx] at htrans
      refine ⟨htrans, ?_⟩
      cases hres : (trackUserActivity db now u v m).2.qualified with
      | true =>
        rw [hres, if_pos rfl] at husers
        rw [gemsOf_eq _ u _ husers, gems_addGems]
        rfl
      | false =>
        rw [hres] at husers
        simp only [Bool.false_eq_true, if_false] at husers
        rw [gemsOf_eq _ u _ husers]
        simp only [Bool.false_eq_true, if_false, add_zero]
        rw [Option.map_id']
        rfl
    cases hsel : selectStreak db u with
    | some s =>
      exact key db s rfl rfl (fun hc => hno ⟨s, hsel, hc.1, hc.2.1, hc.2.2⟩)
        (track_existing db now u s v m hsel)
    | none =>
      refine key (withFreshStreak db (isoDate now) u) (freshStreak (isoDate now) u) rfl rfl ?_
        (track_new db now u v m hsel hfk)
      intro hc
      exact yesterday_ne_today now (Option.some.inj hc.1).symm

/-- C8 at concrete rows: a continuation to day 7 appends one transaction of 50
gems; a continuation to day 8 appends none and credits only the daily reward. -/
theorem C8_milestone_exact_days_witness :
    (∃ reward, (getStreakSettings (scenarioWith (rowDay9 6 1))).milestones.get 7 = some reward
        ∧ (trackUserActivity (scenarioWith (rowDay9 6 1)) day10 "u" 5 5).1.transactions
            = [milestoneTransaction "u" reward 7 day10])
      ∧ (trackUserActivity (scenarioWith (rowDay9 7 1)) day10 "u" 5 5).1.transactions = [] :=
  ⟨(((C8_milestone_exact_days (scenarioWith (rowDay9 6 1)) day10 "u" 5 5 (by decide)).1
      (rowDay9 6 1) (by decide) (by decide) (by decide) (by decide)).imp
        (fun _ hr => ⟨hr.1, hr.2.1⟩)),
   ((C8_milestone_exact_days (scenarioWith (rowDay9 7 1)) day10 "u" 5 5 (by decide)).2
      (by decide)).1⟩

end Lbb


namespace Lbb

/-! ## Settings: rendering and parsing of numbers -/

theorem digitChar_toNat (d : Nat) (h : d < 10) : (digitChar d).toNat = 48 + d := by
  interval_cases d <;> rfl

theorem digitValue_digitChar (d : Nat) (h : d < 10) : digitValue 10 (digitChar d) = some d := by
  interval_cases d <;> rfl

theorem parseDigits_toDigitsFuel (fuel : Nat) :
    ∀ (n : Nat) (acc : List Char), n < fuel →
      parseDigits 10 (toDigitsFuel fuel n acc) none = parseDigits 10 acc (some n) := by
  induction fuel with
  | zero => intro n acc h; omega
  | succ fuel ih =>
    intro n acc h
    unfold toDigitsFuel
    have hmod : n % 10 < 10 := Nat.mod_lt _ (by decide)
    split
    · rename_i h0
      rw [parseDigits, digitValue_digitChar _ hmod]
      simp only [Option.getD_none, Nat.zero_mul, Nat.zero_add]
      congr 2
      omega
    · rename_i h0
      rw [ih (n / 10) _ (by omega), parseDigits, digitValue_digitChar _ hmod]
      simp only [Option.getD_some]
      congr 2
      omega

theorem isDigitCode_digitChar (d : Nat) (h : d < 10) : isDigitCode (digitChar d) := by
  unfold isDigitCode
  rw [digitChar_toNat d h]
  omega

theorem toDigitsFuel_shape (fuel : Nat) :
    ∀ (n : Nat) (acc : List Char), (∀ c ∈ acc, isDigitCode c) →
      ∃ c rest, toDigitsFuel (fuel + 1) n acc = c :: rest ∧ isDigitCode c
        ∧ ∀ x ∈ rest, isDigitCode x := by
  induction fuel with
  | zero =>
    intro n acc hacc
    have hmod : n % 10 < 10 := Nat.mod_lt _ (by decide)
    refine ⟨digitChar (n % 10), acc, ?_, isDigitCode_digitChar _ hmod, hacc⟩
    unfold toDigitsFuel
    split
    · rfl
    · rfl
  | succ fuel ih =>
    intro n acc hacc
    have hmod : n % 10 < 10 := Nat.mod_lt _ (by decide)
    unfold toDigitsFuel
    split
    · exact ⟨_, _, rfl, isDigitCode_digitChar _ hmod, hacc⟩
    · apply ih
      intro c hc
      rcases List.mem_cons.1 hc with h | h
      · rw [h]; exact isDigitCode_digitChar _ hmod
      · exact hacc c h

theorem isWhiteSpace_of_code (c : Char) (h : 43 ≤ c.toNat ∧ c.toNat ≤ 57) :
    isWhiteSpace c = false := by
  unfold isWhiteSpace
  simp only [decide_eq_false_iff_not]
  omega

theorem parseRadix_digits (c : Char) (rest : List Char) (hrest : ∀ x ∈ rest, isDigitCode x) :
    parseRadix (c :: rest) = (10, c :: rest) := by
  cases rest with
  | nil => rfl
  | cons c1 rest =>
    have h1 := hrest c1 (List.mem_cons_self _ _)
    unfold isDigitCode at h1
    unfold parseRadix
    have : ¬ (c.toNat = 48 ∧ (c1.toNat = 120 ∨ c1.toNat = 88)) := by omega
    simp only [this, if_false]

theorem parseInt_natToString (n : Nat) : parseInt (some (natToString n)) = some (n : Int) := by
  obtain ⟨c, rest, hshape, hc, hrest⟩ := toDigitsFuel_shape n n [] (by simp)
  have hparse := parseDigits_toDigitsFuel (n + 1) n [] (Nat.lt_succ_self n)
  unfold isDigitCode at hc
  unfold parseInt natToString
  simp only
  rw [hshape] at hparse ⊢
  have hws : isWhiteSpace c = false := isWhiteSpace_of_code c (by omega)
  have hdrop : List.dropWhile isWhiteSpace (c :: rest) = c :: rest := by
    simp [List.dropWhile, hws]
  have hsign : parseSign (c :: rest) = (false, c :: rest) := by
    unfold parseSign
    have h1 : ¬ c.toNat = 45 := by omega
    have h2 : ¬ c.toNat = 43 := by omega
    simp only [h1, h2, if_false]
  rw [hdrop, hsign, parseRadix_digits c rest hrest, hparse]
  simp [parseDigits]

theorem parseInt_numberToString (v : Int) : parseInt (some (numberToString v)) = some v := by
  unfold numberToString
  split
  · rename_i hneg
    obtain ⟨c, rest, hshape, hc, hrest⟩ := toDigitsFuel_shape v.natAbs v.natAbs [] (by simp)
    have hparse := parseDigits_toDigitsFuel (v.natAbs + 1) v.natAbs [] (Nat.lt_succ_self _)
    unfold parseInt natToString
    simp only
    rw [hshape] at hparse ⊢
    have hdrop : List.dropWhile isWhiteSpace (Char.ofNat 45 :: c :: rest)
        = Char.ofNat 45 :: c :: rest := by
      have : isWhiteSpace (Char.ofNat 45) = false := by decide
      simp [List.dropWhile, this]
    have hsign : parseSign (Char.ofNat 45 :: c :: rest) = (true, c :: rest) := by
      unfold parseSign
      have : (Char.ofNat 45).toNat = 45 := by decide
      simp only [this, if_true]
    rw [hdrop, hsign, parseRadix_digits c rest hrest, hparse]
    simp only [parseDigits, if_true]
    congr 1
    omega
  · rename_i hpos
    rw [parseInt_natToString]
    congr 1
    omega

theorem orDefault_roundtrip (v d : Int) (hv : v ≠ 0) :
    orDefault (parseInt (some (numberToString v))) d = v := by
  rw [parseInt_numberToString]
  simp [orDefault, hv]

/-! ## Settings: the key/value table -/

theorem configLookup_append (rows : List StreakSetting) (r : StreakSetting) (k : String) :
    configLookup (rows ++ [r]) k
      = (if r.setting_key = k then some r.setting_value else configLookup rows k) := by
  unfold configLookup
  rw [List.foldl_append]
  rfl

theorem foldl_lookup_map_same (key val : String) (now : Nat) (by1 : String)
    (rows : List StreakSetting) :
    ∀ acc : Option String,
      List.foldl (fun acc s => if s.setting_key = key then some s.setting_value else acc) acc
        (rows.map (fun r =>
          if r.setting_key = key then
            { r with setting_value := val, updated_at := now, updated_by := some by1 }
          else r))
      = (if rows.any (fun r => decide (r.setting_key = key)) then some val else acc) := by
  induction rows with
  | nil => intro acc; rfl
  | cons a t ih =>
    intro acc
    simp only [List.map_cons, List.foldl_cons, List.any_cons]
    rw [ih]
    by_cases h : a.setting_key = key
    · simp [h]
    · simp [h]

theorem foldl_lookup_map_other (key val k : String) (now : Nat) (by1 : String) (hk : k ≠ key)
    (rows : List StreakSetting) :
    ∀ acc : Option String,
      List.foldl (fun acc s => if s.setting_key = k then some s.setting_value else acc) acc
        (rows.map (fun r =>
          if r.setting_key = key then
            { r with setting_value := val, updated_at := now, updated_by := some by1 }
          else r))
      = List.foldl (fun acc s => if s.setting_key = k then some s.setting_value else acc) acc
          rows := by
  induction rows with
  | nil => intro acc; rfl
  | cons a t ih =>
    intro acc
    simp only [List.map_cons, List.foldl_cons]
    rw [ih]
    by_cases h : a.setting_key = key
    · have h2 : ¬ a.setting_key = k := fun e => hk (e.symm.trans h)
      simp [h, h2, hk.symm]
    · simp [h]

/-- After the upsert of a key the lookup of that key gives the new text and the
lookup of every other key is unchanged. -/
theorem configLookup_upsertSetting (rows : List StreakSetting) (key val k : String)
    (now : Nat) (by1 : String) :
    configLookup (upsertSetting rows key val now by1) k
      = (if k = key then some val else configLookup rows k) := by
  unfold upsertSetting
  by_cases hany : rows.any (fun r => decide (r.setting_key = key)) = true
  · simp only [hany, if_true]
    by_cases hk : k = key
    · subst hk
      unfold configLookup
      rw [foldl_lookup_map_same, hany]
      simp
    · unfold configLookup
      rw [foldl_lookup_map_other key val k now by1 hk]
      simp [hk]
  · simp only [hany, if_false, Bool.false_eq_true]
    rw [configLookup_append]
    by_cases hk : k = key
    · subst hk; simp
    · have : ¬ key = k := fun e => hk e.symm
      simp [hk, this]

/-- A settings field read after the upsert of a non-zero integer. -/
theorem readSetting_upsertSetting (rows : List StreakSetting) (key k : String) (v d : Int)
    (now : Nat) (by1 : String) (hv : v ≠ 0) :
    orDefault (parseInt (configLookup (upsertSetting rows key (numberToString v) now by1) k)) d
      = (if k = key then v else orDefault (parseInt (configLookup rows k)) d) := by
  rw [configLookup_upsertSetting]
  by_cases hk : k = key
  · simp only [hk, if_true]
    exact orDefault_roundtrip v d hv
  · simp only [hk, if_false]

theorem updateStreakSettings_single (db : DB) (now : Nat) (key : String) (v : Int)
    (by1 : String) :
    (updateStreakSettings db now [(key, v)] by1).1
      = (if validKeys.contains key then
          { db with streak_settings :=
              upsertSetting db.streak_settings key (numberToString v) now by1 }
         else db) := by
  unfold updateStreakSettings
  simp only [List.foldl_cons, List.foldl_nil]
  split <;> rfl

/-- Two settings objects agree at a key when they agree in the field of that key. -/
theorem byKey_congr (s t : Settings) (k : String)
    (h1 : k = "required_voice_minutes" → s.required_voice_minutes = t.required_voice_minutes)
    (h2 : k = "required_messages" → s.required_messages = t.required_messages)
    (h3 : k = "streak_reward_gems" → s.streak_reward_gems = t.streak_reward_gems)
    (h4 : k = "streak_milestone_7_gems" → s.milestones.d7 = t.milestones.d7)
    (h5 : k = "streak_milestone_14_gems" → s.milestones.d14 = t.milestones.d14)
    (h6 : k = "streak_milestone_30_gems" → s.milestones.d30 = t.milestones.d30)
    (h7 : k = "streak_milestone_60_gems" → s.milestones.d60 = t.milestones.d60)
    (h8 : k = "streak_milestone_90_gems" → s.milestones.d90 = t.milestones.d90) :
    s.byKey k = t.byKey k := by
  unfold Settings.byKey
  split
  · rename_i h; rw [h1 h]
  · split
    · rename_i h; rw [h2 h]
    · split
      · rename_i h; rw [h3 h]
      · split
        · rename_i h; rw [h4 h]
        · split
          · rename_i h; rw [h5 h]
          · split
            · rename_i h; rw [h6 h]
            · split
              · rename_i h; rw [h7 h]
              · split
                · rename_i h; rw [h8 h]
                · rfl

/-- C9 (counterexample): writing the allow-listed key `required_messages` with
the integer value 0 succeeds, and `getStreakSettings` then returns 5, not 0. -/
theorem C9_zero_does_not_round_trip :
    (updateStreakSettings scenarioDb 7 [("required_messages", 0)] "admin").2.success = true
      ∧ (getStreakSettings
          (updateStreakSettings scenarioDb 7 [("required_messages", 0)] "admin").1).required_messages
          = 5
      ∧ (5 : Int) ≠ 0 := by
  decide

/-- C9 (amended): settings round trip for non-zero values.  For every
allow-listed key and every non-zero integer `v`, `updateStreakSettings` with the
single entry key: v returns success, afterwards `getStreakSettings` returns `v`
in the field of that key and every other field is unchanged; a key outside the
allow-list changes nothing. -/
theorem C9_settings_round_trip_nonzero (db : DB) (now : Nat) (key : String) (v : Int)
    (by1 : String) :
    (updateStreakSettings db now [(key, v)] by1).2.success = true
      ∧ (key ∈ validKeys → v ≠ 0 →
          (getStreakSettings (updateStreakSettings db now [(key, v)] by1).1).byKey key = some v
            ∧ ∀ k, k ≠ key →
                (getStreakSettings (updateStreakSettings db now [(key, v)] by1).1).byKey k
                  = (getStreakSettings db).byKey k)
      ∧ (key ∉ validKeys → (updateStreakSettings db now [(key, v)] by1).1 = db) := by
  refine ⟨rfl, ?_, ?_⟩
  · intro hkey hv
    have hc : validKeys.contains key = true := by simpa using hkey
    rw [updateStreakSettings_single, hc, if_pos rfl]
    have hfields : getStreakSettings
        { db with streak_settings :=
            upsertSetting db.streak_settings key (numberToString v) now by1 }
        = { required_voice_minutes :=
              if "required_voice_minutes" = key then v
              else (getStreakSettings db).required_voice_minutes
            required_messages :=
              if "required_messages" = key then v else (getStreakSettings db).required_messages
            streak_reward_gems :=
              if "streak_reward_gems" = key then v else (getStreakSettings db).streak_reward_gems
            milestones :=
              { d7 := if "streak_milestone_7_gems" = key then v
                      else (getStreakSettings db).milestones.d7
                d14 := if "streak_milestone_14_gems" = key then v
                       else (getStreakSettings db).milestones.d14
                d30 := if "streak_milestone_30_gems" = key then v
                       else (getStreakSettings db).milestones.d30
                d60 := if "streak_milestone_60_gems" = key then v
                       else (getStreakSettings db).milestones.d60
                d90 := if "streak_milestone_90_gems" = key then v
                       else (getStreakSettings db).milestones.d90 } } := by
      unfold getStreakSettings
      simp only [readSetting_upsertSetting _ _ _ _ _ _ _ hv]
    rw [hfields]
    constructor
    · simp only [validKeys, List.mem_cons, List.mem_singleton, List.not_mem_nil, or_false]
        at hkey
      rcases hkey with h | h | h | h | h | h | h | h <;> subst h <;> simp [Settings.byKey]
    · intro k hk
      have hif : ∀ (lit : String) (old : Int), k = lit → (if lit = key then v else old) = old :=
        fun lit old hl => if_neg (fun e => hk (hl.trans e))
      apply byKey_congr <;> exact hif _ _
  · intro hkey
    have hc : validKeys.contains key = false := by simpa using hkey
    rw [updateStreakSettings_single, hc]
    rfl

/-- C9 (amended) at a concrete write: `streak_reward_gems` set to 25 on the
initial table is read back as 25 and the voice threshold is still 5. -/
theorem C9_settings_round_trip_nonzero_witness :
    (getStreakSettings
        (updateStreakSettings scenarioDb 7 [("streak_reward_gems", 25)] "admin").1).byKey
          "streak_reward_gems" = some 25
      ∧ (getStreakSettings
          (updateStreakSettings scenarioDb 7 [("streak_reward_gems", 25)] "admin").1).byKey
            "required_voice_minutes" = (getStreakSettings scenarioDb).byKey "required_voice_minutes" :=
  have h := (C9_settings_round_trip_nonzero scenarioDb 7 "streak_reward_gems" 25 "admin").2.1
    (by decide) (by decide)
  ⟨h.1, h.2 "required_voice_minutes" (by decide)⟩

end Lbb


namespace Lbb

/-! ## Claims on `canClaimDailyReward` -/

/-- C10: `canClaimDailyReward` returns canClaim = false exactly when the user's
record has `last_claim_date` equal to today, and then the reason is
`already_claimed_today`.  Otherwise it returns canClaim = true, with streakDay =
previous `current_streak` + 1 when `last_claim_date` is yesterday or null, and
with streakDay = 1 and streakBroken = true when `last_claim_date` is any other
date; a user with no record gets canClaim = true and streakDay = 1. -/
theorem C10_canClaimDailyReward_cases (db : DB) (now : Nat) (u : String) :
    ((canClaimDailyReward db now u).canClaim = false ↔
        ∃ r, selectDailyReward db u = some r ∧ r.last_claim_date = some (isoDate now))
      ∧ ((canClaimDailyReward db now u).canClaim = false →
          (canClaimDailyReward db now u).reason = some "already_claimed_today")
      ∧ (∀ r, selectDailyReward db u = some r → r.last_claim_date ≠ some (isoDate now) →
          (r.last_claim_date = some (getYesterday now) ∨ r.last_claim_date = none) →
          (canClaimDailyReward db now u).canClaim = true
            ∧ (canClaimDailyReward db now u).streakDay = some (r.current_streak + 1))
      ∧ (∀ r, selectDailyReward db u = some r → r.last_claim_date ≠ some (isoDate now) →
          r.last_claim_date ≠ some (getYesterday now) → r.last_claim_date ≠ none →
          (canClaimDailyReward db now u).canClaim = true
            ∧ (canClaimDailyReward db now u).streakDay = some 1
            ∧ (canClaimDailyReward db now u).streakBroken = some true)
      ∧ (selectDailyReward db u = none →
          (canClaimDailyReward db now u).canClaim = true
            ∧ (canClaimDailyReward db now u).streakDay = some 1) := by
  unfold canClaimDailyReward
  cases hsel : selectDailyReward db u with
  | none => simp
  | some r =>
    by_cases htoday : r.last_claim_date = some (isoDate now)
    · simp [htoday]
    · refine ⟨by simp [htoday], by simp [htoday], ?_, ?_, by simp⟩
      · intro r2 hr2 _ hact
        cases hr2
        rcases hact with hy | hn
        · simp [hy, yesterday_ne_today now]
        · simp [htoday, hn]
      · intro r2 hr2 _ hny hnn
        cases hr2
        have hsome : r.last_claim_date.isSome = true := by
          cases hl : r.last_claim_date with
          | none => exact absurd hl hnn
          | some x => rfl
        have hnone : r.last_claim_date.isNone = false := by
          cases hl : r.last_claim_date with
          | none => exact absurd hl hnn
          | some x => rfl
        simp [htoday, hny, hsome, hnone]

/-- C10 at concrete records on day 10: claimed on day 10 cannot claim; claimed
on day 9 continues at day 5; claimed on day 3 restarts at day 1 with the streak
flagged broken. -/
theorem C10_canClaimDailyReward_cases_witness :
    (canClaimDailyReward (scenarioDaily (dailyRow (some 10))) day10 "u").reason
        = some "already_claimed_today"
      ∧ (canClaimDailyReward (scenarioDaily (dailyRow (some 9))) day10 "u").streakDay = some (4 + 1)
      ∧ (canClaimDailyReward (scenarioDaily (dailyRow (some 3))) day10 "u").streakBroken
          = some true :=
  ⟨(C10_canClaimDailyReward_cases (scenarioDaily (dailyRow (some 10))) day10 "u").2.1 (by decide),
   ((C10_canClaimDailyReward_cases (scenarioDaily (dailyRow (some 9))) day10 "u").2.2.1
      (dailyRow (some 9)) (by decide) (by decide) (by decide)).2,
   ((C10_canClaimDailyReward_cases (scenarioDaily (dailyRow (some 3))) day10 "u").2.2.2.1
      (dailyRow (some 3)) (by decide) (by decide) (by decide) (by decide)).2.2⟩

end Lbb


namespace Lbb

/-! ## Claims on `claimDailyReward` -/

theorem find_none_of_any_false {α : Type} (p : α → Bool) (l : List α)
    (h : l.any p = false) : l.find? p = none := by
  rw [List.find?_eq_none]
  intro x hx hp
  have : l.any p = true := List.any_eq_true.2 ⟨x, hx, hp⟩
  rw [h] at this
  cases this

theorem find_some_of_any {α : Type} (p : α → Bool) (l : List α)
    (h : l.any p = true) : ∃ a, l.find? p = some a := by
  cases hf : l.find? p with
  | some a => exact ⟨a, rfl⟩
  | none =>
    rw [List.find?_eq_none] at hf
    obtain ⟨x, hx, hp⟩ := List.any_eq_true.1 h
    exact absurd hp (hf x hx)

theorem any_of_find_some {α : Type} (p : α → Bool) (l : List α) (a : α)
    (h : l.find? p = some a) : l.any p = true :=
  List.any_eq_true.2 ⟨a, List.mem_of_find?_eq_some h, List.find?_some h⟩

/-- The row of a user after the upsert, and the tables the upsert leaves alone. -/
theorem upsertDailyReward_ok (db db1 : DB) (u : String) (d today : Int)
    (h : upsertDailyReward db u d today = .ok db1) :
    db1.users = db.users ∧ db1.foreign_keys = db.foreign_keys
      ∧ db1.transactions = db.transactions ∧ db1.reward_claims = db.reward_claims
      ∧ selectDailyReward db1 u
          = some (match selectDailyReward db u with
                  | some r => claimedRow r d today
                  | none => firstClaimRow u d today) := by
  unfold upsertDailyReward at h
  by_cases hany : db.daily_rewards.any (fun r => decide (r.user_id = u)) = true
  · simp only [hany, if_true] at h
    cases h
    obtain ⟨r, hr⟩ := find_some_of_any _ _ hany
    refine ⟨rfl, rfl, rfl, rfl, ?_⟩
    unfold selectDailyReward
    simp only
    rw [find_map_update (fun (r : DailyReward) => r.user_id) (fun r => claimedRow r d today)
      (fun _ => rfl) u, hr]
    rfl
  · simp only [hany, if_false, Bool.false_eq_true] at h
    split at h
    · cases h
      have hnone := find_none_of_any_false _ _ (Bool.eq_false_iff.2 hany)
      refine ⟨rfl, rfl, rfl, rfl, ?_⟩
      unfold selectDailyReward
      rw [hnone, find_append_none _ _ _ hnone (by simp [firstClaimRow])]
    · cases h

theorem upsertDailyReward_total (db : DB) (u : String) (d today : Int)
    (hfk : fkOk db u = true) : ∃ db1, upsertDailyReward db u d today = .ok db1 := by
  unfold upsertDailyReward
  split
  · exact ⟨_, rfl⟩
  · exact ⟨_, rfl⟩

theorem userExists_addGemsRespect (db : DB) (u w : String) (g r : Int) :
    userExists { db with users := addGemsRespect db.users w g r } u = userExists db u := by
  unfold userExists addGemsRespect
  simp only [List.any_map]
  congr 1
  funext x
  by_cases h : x.user_id = w <;> simp [h]

theorem fkOk_congr (db db2 : DB) (u : String) (h1 : db2.users = db.users)
    (h2 : db2.foreign_keys = db.foreign_keys) : fkOk db2 u = fkOk db u := by
  unfold fkOk userExists
  rw [h1, h2]

/-- Unfolding of `claimDailyReward` when every statement runs. -/
theorem claimDailyReward_eq (db db1 : DB) (now : Nat) (u : String) (d : Int)
    (hcan : (canClaimDailyReward db now u).canClaim = true)
    (hd : (canClaimDailyReward db now u).streakDay = some d)
    (hup : upsertDailyReward db u d (isoDate now) = .ok db1)
    (hfk : fkOk db1 u = true) :
    claimDailyReward db now u = (claimedDb db1 now u d, claimedResult db now u d) := by
  have hfk3 : ∀ (rc : List RewardClaim) (g r : Int),
      fkOk { db1 with reward_claims := rc, users := addGemsRespect db1.users u g r } u = true := by
    intro rc g r
    have := userExists_addGemsRespect { db1 with reward_claims := rc } u u g r
    unfold fkOk at hfk ⊢
    rw [this]
    exact hfk
  unfold claimDailyReward
  simp only [hcan, Bool.true_eq_false, if_false, hd, hup, hfk, if_true, hfk3]
  rfl

/-- A successful claim ran every statement. -/
theorem claimDailyReward_success (db : DB) (now : Nat) (u : String)
    (h : (claimDailyReward db now u).2.success = true) :
    ∃ d db1, (canClaimDailyReward db now u).canClaim = true
      ∧ (canClaimDailyReward db now u).streakDay = some d
      ∧ upsertDailyReward db u d (isoDate now) = .ok db1
      ∧ fkOk db1 u = true
      ∧ claimDailyReward db now u = (claimedDb db1 now u d, claimedResult db now u d) := by
  have h2 := h
  unfold claimDailyReward at h2
  simp only at h2
  split at h2
  · cases h2
  · rename_i hcan
    have hcan2 : (canClaimDailyReward db now u).canClaim = true := by simpa using hcan
    split at h2
    · cases h2
    · rename_i d hd
      split at h2
      · cases h2
      · rename_i db1 hup
        split at h2
        · rename_i hfk
          exact ⟨d, db1, hcan2, hd, hup, hfk, claimDailyReward_eq db db1 now u d hcan2 hd hup hfk⟩
        · cases h2

end Lbb


namespace Lbb

/-- C11: daily reward claiming is idempotent per calendar day.  For every state,
if `claimDailyReward` succeeds and is called again with a clock reading on the
same date, the second call returns success = false with error
`already_claimed_today` and returns the database as it was: the user's gems and
respect, the `daily_rewards` row, the `reward_claims` rows and the transactions
are unchanged. -/
theorem C11_claim_idempotent_per_day (db : DB) (now1 now2 : Nat) (u : String)
    (hsame : isoDate now2 = isoDate now1)
    (h : (claimDailyReward db now1 u).2.success = true) :
    claimDailyReward (claimDailyReward db now1 u).1 now2 u
      = ((claimDailyReward db now1 u).1,
         { success := false, error := some "already_claimed_today" }) := by
  obtain ⟨d, db1, -, -, hup, -, heq⟩ := claimDailyReward_success db now1 u h
  obtain ⟨-, -, -, -, hsel⟩ := upsertDailyReward_ok db db1 u d (isoDate now1) hup
  rw [heq]
  have hsel2 : ∃ row, selectDailyReward (claimedDb db1 now1 u d) u = some row
      ∧ row.last_claim_date = some (isoDate now2) := by
    have hc : selectDailyReward (claimedDb db1 now1 u d) u = selectDailyReward db1 u := rfl
    rw [hc, hsel, hsame]
    cases selectDailyReward db u with
    | none => exact ⟨_, rfl, rfl⟩
    | some r => exact ⟨_, rfl, rfl⟩
  obtain ⟨row, hrow, hdate⟩ := hsel2
  unfold claimDailyReward canClaimDailyReward
  simp only [hrow, hdate, if_true]
  rfl

/-- C11 at a concrete state: a record last claimed on day 9 is claimed on day
10; a second claim later on day 10 fails and changes nothing. -/
theorem C11_claim_idempotent_per_day_witness :
    claimDailyReward (claimDailyReward (scenarioDaily (dailyRow (some 9))) day10 "u").1
        (day10 + 5) "u"
      = ((claimDailyReward (scenarioDaily (dailyRow (some 9))) day10 "u").1,
         { success := false, error := some "already_claimed_today" }) :=
  C11_claim_idempotent_per_day (scenarioDaily (dailyRow (some 9))) day10 (day10 + 5) "u"
    (by decide) (by decide)

/-! ## The reward schedule -/

theorem numberToString_injective (a b : Int) (h : numberToString a = numberToString b) :
    a = b := by
  have ha := parseInt_numberToString a
  rw [h, parseInt_numberToString b] at ha
  exact (Option.some.inj ha).symm

theorem dayKey_eq_iff (a b : Int) : dayKey a = dayKey b ↔ a = b := by
  constructor
  · intro h
    apply numberToString_injective
    unfold dayKey at h
    have hd := congrArg String.data h
    simp only [String.data_append] at hd
    exact String.ext (List.append_cancel_left hd)
  · intro h; rw [h]

/-- The schedule entry found for a streak day: an own entry exists exactly for
the days 1 to 7 and 14, 30, 60, 90. -/
theorem dailyRewardAt_none (d : Int)
    (h : d ≠ 1 ∧ d ≠ 2 ∧ d ≠ 3 ∧ d ≠ 4 ∧ d ≠ 5 ∧ d ≠ 6 ∧ d ≠ 7 ∧ d ≠ 14 ∧ d ≠ 30 ∧ d ≠ 60
      ∧ d ≠ 90) :
    dailyRewardAt (dayKey d) = none := by
  obtain ⟨h1, h2, h3, h4, h5, h6, h7, h14, h30, h60, h90⟩ := h
  have e1 : "day1" = dayKey 1 := by decide
  have e2 : "day2" = dayKey 2 := by decide
  have e3 : "day3" = dayKey 3 := by decide
  have e4 : "day4" = dayKey 4 := by decide
  have e5 : "day5" = dayKey 5 := by decide
  have e6 : "day6" = dayKey 6 := by decide
  have e7 : "day7" = dayKey 7 := by decide
  have e14 : "day14" = dayKey 14 := by decide
  have e30 : "day30" = dayKey 30 := by decide
  have e60 : "day60" = dayKey 60 := by decide
  have e90 : "day90" = dayKey 90 := by decide
  unfold dailyRewardAt DAILY_REWARDS
  rw [e1, e2, e3, e4, e5, e6, e7, e14, e30, e60, e90]
  simp only [List.find?, dayKey_eq_iff, Ne.symm h1, Ne.symm h2, Ne.symm h3, Ne.symm h4,
    Ne.symm h5, Ne.symm h6, Ne.symm h7, Ne.symm h14, Ne.symm h30, Ne.symm h60, Ne.symm h90,
    decide_False, Option.map_none']

/-- C12: the reward schedule.  `getDailyReward(d)` returns the table entry for
d in 1..6 (gems 10, 15, 20, 25, 30, 40; respect 1, 1, 2, 2, 3, 3), the special
milestone entry for d in 7, 14, 30, 60, 90 (gems 100, 250, 500, 1000, 2000;
respect 10, 25, 50, 100, 200), and for every d > 7 that is not one of those
milestones gems = 40 + 5*w and respect = 3 + floor(w/2) with
w = floor((d-1)/7) + 1. -/
theorem C12_reward_schedule :
    [1, 2, 3, 4, 5, 6].map (fun d => ((getDailyReward d).gems, (getDailyReward d).respect))
        = [(10, 1), (15, 1), (20, 2), (25, 2), (30, 3), (40, 3)]
      ∧ [7, 14, 30, 60, 90].map
          (fun d => ((getDailyReward d).gems, (getDailyReward d).respect,
            (getDailyReward d).special))
        = [(100, 10, some true), (250, 25, some true), (500, 50, some true),
           (1000, 100, some true), (2000, 200, some true)]
      ∧ ∀ d : Int, d > 7 → d ≠ 14 → d ≠ 30 → d ≠ 60 → d ≠ 90 →
          (getDailyReward d).gems = 40 + 5 * ((d - 1) / 7 + 1)
            ∧ (getDailyReward d).respect = 3 + ((d - 1) / 7 + 1) / 2 := by
  refine ⟨by decide, by decide, ?_⟩
  intro d h7 h14 h30 h60 h90
  have hnone := dailyRewardAt_none d
    ⟨by omega, by omega, by omega, by omega, by omega, by omega, by omega, h14, h30, h60, h90⟩
  unfold getDailyReward
  simp only [hnone, h7, if_true]
  constructor
  · ring
  · trivial

/-- C12 at day 8 and day 100: gems 50 and respect 4, gems 115 and respect 10. -/
theorem C12_reward_schedule_witness :
    ((getDailyReward 8).gems = 40 + 5 * ((8 - 1) / 7 + 1)
        ∧ (getDailyReward 8).respect = 3 + ((8 - 1) / 7 + 1) / 2)
      ∧ ((getDailyReward 100).gems = 40 + 5 * ((100 - 1) / 7 + 1)
        ∧ (getDailyReward 100).respect = 3 + ((100 - 1) / 7 + 1) / 2) :=
  ⟨C12_reward_schedule.2.2 8 (by decide) (by decide) (by decide) (by decide) (by decide),
   C12_reward_schedule.2.2 100 (by decide) (by decide) (by decide) (by decide) (by decide)⟩

end Lbb


namespace Lbb

/-- C13 (counterexample): a record with claim streak 6 last claimed yesterday
is claimed at streak day 7; the stored `next_milestone` is then 14, although 7
is a milestone that is >= 7 and smaller than 14. -/
theorem C13_day7_stores_next_milestone_14 :
    (claimDailyReward (scenarioDaily (dailyRowDay9 6)) day10 "u").2.success = true
      ∧ (claimDailyReward (scenarioDaily (dailyRowDay9 6)) day10 "u").2.streakDay = some 7
      ∧ (selectDailyReward (claimDailyReward (scenarioDaily (dailyRowDay9 6)) day10 "u").1
          "u").map (fun r => r.next_milestone) = some 14
      ∧ (7 : Int) ∈ claimMilestones ∧ (7 : Int) ≥ 7 ∧ (7 : Int) < 14 := by
  decide

theorem nextMilestoneCase_spec (d : Int) :
    (d < 90 → nextMilestoneCase d ∈ claimMilestones ∧ d < nextMilestoneCase d
        ∧ ∀ k ∈ claimMilestones, d < k → nextMilestoneCase d ≤ k)
      ∧ (d ≥ 90 → nextMilestoneCase d = 90) := by
  unfold nextMilestoneCase claimMilestones
  constructor
  · intro h
    simp only [List.mem_cons, List.mem_singleton, List.not_mem_nil, or_false, forall_eq_or_imp,
      forall_eq]
    split_ifs <;> omega
  · intro h
    simp [h]

/-- The user's row after a successful claim. -/
theorem claimDailyReward_row (db : DB) (now : Nat) (u : String)
    (h : (claimDailyReward db now u).2.success = true) :
    ∃ d, (claimDailyReward db now u).2.streakDay = some d
      ∧ (canClaimDailyReward db now u).streakDay = some d
      ∧ selectDailyReward (claimDailyReward db now u).1 u
          = some (match selectDailyReward db u with
                  | some r => claimedRow r d (isoDate now)
                  | none => firstClaimRow u d (isoDate now)) := by
  obtain ⟨d, db1, -, hd, hup, -, heq⟩ := claimDailyReward_success db now u h
  obtain ⟨-, -, -, -, hsel⟩ := upsertDailyReward_ok db db1 u d (isoDate now) hup
  refine ⟨d, by rw [heq]; rfl, hd, ?_⟩
  rw [heq]
  exact hsel

theorem canClaim_new_user (db : DB) (now : Nat) (u : String) (d : Int)
    (hnone : selectDailyReward db u = none)
    (hd : (canClaimDailyReward db now u).streakDay = some d) : d = 1 := by
  unfold canClaimDailyReward at hd
  simp only [hnone] at hd
  exact (Option.some.inj hd).symm

/-- C13 (amended): after every successful `claimDailyReward` at streak day d,
the stored `next_milestone` of the user's `daily_rewards` row is the smallest
milestone in 7, 14, 30, 60, 90 that is strictly greater than d when d < 90, and
is 90 when d >= 90. -/
theorem C13_next_milestone_strictly_after (db : DB) (now : Nat) (u : String)
    (h : (claimDailyReward db now u).2.success = true) :
    ∃ d row, (claimDailyReward db now u).2.streakDay = some d
      ∧ selectDailyReward (claimDailyReward db now u).1 u = some row
      ∧ (d < 90 → row.next_milestone ∈ claimMilestones ∧ d < row.next_milestone
          ∧ ∀ k ∈ claimMilestones, d < k → row.next_milestone ≤ k)
      ∧ (d ≥ 90 → row.next_milestone = 90) := by
  obtain ⟨d, hres, hd, hrow⟩ := claimDailyReward_row db now u h
  refine ⟨d, _, hres, hrow, ?_⟩
  cases hsel : selectDailyReward db u with
  | some r => exact nextMilestoneCase_spec d
  | none =>
    have h1 := canClaim_new_user db now u d hsel hd
    subst h1
    simp only [firstClaimRow, claimMilestones]
    decide

/-- C13 (amended) at a concrete state: a claim at streak day 7 stores 14, the
smallest milestone after 7. -/
theorem C13_next_milestone_strictly_after_witness :
    ∃ d row, (claimDailyReward (scenarioDaily (dailyRowDay9 6)) day10 "u").2.streakDay = some d
      ∧ selectDailyReward (claimDailyReward (scenarioDaily (dailyRowDay9 6)) day10 "u").1 "u"
          = some row
      ∧ (d < 90 → row.next_milestone ∈ claimMilestones ∧ d < row.next_milestone
          ∧ ∀ k ∈ claimMilestones, d < k → row.next_milestone ≤ k)
      ∧ (d ≥ 90 → row.next_milestone = 90) :=
  C13_next_milestone_strictly_after (scenarioDaily (dailyRowDay9 6)) day10 "u" (by decide)

/-- C14: for every state in which `canClaimDailyReward` yields canClaim = true
with candidate day d, and whose user can be referenced by the inserted rows
(`fkOk`: the user exists, or foreign keys are off), `claimDailyReward` returns
success = true with streakDay = d and the reward of `getDailyReward(d)`; it sets
`current_streak` = d and `last_claim_date` = today, raises `total_claims` by
exactly 1 (to 1 for a new record), credits the user exactly the reward's gems
and respect, and appends exactly one `reward_claims` row and one `daily_reward`
transaction.  For a user with no prior record d = 1 and the reward is gems 10,
respect 1, description `Day 1`. -/
theorem C14_claim_effects (db : DB) (now : Nat) (u : String) (d : Int)
    (hfk : fkOk db u = true)
    (hcan : (canClaimDailyReward db now u).canClaim = true)
    (hd : (canClaimDailyReward db now u).streakDay = some d) :
    (claimDailyReward db now u).2.success = true
      ∧ (claimDailyReward db now u).2.streakDay = some d
      ∧ (claimDailyReward db now u).2.reward = some ((getDailyReward d).withDay d)
      ∧ (∃ row, selectDailyReward (claimDailyReward db now u).1 u = some row
          ∧ row.current_streak = d ∧ row.last_claim_date = some (isoDate now)
          ∧ row.total_claims
              = (match selectDailyReward db u with
                 | some old => old.total_claims + 1
                 | none => 1))
      ∧ (claimDailyReward db now u).1.users
          = addGemsRespect db.users u (getDailyReward d).gems (getDailyReward d).respect
      ∧ (claimDailyReward db now u).1.reward_claims
          = db.reward_claims ++ [rewardClaimRow u (isoDate now) d (getDailyReward d) now]
      ∧ (claimDailyReward db now u).1.transactions
          = db.transactions ++ [dailyRewardTransaction u d (getDailyReward d) now]
      ∧ (selectDailyReward db u = none →
          d = 1 ∧ (getDailyReward d).withDay d
            = { gems := 10, respect := 1, description := "Day 1", special := none, day := 1 }) := by
  obtain ⟨db1, hup⟩ := upsertDailyReward_total db u d (isoDate now) hfk
  obtain ⟨hu, hf, ht, hr, hsel⟩ := upsertDailyReward_ok db db1 u d (isoDate now) hup
  have hfk1 : fkOk db1 u = true := by rw [fkOk_congr db db1 u hu hf]; exact hfk
  rw [claimDailyReward_eq db db1 now u d hcan hd hup hfk1]
  refine ⟨rfl, rfl, rfl, ?_, ?_, ?_, ?_, ?_⟩
  · have hc : selectDailyReward (claimedDb db1 now u d) u = selectDailyReward db1 u := rfl
    refine ⟨_, hc.trans hsel, ?_⟩
    cases selectDailyReward db u with
    | some r => exact ⟨rfl, rfl, rfl⟩
    | none => exact ⟨rfl, rfl, rfl⟩
  · show addGemsRespect db1.users u _ _ = _
    rw [hu]
  · show db1.reward_claims ++ _ = _
    rw [hr]
  · show db1.transactions ++ _ = _
    rw [ht]
  · intro hnone
    have h1 := canClaim_new_user db now u d hnone hd
    subst h1
    exact ⟨rfl, by decide⟩

/-- C14 at Scenario C: the user of `scenarioDb` has no record; the claim
succeeds at day 1 with gems 10, respect 1 and description `Day 1`. -/
theorem C14_claim_effects_witness :
    (claimDailyReward scenarioDb day10 "u").2.success = true
      ∧ (claimDailyReward scenarioDb day10 "u").2.streakDay = some 1
      ∧ (claimDailyReward scenarioDb day10 "u").2.reward = some ((getDailyReward 1).withDay 1)
      ∧ (getDailyReward 1).withDay 1
          = { gems := 10, respect := 1, description := "Day 1", special := none, day := 1 } :=
  have h := C14_claim_effects scenarioDb day10 "u" 1 (by decide) (by decide) (by decide)
  ⟨h.1, h.2.1, h.2.2.1, (h.2.2.2.2.2.2.2 (by decide)).2⟩

end Lbb


namespace Lbb

/-! ## Claims on quest generation -/

/-- The inserts of a generation append one row per selected template. -/
theorem foldl_insertQuest (questType : String) (s e w : Int) :
    ∀ (ts : List QuestTemplate) (db : DB),
      ∃ rows, ts.foldl (insertQuest questType s e w) db = { db with quests := db.quests ++ rows }
        ∧ rows.length = ts.length
        ∧ ∀ r ∈ rows, r.start_date = s ∧ r.end_date = e ∧ r.is_weekly = w
            ∧ r.quest_type = questType := by
  intro ts
  induction ts with
  | nil => intro db; exact ⟨[], by simp, rfl, by simp⟩
  | cons t ts ih =>
    intro db
    obtain ⟨rows, heq, hlen, hrows⟩ := ih (insertQuest questType s e w db t)
    refine ⟨questRow (nextQuestId db.quests) questType t s e w :: rows, ?_, ?_, ?_⟩
    · rw [List.foldl_cons, heq]
      simp [insertQuest]
    · simp [hlen]
    · intro r hr
      rcases List.mem_cons.1 hr with h | h
      · rw [h]; exact ⟨rfl, rfl, rfl, rfl⟩
      · exact hrows r h

theorem filter_append_length_pos {α : Type} (p : α → Bool) (l rows : List α)
    (hne : rows ≠ []) (hp : ∀ r ∈ rows, p r = true) : ((l ++ rows).filter p).length ≠ 0 := by
  rw [List.filter_append, List.length_append]
  cases rows with
  | nil => exact absurd rfl hne
  | cons a t =>
    have ha : p a = true := hp a (List.mem_cons_self _ _)
    simp [List.filter, ha]

/-- C15: daily quest generation is idempotent per date.  For every quests table
and every date, a second `generateDailyQuests` on that date, whatever the random
source gives it, leaves the database as the first call left it: it inserts
nothing, so no duplicate quest rows are created for that date. -/
theorem C15_daily_generation_idempotent (db : DB) (now1 now2 : Nat)
    (shuffled1 shuffled2 : List QuestTemplate)
    (hsame : isoDate now2 = isoDate now1) (hperm : shuffled1.Perm questTemplates) :
    generateDailyQuests (generateDailyQuests db now1 shuffled1) now2 shuffled2
      = generateDailyQuests db now1 shuffled1 := by
  have hlen : (shuffled1.take 3).length = 3 := by
    rw [List.length_take, hperm.length_eq]; rfl
  by_cases hc : (db.quests.filter (fun q => decide (q.start_date = isoDate now1))).length = 0
  · obtain ⟨rows, heq, hrl, hrows⟩ := foldl_insertQuest "daily" (isoDate now1) (isoDate now1 + 1)
      0 (shuffled1.take 3) db
    have h1 : generateDailyQuests db now1 shuffled1 = { db with quests := db.quests ++ rows } := by
      unfold generateDailyQuests
      simp only [hc, if_true]
      exact heq
    rw [h1]
    have hne : rows ≠ [] := by
      intro h0
      rw [h0, hlen] at hrl
      cases hrl
    have hcount := filter_append_length_pos (fun q : Quest => decide (q.start_date = isoDate now1))
      db.quests rows hne (fun r hr => by simp [(hrows r hr).1])
    unfold generateDailyQuests
    simp only [hsame, hcount, if_false]
  · have h1 : generateDailyQuests db now1 shuffled1 = db := by
      unfold generateDailyQuests
      simp only [hc, if_false]
    rw [h1]
    unfold generateDailyQuests
    simp only [hsame, hc, if_false]

/-- C15 on an empty quests table: two generations on day 10 leave the three
rows of the first. -/
theorem C15_daily_generation_idempotent_witness :
    generateDailyQuests (generateDailyQuests scenarioDb day10 questTemplates) (day10 + 60000)
        questTemplates.reverse
      = generateDailyQuests scenarioDb day10 questTemplates
      ∧ (generateDailyQuests scenarioDb day10 questTemplates).quests.length = 3 :=
  ⟨C15_daily_generation_idempotent scenarioDb day10 (day10 + 60000) questTemplates
      questTemplates.reverse (by decide) (List.Perm.refl _), by decide⟩

/-- C16 (counterexample): day 9 (Saturday 1970-01-10) and day 10 (Sunday
1970-01-11) lie in the same ISO week, Monday through Sunday; starting from an
empty quests table, `generateWeeklyQuests` on both days inserts weekly quests
twice, four rows in total, because the code starts its weeks on Sunday. -/
theorem C16_same_iso_week_generates_twice :
    isoWeek (isoDate day9) = isoWeek (isoDate day10)
      ∧ scenarioDb.quests = []
      ∧ ((generateWeeklyQuests (generateWeeklyQuests scenarioDb day9 weeklyTemplates) day10
            weeklyTemplates).quests.filter (fun q => decide (q.is_weekly = 1))).length = 4
      ∧ (generateWeeklyQuests (generateWeeklyQuests scenarioDb day9 weeklyTemplates) day10
            weeklyTemplates).quests.map (fun q => q.start_date) = [3, 3, 10, 10] := by
  decide

theorem weekStart_eq_of_sundayWeek (now1 now2 : Nat)
    (h : sundayWeek (isoDate now1) = sundayWeek (isoDate now2)) :
    weekStart now2 = weekStart now1 := by
  unfold sundayWeek at h
  unfold weekStart getDay
  omega

/-- C16 (amended): weekly quests regenerate at most once per week counted from
Sunday through Saturday.  For any two clock readings whose dates lie in the same
Sunday-to-Saturday week, running `generateWeeklyQuests` on both, starting from
any quests table with no weekly quest that starts on that week's Sunday, inserts
weekly quests only once: the first call appends exactly 2 rows, weekly, starting
on that Sunday with a 7-day window, and the second call changes nothing. -/
theorem C16_weekly_once_per_sunday_week (db : DB) (now1 now2 : Nat)
    (shuffled1 shuffled2 : List QuestTemplate)
    (hweek : sundayWeek (isoDate now1) = sundayWeek (isoDate now2))
    (hnone : ∀ q ∈ db.quests, ¬ (q.start_date = weekStart now1 ∧ q.is_weekly = 1))
    (hperm : shuffled1.Perm weeklyTemplates) :
    generateWeeklyQuests (generateWeeklyQuests db now1 shuffled1) now2 shuffled2
        = generateWeeklyQuests db now1 shuffled1
      ∧ ∃ rows, generateWeeklyQuests db now1 shuffled1 = { db with quests := db.quests ++ rows }
          ∧ rows.length = 2
          ∧ ∀ r ∈ rows, r.is_weekly = 1 ∧ r.start_date = weekStart now1
              ∧ r.end_date = weekStart now1 + 7 := by
  have hlen : (shuffled1.take 2).length = 2 := by
    rw [List.length_take, hperm.length_eq]; rfl
  have hstart := weekStart_eq_of_sundayWeek now1 now2 hweek
  have hc : (db.quests.filter
      (fun q => decide (q.start_date = weekStart now1 ∧ q.is_weekly = 1))).length = 0 := by
    rw [List.length_eq_zero, List.filter_eq_nil_iff]
    intro q hq
    simpa using hnone q hq
  obtain ⟨rows, heq, hrl, hrows⟩ := foldl_insertQuest "weekly" (weekStart now1)
    (weekStart now1 + 7) 1 (shuffled1.take 2) db
  have h1 : generateWeeklyQuests db now1 shuffled1 = { db with quests := db.quests ++ rows } := by
    unfold generateWeeklyQuests
    simp only [hc, if_true]
    exact heq
  have hne : rows ≠ [] := by
    intro h0
    rw [h0, hlen] at hrl
    cases hrl
  have hcount := filter_append_length_pos
    (fun q : Quest => decide (q.start_date = weekStart now1 ∧ q.is_weekly = 1))
    db.quests rows hne (fun r hr => by simp [(hrows r hr).1, (hrows r hr).2.2.1])
  refine ⟨?_, rows, h1, by rw [hrl, hlen], fun r hr =>
    ⟨(hrows r hr).2.2.1, (hrows r hr).1, (hrows r hr).2.1⟩⟩
  rw [h1]
  unfold generateWeeklyQuests
  simp only [hstart, hcount, if_false]

/-- C16 (amended) on an empty quests table: Sunday day 10 and Wednesday day 13
lie in one Sunday-to-Saturday week; the second generation changes nothing. -/
theorem C16_weekly_once_per_sunday_week_witness :
    generateWeeklyQuests (generateWeeklyQuests scenarioDb day10 weeklyTemplates)
        (day10 + 3 * 86400000) weeklyTemplates.reverse
      = generateWeeklyQuests scenarioDb day10 weeklyTemplates :=
  (C16_weekly_once_per_sunday_week scenarioDb day10 (day10 + 3 * 86400000) weeklyTemplates
    weeklyTemplates.reverse (by decide) (by decide) (List.Perm.refl _)).1

end Lbb


namespace Lbb

/-! ## Claims on quest progress -/

theorem rowProgressed_refl (amount : Int) (r : UserQuest) : rowProgressed amount r r :=
  ⟨rfl, rfl, rfl, rfl, Or.inl rfl, 0, by simp⟩

theorem rowProgressed_trans (amount : Int) (a b c : UserQuest)
    (h1 : rowProgressed amount a b) (h2 : rowProgressed amount b c) :
    rowProgressed amount a c := by
  obtain ⟨u1, q1, c1, s1, d1, n1, p1⟩ := h1
  obtain ⟨u2, q2, c2, s2, d2, n2, p2⟩ := h2
  refine ⟨u2.trans u1, q2.trans q1, c2.trans c1, s2.trans s1, ?_, n1 + n2, ?_⟩
  · rcases d2 with h | h
    · rcases d1 with h' | h'
      · exact Or.inl (h.trans h')
      · exact Or.inr (h.trans h')
    · exact Or.inr h
  · rw [p2, p1]; push_cast; ring

theorem sameButUserQuests_trans (a b c : DB) (h1 : sameButUserQuests a b)
    (h2 : sameButUserQuests b c) : sameButUserQuests a c := by
  unfold sameButUserQuests at *
  rw [h2, h1]

/-- One step of the loop keeps the old rows in place, changed as `rowProgressed`
allows, and may append one unclaimed row. -/
theorem progressStep_rows (now : Nat) (u : String) (amount : Int) (db db1 : DB)
    (quest : Nat × Int) (h : progressStep now u amount db quest = .ok db1) :
    ∃ f extra, db1.user_quests = db.user_quests.map f ++ extra
      ∧ (∀ r, rowProgressed amount r (f r)) ∧ (∀ e ∈ extra, e.claimed = 0)
      ∧ sameButUserQuests db db1 := by
  have hmark : ∀ r : UserQuest, rowProgressed amount r
      (if r.user_id = u ∧ r.quest_id = quest.1 then { r with completed := 1 } else r) := by
    intro r
    split
    · exact ⟨rfl, rfl, rfl, rfl, Or.inr rfl, 0, by simp⟩
    · exact rowProgressed_refl amount r
  have hadd : ∀ r : UserQuest, rowProgressed amount r
      (if r.user_id = u ∧ r.quest_id = quest.1 then { r with progress := r.progress + amount }
       else r) := by
    intro r
    split
    · exact ⟨rfl, rfl, rfl, rfl, Or.inl rfl, 1, by simp⟩
    · exact rowProgressed_refl amount r
  unfold progressStep at h
  cases hup : upsertProgress db now u quest.1 amount with
  | error e => rw [hup] at h; cases h
  | ok dbu =>
    rw [hup] at h
    simp only at h
    -- the rows after the upsert
    have hupsert : ∃ f extra, dbu.user_quests = db.user_quests.map f ++ extra
        ∧ (∀ r, rowProgressed amount r (f r)) ∧ (∀ e ∈ extra, e.claimed = 0)
        ∧ sameButUserQuests db dbu := by
      unfold upsertProgress at hup
      split at hup
      · cases hup
        exact ⟨_, [], by simp, hadd, by simp, rfl⟩
      · split at hup
        · cases hup
          refine ⟨id, [freshUserQuest u quest.1 amount now], by simp,
            rowProgressed_refl amount, ?_, rfl⟩
          intro e he
          rw [List.mem_singleton] at he
          rw [he]
          rfl
        · cases hup
    obtain ⟨f, extra, hrows, hf, hextra, hsame⟩ := hupsert
    cases hcur : selectUserQuest dbu u quest.1 with
    | none => rw [hcur] at h; cases h
    | some current =>
      rw [hcur] at h
      simp only at h
      split at h
      · cases h
        refine ⟨fun r => (fun r : UserQuest =>
            if r.user_id = u ∧ r.quest_id = quest.1 then { r with completed := 1 } else r) (f r),
          extra.map (fun r : UserQuest =>
            if r.user_id = u ∧ r.quest_id = quest.1 then { r with completed := 1 } else r),
          ?_, ?_, ?_, ?_⟩
        · unfold markCompleted
          simp only [hrows, List.map_append, List.map_map]
          rfl
        · intro r
          exact rowProgressed_trans amount _ _ _ (hf r) (hmark (f r))
        · intro e he
          obtain ⟨e0, he0, rfl⟩ := List.mem_map.1 he
          rw [(hmark e0).2.2.1]
          exact hextra e0 he0
        · exact sameButUserQuests_trans db dbu _ hsame rfl
      · cases h
        exact ⟨f, extra, hrows, hf, hextra, hsame⟩

/-- The whole loop keeps the old rows in place, changed as `rowProgressed`
allows, and appends unclaimed rows only. -/
theorem progressLoop_rows (now : Nat) (u : String) (amount : Int) :
    ∀ (quests : List (Nat × Int)) (db : DB),
      ∃ f extra, (progressLoop now u amount quests db).1.user_quests
          = db.user_quests.map f ++ extra
        ∧ (∀ r, rowProgressed amount r (f r)) ∧ (∀ e ∈ extra, e.claimed = 0)
        ∧ sameButUserQuests db (progressLoop now u amount quests db).1 := by
  intro quests
  induction quests with
  | nil =>
    intro db
    exact ⟨id, [], by simp [progressLoop], rowProgressed_refl amount, by simp, rfl⟩
  | cons quest rest ih =>
    intro db
    unfold progressLoop
    cases hstep : progressStep now u amount db quest with
    | error e =>
      exact ⟨id, [], by simp, rowProgressed_refl amount, by simp, rfl⟩
    | ok db1 =>
      simp only
      obtain ⟨f1, e1, hr1, hf1, he1, hs1⟩ := progressStep_rows now u amount db db1 quest hstep
      obtain ⟨f2, e2, hr2, hf2, he2, hs2⟩ := ih db1
      refine ⟨fun r => f2 (f1 r), e1.map f2 ++ e2, ?_, ?_, ?_, ?_⟩
      · rw [hr2, hr1]
        simp [List.map_append, List.map_map]
      · intro r
        exact rowProgressed_trans amount _ _ _ (hf1 r) (hf2 (f1 r))
      · intro e he
        rcases List.mem_append.1 he with h | h
        · obtain ⟨e0, he0, rfl⟩ := List.mem_map.1 h
          rw [(hf2 e0).2.2.1]
          exact he1 e0 he0
        · exact he2 e h
      · exact sameButUserQuests_trans db db1 _ hs1 hs2

/-- C18 (counterexample): the user has progress 5 on the active quest for 20
messages; `updateQuestProgress` with the integer amount -3 leaves that row with
progress 2, which is smaller. -/
theorem C18_negative_amount_lowers_progress :
    (questDbWith 5 0 0).user_quests.map (fun r => r.progress) = [5]
      ∧ (updateQuestProgress (questDbWith 5 0 0) day10 "u" "messages" (-3)).1.user_quests.map
          (fun r => r.progress) = [2]
      ∧ (2 : Int) < 5 := by
  decide

/-- C18 (amended): quest progress is monotonically non-decreasing under
non-negative amounts.  For every `user_quests` table and every call
`updateQuestProgress(user, type, amount)` with amount >= 0, the table after the
call consists of the old rows in their places, each with the same key and a
progress that is not smaller than before, followed by the rows the call
inserted. -/
theorem C18_progress_monotone_nonneg (db : DB) (now : Nat) (u type : String) (amount : Int)
    (hamount : 0 ≤ amount) :
    ∃ f extra, (updateQuestProgress db now u type amount).1.user_quests
        = db.user_quests.map f ++ extra
      ∧ ∀ r, (f r).user_id = r.user_id ∧ (f r).quest_id = r.quest_id
          ∧ r.progress ≤ (f r).progress := by
  obtain ⟨f, extra, hrows, hf, -, -⟩ := progressLoop_rows now u amount
    (activeQuestRows db (isoDate now) u type) db
  refine ⟨f, extra, hrows, ?_⟩
  intro r
  obtain ⟨h1, h2, -, -, -, n, hn⟩ := hf r
  refine ⟨h1, h2, ?_⟩
  rw [hn]
  have : 0 ≤ (n : Int) * amount := mul_nonneg (Int.ofNat_nonneg n) hamount
  omega

/-- C18 (amended) at a concrete row: progress 5 and amount 7 give progress 12. -/
theorem C18_progress_monotone_nonneg_witness :
    ∃ f extra, (updateQuestProgress (questDbWith 5 0 0) day10 "u" "messages" 7).1.user_quests
        = (questDbWith 5 0 0).user_quests.map f ++ extra
      ∧ ∀ r, (f r).user_id = r.user_id ∧ (f r).quest_id = r.quest_id
          ∧ r.progress ≤ (f r).progress :=
  C18_progress_monotone_nonneg (questDbWith 5 0 0) day10 "u" "messages" 7 (by decide)

end Lbb


namespace Lbb

/-! ## Claims on `claimQuestReward` -/

theorem find_map_update_other {α : Type} (key : α → String) (f : α → α)
    (hf : ∀ r, key (f r) = key r) (u w : String) (hw : w ≠ u) (l : List α) :
    (l.map (fun r => if key r = u then f r else r)).find? (fun r => decide (key r = w))
      = l.find? (fun r => decide (key r = w)) := by
  induction l with
  | nil => rfl
  | cons a t ih =>
    by_cases h : key a = u
    · have h2 : ¬ key a = w := fun e => hw (e.symm.trans h)
      simp [List.find?, h, hf, h2, hw.symm, ih]
    · rw [List.map_cons, if_neg h]
      by_cases h3 : key a = w
      · rw [List.find?_cons_of_pos _ (by simpa using h3),
          List.find?_cons_of_pos _ (by simpa using h3)]
      · rw [List.find?_cons_of_neg _ (by simpa using h3),
          List.find?_cons_of_neg _ (by simpa using h3), ih]

theorem claimable_iff_find (db : DB) (u : String) (qid : Nat) :
    claimable db u qid ↔ ∃ r, db.user_quests.find? (fun r =>
      decide (r.user_id = u ∧ r.quest_id = qid ∧ r.completed = 1 ∧ r.claimed = 0)) = some r := by
  constructor
  · rintro ⟨r, hr, h⟩
    exact find_some_of_any _ _ (List.any_eq_true.2 ⟨r, hr, by simpa using h⟩)
  · rintro ⟨r, hr⟩
    exact ⟨r, List.mem_of_find?_eq_some hr, by simpa using List.find?_some hr⟩

theorem claimQuestReward_refused (db : DB) (now : Nat) (u : String) (qid : Nat)
    (h : ¬ claimable db u qid) : claimQuestReward db now u qid = (db, .ok questClaimRefused) := by
  have hnone : db.user_quests.find? (fun r =>
      decide (r.user_id = u ∧ r.quest_id = qid ∧ r.completed = 1 ∧ r.claimed = 0)) = none := by
    cases hf : db.user_quests.find? (fun r =>
      decide (r.user_id = u ∧ r.quest_id = qid ∧ r.completed = 1 ∧ r.claimed = 0)) with
    | none => rfl
    | some r => exact absurd ((claimable_iff_find db u qid).2 ⟨r, hf⟩) h
  unfold claimQuestReward
  rw [hnone]
  rfl

theorem not_claimable_markClaimed (db : DB) (u : String) (qid : Nat) :
    ¬ claimable (markClaimed db u qid) u qid := by
  rintro ⟨r, hr, h1, h2, -, h4⟩
  unfold markClaimed at hr
  obtain ⟨r0, -, rfl⟩ := List.mem_map.1 hr
  by_cases hk : r0.user_id = u ∧ r0.quest_id = qid
  · simp [hk] at h4
  · simp only [hk, if_false] at h1 h2
    exact hk ⟨h1, h2⟩

theorem giveQuestGems_ok (db : DB) (now : Nat) (u : String) (q : Quest)
    (hfk : fkOk db u = true) :
    giveQuestGems db now u q
      = (if q.reward_gems > 0 then
          ({ db with users := addGems db.users u q.reward_gems,
                     transactions := db.transactions ++ [questTransaction u q now] }, none)
         else (db, none)) := by
  unfold giveQuestGems
  split
  · simp only [fkOk_addGems, hfk, if_true]
  · rfl

/-- Unfolding of a successful `claimQuestReward`. -/
theorem claimQuestReward_claimed (db : DB) (now : Nat) (u : String) (qid : Nat) (q : Quest)
    (hc : claimable db u qid)
    (hq : db.quests.find? (fun x => decide (x.quest_id = qid)) = some q)
    (hfk : fkOk db u = true) :
    claimQuestReward db now u qid
      = (markClaimed
          { db with
            users := (if q.reward_respect > 0 then
                        addRespect (if q.reward_gems > 0 then addGems db.users u q.reward_gems
                                    else db.users) u q.reward_respect
                      else (if q.reward_gems > 0 then addGems db.users u q.reward_gems
                            else db.users))
            transactions := (if q.reward_gems > 0 then
                               db.transactions ++ [questTransaction u q now]
                             else db.transactions) } u qid,
         .ok { success := true, rewards := some (q.reward_gems, q.reward_respect) }) := by
  obtain ⟨r, hr⟩ := (claimable_iff_find db u qid).1 hc
  unfold claimQuestReward
  rw [hr]
  simp only [hq, giveQuestGems_ok db now u q hfk]
  by_cases hg : q.reward_gems > 0 <;> by_cases hrs : q.reward_respect > 0 <;>
    simp [hg, hrs, markClaimed]

/-- C19: `claimQuestReward(user, quest)` and the row condition completed = 1
and claimed = 0 (`claimable`).  Without such a row the call returns success =
false with `Quest not completed or already claimed` and returns the database
unchanged (no balance, no `user_quests` row, no transaction); a call that
returns success = true had such a row.  With such a row, for a quest of the
`quests` table whose rewards are not negative and a user who can be referenced
by a transaction row, the call returns success = true with the quest's rewards,
credits exactly `reward_gems` and `reward_respect` to the user, leaves every
other user's row, sets `claimed` = 1 on the user's rows of the quest, and a
second claim of the same quest fails and changes nothing. -/
theorem C19_claim_quest_reward (db : DB) (now now2 : Nat) (u : String) (qid : Nat) :
    (¬ claimable db u qid → claimQuestReward db now u qid = (db, .ok questClaimRefused))
      ∧ (∀ res, (claimQuestReward db now u qid).2 = .ok res → res.success = true →
          claimable db u qid)
      ∧ (∀ q, db.quests.find? (fun x => decide (x.quest_id = qid)) = some q →
          fkOk db u = true → 0 ≤ q.reward_gems → 0 ≤ q.reward_respect → claimable db u qid →
          (claimQuestReward db now u qid).2
              = .ok { success := true, rewards := some (q.reward_gems, q.reward_respect) }
            ∧ selectUser (claimQuestReward db now u qid).1 u
                = (selectUser db u).map (fun x =>
                    { x with gems := x.gems + q.reward_gems,
                             respect_count := x.respect_count + q.reward_respect })
            ∧ (∀ w, w ≠ u → selectUser (claimQuestReward db now u qid).1 w = selectUser db w)
            ∧ (claimQuestReward db now u qid).1.user_quests
                = db.user_quests.map (fun r =>
                    if r.user_id = u ∧ r.quest_id = qid then { r with claimed := 1 } else r)
            ∧ claimQuestReward (claimQuestReward db now u qid).1 now2 u qid
                = ((claimQuestReward db now u qid).1, .ok questClaimRefused)) := by
  refine ⟨claimQuestReward_refused db now u qid, ?_, ?_⟩
  · intro res hres hs
    by_contra hn
    rw [claimQuestReward_refused db now u qid hn] at hres
    cases hres
    cases hs
  · intro q hq hfk hg hr hc
    rw [claimQuestReward_claimed db now u qid q hc hq hfk]
    refine ⟨rfl, ?_, ?_, rfl, ?_⟩
    · unfold selectUser markClaimed
      simp only
      by_cases hg0 : q.reward_gems > 0 <;> by_cases hr0 : q.reward_respect > 0
      · simp only [hg0, hr0, if_true]
        unfold addRespect addGems
        rw [find_map_update (fun (r : User) => r.user_id)
          (fun (x : User) => { x with respect_count := x.respect_count + q.reward_respect })
          (fun _ => rfl) u,
          find_map_update (fun (r : User) => r.user_id)
          (fun (x : User) => { x with gems := x.gems + q.reward_gems }) (fun _ => rfl) u]
        cases db.users.find? (fun u_1 => decide (u_1.user_id = u)) <;> rfl
      · have h0 : q.reward_respect = 0 := by omega
        simp only [hg0, hr0, if_true, if_false]
        unfold addGems
        rw [find_map_update (fun (r : User) => r.user_id)
          (fun (x : User) => { x with gems := x.gems + q.reward_gems }) (fun _ => rfl) u]
        cases db.users.find? (fun u_1 => decide (u_1.user_id = u)) <;> simp [h0]
      · have h0 : q.reward_gems = 0 := by omega
        simp only [hg0, hr0, if_true, if_false]
        unfold addRespect
        rw [find_map_update (fun (r : User) => r.user_id)
          (fun (x : User) => { x with respect_count := x.respect_count + q.reward_respect })
          (fun _ => rfl) u]
        cases db.users.find? (fun u_1 => decide (u_1.user_id = u)) <;> simp [h0]
      · have h0 : q.reward_gems = 0 := by omega
        have h1 : q.reward_respect = 0 := by omega
        simp only [hg0, hr0, if_false]
        cases db.users.find? (fun u_1 => decide (u_1.user_id = u)) <;> simp [h0, h1]
    · intro w hw
      unfold selectUser markClaimed
      simp only
      by_cases hg0 : q.reward_gems > 0 <;> by_cases hr0 : q.reward_respect > 0 <;>
        simp only [hg0, hr0, if_true, if_false]
      · unfold addRespect addGems
        rw [find_map_update_other (fun (r : User) => r.user_id)
          (fun (x : User) => { x with respect_count := x.respect_count + q.reward_respect })
          (fun _ => rfl) u w hw,
          find_map_update_other (fun (r : User) => r.user_id)
          (fun (x : User) => { x with gems := x.gems + q.reward_gems }) (fun _ => rfl) u w hw]
      · unfold addGems
        rw [find_map_update_other (fun (r : User) => r.user_id)
          (fun (x : User) => { x with gems := x.gems + q.reward_gems }) (fun _ => rfl) u w hw]
      · unfold addRespect
        rw [find_map_update_other (fun (r : User) => r.user_id)
          (fun (x : User) => { x with respect_count := x.respect_count + q.reward_respect })
          (fun _ => rfl) u w hw]
    · exact claimQuestReward_refused _ now2 u qid (not_claimable_markClaimed _ u qid)

/-- C19 at a concrete row: progress 21, completed, not claimed, quest rewards 5
gems and 2 respect: the claim succeeds, the user holds 5 gems and 2 respect, and
a second claim is refused. -/
theorem C19_claim_quest_reward_witness :
    (claimQuestReward (questDbWith 21 1 0) day10 "u" 1).2
        = .ok { success := true, rewards := some (5, 2) }
      ∧ selectUser (claimQuestReward (questDbWith 21 1 0) day10 "u" 1).1 "u"
          = (selectUser (questDbWith 21 1 0) "u").map (fun x =>
              { x with gems := x.gems + 5, respect_count := x.respect_count + 2 })
      ∧ claimQuestReward (claimQuestReward (questDbWith 21 1 0) day10 "u" 1).1 (day10 + 9) "u" 1
          = ((claimQuestReward (questDbWith 21 1 0) day10 "u" 1).1, .ok questClaimRefused)
      ∧ claimQuestReward (questDbWith 14 0 0) day10 "u" 1
          = (questDbWith 14 0 0, .ok questClaimRefused) :=
  have h := C19_claim_quest_reward (questDbWith 21 1 0) day10 (day10 + 9) "u" 1
  have h2 := h.2.2 messagesQuest (by decide) (by decide) (by decide) (by decide)
    (by decide)
  ⟨h2.1, h2.2.1, h2.2.2.2.2,
   (C19_claim_quest_reward (questDbWith 14 0 0) day10 day10 "u" 1).1 (by decide)⟩

end Lbb


namespace Lbb

/-! ## The invariant claimed implies completed -/

theorem userQuestKeys_map (l : List UserQuest) (g : UserQuest → UserQuest)
    (hg : ∀ r, (g r).user_id = r.user_id ∧ (g r).quest_id = r.quest_id) :
    (l.map g).map (fun r => (r.user_id, r.quest_id)) = l.map (fun r => (r.user_id, r.quest_id)) := by
  rw [List.map_map]
  apply List.map_congr_left
  intro r _
  simp [(hg r).1, (hg r).2]

theorem markCompleted_keys (db : DB) (u : String) (qid : Nat) (h : userQuestKeysUnique db) :
    userQuestKeysUnique (markCompleted db u qid) := by
  unfold userQuestKeysUnique markCompleted at *
  simp only
  rw [userQuestKeys_map]
  · exact h
  · intro r; split <;> exact ⟨rfl, rfl⟩

theorem upsertProgress_keys (db db1 : DB) (now : Nat) (u : String) (qid : Nat) (amount : Int)
    (h : userQuestKeysUnique db) (hup : upsertProgress db now u qid amount = .ok db1) :
    userQuestKeysUnique db1 := by
  unfold upsertProgress at hup
  by_cases hany : db.user_quests.any (fun r => decide (r.user_id = u ∧ r.quest_id = qid)) = true
  · simp only [hany, if_true] at hup
    cases hup
    unfold userQuestKeysUnique at *
    simp only
    rw [userQuestKeys_map]
    · exact h
    · intro r; split <;> exact ⟨rfl, rfl⟩
  · simp only [hany, if_false, Bool.false_eq_true] at hup
    split at hup
    · cases hup
      unfold userQuestKeysUnique at *
      simp only [List.map_append, List.map_cons, List.map_nil]
      rw [List.nodup_append]
      refine ⟨h, List.nodup_singleton _, ?_⟩
      intro k hk hk2
      rw [List.mem_singleton] at hk2
      obtain ⟨r, hr, hrk⟩ := List.mem_map.1 hk
      apply hany
      rw [List.any_eq_true]
      refine ⟨r, hr, ?_⟩
      rw [hk2] at hrk
      simp only [freshUserQuest, Prod.mk.injEq] at hrk
      simpa using hrk
    · cases hup

theorem progressStep_keys (now : Nat) (u : String) (amount : Int) (db db1 : DB)
    (quest : Nat × Int) (h : userQuestKeysUnique db)
    (hstep : progressStep now u amount db quest = .ok db1) : userQuestKeysUnique db1 := by
  unfold progressStep at hstep
  cases hup : upsertProgress db now u quest.1 amount with
  | error e => rw [hup] at hstep; cases hstep
  | ok dbu =>
    have hk := upsertProgress_keys db dbu now u quest.1 amount h hup
    rw [hup] at hstep
    simp only at hstep
    cases hcur : selectUserQuest dbu u quest.1 with
    | none => rw [hcur] at hstep; cases hstep
    | some current =>
      rw [hcur] at hstep
      simp only at hstep
      split at hstep
      · cases hstep; exact markCompleted_keys dbu u quest.1 hk
      · cases hstep; exact hk

theorem progressLoop_keys (now : Nat) (u : String) (amount : Int) :
    ∀ (quests : List (Nat × Int)) (db : DB), userQuestKeysUnique db →
      userQuestKeysUnique (progressLoop now u amount quests db).1 := by
  intro quests
  induction quests with
  | nil => intro db h; exact h
  | cons quest rest ih =>
    intro db h
    unfold progressLoop
    cases hstep : progressStep now u amount db quest with
    | error e => exact h
    | ok db1 => exact ih db1 (progressStep_keys now u amount db db1 quest h hstep)

theorem giveQuestGems_user_quests (db : DB) (now : Nat) (u : String) (q : Quest) :
    ∃ db1 e, giveQuestGems db now u q = (db1, e) ∧ db1.user_quests = db.user_quests := by
  unfold giveQuestGems
  by_cases hg : q.reward_gems > 0
  · simp only [hg, if_true]
    by_cases hfk : fkOk { db with users := addGems db.users u q.reward_gems } u = true
    · simp only [hfk, if_true]
      exact ⟨_, _, rfl, rfl⟩
    · simp only [hfk, if_false]
      exact ⟨_, _, rfl, rfl⟩
  · simp only [hg, if_false]
    exact ⟨_, _, rfl, rfl⟩

/-- The rows of `user_quests` after `claimQuestReward`: unchanged, or the
update of `claimed` after a claimable row was found. -/
theorem claimQuestReward_user_quests (db : DB) (now : Nat) (u : String) (qid : Nat) :
    (claimQuestReward db now u qid).1.user_quests = db.user_quests
      ∨ (claimable db u qid
          ∧ (claimQuestReward db now u qid).1.user_quests = (markClaimed db u qid).user_quests) := by
  by_cases hc : claimable db u qid
  · obtain ⟨r, hr⟩ := (claimable_iff_find db u qid).1 hc
    unfold claimQuestReward
    rw [hr]
    simp only
    cases hq : db.quests.find? (fun q => decide (q.quest_id = qid)) with
    | none => left; rfl
    | some q =>
      simp only
      obtain ⟨db1, e, hgive, huq⟩ := giveQuestGems_user_quests db now u q
      rw [hgive]
      cases e with
      | some msg => left; exact huq
      | none =>
        right
        refine ⟨hc, ?_⟩
        simp only
        split
        · exact congrArg (fun l => l.map (fun r : UserQuest =>
            if r.user_id = u ∧ r.quest_id = qid then { r with claimed := 1 } else r)) huq
        · exact congrArg (fun l => l.map (fun r : UserQuest =>
            if r.user_id = u ∧ r.quest_id = qid then { r with claimed := 1 } else r)) huq
  · left
    rw [claimQuestReward_refused db now u qid hc]

/-- C20: the predicate that every `user_quests` row with claimed = 1 has
completed = 1 is an invariant.  On a table whose pairs of `user_id` and
`quest_id` are unique, as the schema declares, the predicate and the uniqueness
are preserved by every call of `updateQuestProgress` and of `claimQuestReward`;
the rows that `updateQuestProgress` creates are appended with claimed = 0; and
the predicate holds on an empty table. -/
theorem C20_claimed_implies_completed (db : DB) (now : Nat) (u type : String) (amount : Int)
    (qid : Nat) (hkeys : userQuestKeysUnique db) (hinv : claimedImpliesCompleted db) :
    (userQuestKeysUnique (updateQuestProgress db now u type amount).1
        ∧ claimedImpliesCompleted (updateQuestProgress db now u type amount).1)
      ∧ (userQuestKeysUnique (claimQuestReward db now u qid).1
        ∧ claimedImpliesCompleted (claimQuestReward db now u qid).1)
      ∧ (∃ f extra, (updateQuestProgress db now u type amount).1.user_quests
            = db.user_quests.map f ++ extra
          ∧ (∀ r, (f r).user_id = r.user_id ∧ (f r).quest_id = r.quest_id)
          ∧ ∀ e ∈ extra, e.claimed = 0)
      ∧ claimedImpliesCompleted { db with user_quests := [] } := by
  obtain ⟨f, extra, hrows, hf, hextra, -⟩ := progressLoop_rows now u amount
    (activeQuestRows db (isoDate now) u type) db
  refine ⟨⟨progressLoop_keys now u amount _ db hkeys, ?_⟩, ⟨?_, ?_⟩,
    ⟨f, extra, hrows, fun r => ⟨(hf r).1, (hf r).2.1⟩, hextra⟩, ?_⟩
  · intro r hr hclaimed
    unfold updateQuestProgress at hr
    rw [hrows] at hr
    rcases List.mem_append.1 hr with h | h
    · obtain ⟨r0, hr0, rfl⟩ := List.mem_map.1 h
      obtain ⟨-, -, hc, -, hd, -⟩ := hf r0
      have h0 : r0.completed = 1 := hinv r0 hr0 (hc ▸ hclaimed)
      rcases hd with hd | hd
      · rw [hd, h0]
      · exact hd
    · rw [hextra r h] at hclaimed
      cases hclaimed
  · rcases claimQuestReward_user_quests db now u qid with h | ⟨-, h⟩
    · unfold userQuestKeysUnique at *
      rw [h]; exact hkeys
    · unfold userQuestKeysUnique at *
      rw [h]
      unfold markClaimed
      simp only
      rw [userQuestKeys_map]
      · exact hkeys
      · intro r; split <;> exact ⟨rfl, rfl⟩
  · rcases claimQuestReward_user_quests db now u qid with h | ⟨hc, h⟩
    · intro r hr
      rw [h] at hr
      exact hinv r hr
    · intro r hr hclaimed
      rw [h] at hr
      unfold markClaimed at hr
      obtain ⟨r0, hr0, rfl⟩ := List.mem_map.1 hr
      obtain ⟨c, hcm, hcu, hcq, hcc, -⟩ := hc
      by_cases hk : r0.user_id = u ∧ r0.quest_id = qid
      · simp only [hk, and_self, if_true]
        have hsame : r0 = c := by
          apply List.inj_on_of_nodup_map hkeys hr0 hcm
          simp [hk.1, hk.2, hcu, hcq]
        rw [hsame]
        exact hcc
      · simp only [hk, if_false] at hclaimed ⊢
        exact hinv r0 hr0 hclaimed
  · intro r hr
    cases hr

/-- C20 at a concrete table: one completed and unclaimed row; the invariant
holds after a progress update and after the claim. -/
theorem C20_claimed_implies_completed_witness :
    claimedImpliesCompleted (updateQuestProgress (questDbWith 21 1 0) day10 "u" "messages" 7).1
      ∧ claimedImpliesCompleted (claimQuestReward (questDbWith 21 1 0) day10 "u" 1).1 :=
  have h := C20_claimed_implies_completed (questDbWith 21 1 0) day10 "u" "messages" 7 1
    (by decide) (by decide)
  ⟨h.1.2, h.2.1.2⟩

end Lbb


namespace Lbb

/-! ## The effect of `updateQuestProgress` row by row -/

theorem find_map_if {α : Type} (P : α → Prop) [DecidablePred P] (f : α → α)
    (hf : ∀ r, P r → P (f r)) (l : List α) :
    (l.map (fun r => if P r then f r else r)).find? (fun r => decide (P r))
      = (l.find? (fun r => decide (P r))).map f := by
  induction l with
  | nil => rfl
  | cons a t ih =>
    by_cases h : P a
    · simp [List.find?, h, hf a h]
    · simp [List.find?, h, ih]

theorem find_map_if_other {α : Type} (P Q : α → Prop) [DecidablePred P] [DecidablePred Q]
    (f : α → α) (hPQ : ∀ r, P r → ¬ Q r) (hf : ∀ r, P r → ¬ Q (f r)) (l : List α) :
    (l.map (fun r => if P r then f r else r)).find? (fun r => decide (Q r))
      = l.find? (fun r => decide (Q r)) := by
  induction l with
  | nil => rfl
  | cons a t ih =>
    by_cases h : P a
    · rw [List.map_cons, if_pos h, List.find?_cons_of_neg _ (by simpa using hf a h),
        List.find?_cons_of_neg _ (by simpa using hPQ a h), ih]
    · rw [List.map_cons, if_neg h]
      by_cases h3 : Q a
      · rw [List.find?_cons_of_pos _ (by simpa using h3),
          List.find?_cons_of_pos _ (by simpa using h3)]
      · rw [List.find?_cons_of_neg _ (by simpa using h3),
          List.find?_cons_of_neg _ (by simpa using h3), ih]

/-- Lookups after the upsert of the loop body. -/
theorem upsertProgress_select (db : DB) (now : Nat) (u : String) (qid : Nat) (amount : Int)
    (hfk : fkOk db u = true) :
    ∃ db1, upsertProgress db now u qid amount = .ok db1
      ∧ sameButUserQuests db db1
      ∧ selectUserQuest db1 u qid
          = some (match selectUserQuest db u qid with
                  | some r => { r with progress := r.progress + amount }
                  | none => freshUserQuest u qid amount now)
      ∧ ∀ w k, ¬ (w = u ∧ k = qid) → selectUserQuest db1 w k = selectUserQuest db w k := by
  unfold upsertProgress
  by_cases hany : db.user_quests.any (fun r => decide (r.user_id = u ∧ r.quest_id = qid)) = true
  · simp only [hany, if_true]
    refine ⟨_, rfl, rfl, ?_, ?_⟩
    · obtain ⟨r, hr⟩ := find_some_of_any _ _ hany
      unfold selectUserQuest
      simp only
      rw [find_map_if (fun r : UserQuest => r.user_id = u ∧ r.quest_id = qid)
        (fun r => { r with progress := r.progress + amount }) (fun _ h => h), hr]
      rfl
    · intro w k hne
      unfold selectUserQuest
      simp only
      exact find_map_if_other (fun r : UserQuest => r.user_id = u ∧ r.quest_id = qid)
        (fun r : UserQuest => r.user_id = w ∧ r.quest_id = k)
        (fun r => { r with progress := r.progress + amount })
        (fun r h1 h2 => hne ⟨h2.1.symm.trans h1.1, h2.2.symm.trans h1.2⟩)
        (fun r h1 h2 => hne ⟨h2.1.symm.trans h1.1, h2.2.symm.trans h1.2⟩) db.user_quests
  · simp only [hany, Bool.false_eq_true, if_false, hfk, if_true]
    have hnone := find_none_of_any_false _ _ (Bool.eq_false_iff.2 hany)
    refine ⟨_, rfl, rfl, ?_, ?_⟩
    · unfold selectUserQuest
      simp only
      rw [hnone, find_append_none _ _ _ hnone (by simp [freshUserQuest])]
    · intro w k hne
      unfold selectUserQuest
      simp only
      rw [List.find?_append]
      have : List.find? (fun r : UserQuest => decide (r.user_id = w ∧ r.quest_id = k))
          [freshUserQuest u qid amount now] = none := by
        rw [List.find?_cons_of_neg]
        · rfl
        · simp only [freshUserQuest, decide_eq_true_eq]
          intro h
          exact hne ⟨h.1.symm, h.2.symm⟩
      rw [this]
      simp

/-- Lookups after the update of `completed`. -/
theorem markCompleted_select (db : DB) (u : String) (qid : Nat) :
    selectUserQuest (markCompleted db u qid) u qid
        = (selectUserQuest db u qid).map (fun r => { r with completed := 1 })
      ∧ ∀ w k, ¬ (w = u ∧ k = qid) →
          selectUserQuest (markCompleted db u qid) w k = selectUserQuest db w k := by
  unfold selectUserQuest markCompleted
  simp only
  constructor
  · exact find_map_if (fun r : UserQuest => r.user_id = u ∧ r.quest_id = qid)
      (fun r => { r with completed := 1 }) (fun _ h => h) db.user_quests
  · intro w k hne
    exact find_map_if_other (fun r : UserQuest => r.user_id = u ∧ r.quest_id = qid)
      (fun r : UserQuest => r.user_id = w ∧ r.quest_id = k)
      (fun r => { r with completed := 1 })
      (fun r h1 h2 => hne ⟨h2.1.symm.trans h1.1, h2.2.symm.trans h1.2⟩)
      (fun r h1 h2 => hne ⟨h2.1.symm.trans h1.1, h2.2.symm.trans h1.2⟩) db.user_quests

theorem fkOk_sameButUserQuests (db db1 : DB) (u : String) (h : sameButUserQuests db db1) :
    fkOk db1 u = fkOk db u := by
  unfold sameButUserQuests at h
  rw [h]
  rfl

/-- One pass of the loop body: it does not throw for a user who can be
referenced, it rewrites the user's row of the quest and no other lookup. -/
theorem progressStep_select (now : Nat) (u : String) (amount : Int) (db : DB)
    (quest : Nat × Int) (hfk : fkOk db u = true) :
    ∃ db1, progressStep now u amount db quest = .ok db1
      ∧ sameButUserQuests db db1
      ∧ selectUserQuest db1 u quest.1
          = some (progressedRow (selectUserQuest db u quest.1) u quest.1 amount quest.2 now)
      ∧ ∀ w k, ¬ (w = u ∧ k = quest.1) → selectUserQuest db1 w k = selectUserQuest db w k := by
  obtain ⟨dbu, hup, hsame, hsel, hother⟩ := upsertProgress_select db now u quest.1 amount hfk
  unfold progressStep
  rw [hup]
  simp only [hsel]
  obtain ⟨hm1, hm2⟩ := markCompleted_select dbu u quest.1
  split
  · rename_i hge
    refine ⟨_, rfl, sameButUserQuests_trans db dbu _ hsame rfl, ?_, ?_⟩
    · rw [hm1, hsel]
      generalize selectUserQuest db u quest.1 = old at hge ⊢
      cases old with
      | none => simp only [progressedRow, Option.map_some'] at hge ⊢; rw [if_pos hge]
      | some r => simp only [progressedRow, Option.map_some'] at hge ⊢; rw [if_pos hge]
    · intro w k hne
      rw [hm2 w k hne, hother w k hne]
  · rename_i hge
    refine ⟨_, rfl, hsame, ?_, hother⟩
    rw [hsel]
    generalize selectUserQuest db u quest.1 = old at hge ⊢
    cases old with
    | none => simp only [progressedRow] at hge ⊢; rw [if_neg hge]
    | some r => simp only [progressedRow] at hge ⊢; rw [if_neg hge]

/-- The loop over result rows with pairwise different quest keys. -/
theorem progressLoop_select (now : Nat) (u : String) (amount : Int) :
    ∀ (quests : List (Nat × Int)) (db : DB), (quests.map (fun x => x.1)).Nodup →
      fkOk db u = true →
      (progressLoop now u amount quests db).2 = none
        ∧ sameButUserQuests db (progressLoop now u amount quests db).1
        ∧ (∀ x ∈ quests, selectUserQuest (progressLoop now u amount quests db).1 u x.1
            = some (progressedRow (selectUserQuest db u x.1) u x.1 amount x.2 now))
        ∧ ∀ w k, ¬ (w = u ∧ k ∈ quests.map (fun x => x.1)) →
            selectUserQuest (progressLoop now u amount quests db).1 w k
              = selectUserQuest db w k := by
  intro quests
  induction quests with
  | nil =>
    intro db _ _
    exact ⟨rfl, rfl, by simp, fun _ _ _ => rfl⟩
  | cons quest rest ih =>
    intro db hnd hfk
    rw [List.map_cons, List.nodup_cons] at hnd
    obtain ⟨db1, hstep, hsame, hsel, hother⟩ := progressStep_select now u amount db quest hfk
    have hfk1 : fkOk db1 u = true := by rw [fkOk_sameButUserQuests db db1 u hsame]; exact hfk
    obtain ⟨hnone, hsame2, hsel2, hother2⟩ := ih db1 hnd.2 hfk1
    unfold progressLoop
    rw [hstep]
    simp only
    refine ⟨hnone, sameButUserQuests_trans db db1 _ hsame hsame2, ?_, ?_⟩
    · intro x hx
      rcases List.mem_cons.1 hx with h | h
      · subst h
        rw [hother2 u x.1 (fun hc => hnd.1 hc.2), hsel]
      · have hne : ¬ (u = u ∧ x.1 = quest.1) := by
          intro hc
          apply hnd.1
          rw [← hc.2]
          exact List.mem_map.2 ⟨x, h, rfl⟩
        rw [hsel2 x h, hother u x.1 hne]
    · intro w k hne
      have h1 : ¬ (w = u ∧ k ∈ rest.map (fun x => x.1)) := by
        intro hc
        exact hne ⟨hc.1, List.mem_cons_of_mem _ hc.2⟩
      have h2 : ¬ (w = u ∧ k = quest.1) := by
        intro hc
        apply hne
        refine ⟨hc.1, ?_⟩
        rw [hc.2]
        exact List.mem_cons_self _ _
      rw [hother2 w k h1, hother w k h2]

end Lbb


namespace Lbb

/-- On a table with unique keys the join of a quest with the user's rows has at
most the row that the lookup finds. -/
theorem joined_rows (l : List UserQuest) (u : String) (qid : Nat)
    (h : (l.map (fun r => (r.user_id, r.quest_id))).Nodup) :
    l.filter (fun uq => decide (uq.quest_id = qid ∧ uq.user_id = u))
      = (l.find? (fun r => decide (r.user_id = u ∧ r.quest_id = qid))).toList := by
  induction l with
  | nil => rfl
  | cons a t ih =>
    rw [List.map_cons, List.nodup_cons] at h
    by_cases hk : a.user_id = u ∧ a.quest_id = qid
    · have hfilter : t.filter (fun uq => decide (uq.quest_id = qid ∧ uq.user_id = u)) = [] := by
        rw [List.filter_eq_nil_iff]
        intro x hx hp
        simp only [decide_eq_true_eq] at hp
        apply h.1
        refine List.mem_map.2 ⟨x, hx, ?_⟩
        simp [hp.1, hp.2, hk.1, hk.2]
      rw [List.filter_cons_of_pos (by simp [hk.1, hk.2]),
        List.find?_cons_of_pos _ (by simp [hk.1, hk.2]), hfilter]
      rfl
    · rw [List.filter_cons_of_neg (by simpa [and_comm] using hk),
        List.find?_cons_of_neg _ (by simpa using hk), ih h.2]

/-- On a table with unique keys the query returns one row for each selected
quest and none for the others. -/
theorem activeQuestRows_eq (db : DB) (today : Int) (u type : String)
    (hk : userQuestKeysUnique db) :
    activeQuestRows db today u type
      = db.quests.flatMap (fun q =>
          if questSelected db today u type q then [(q.quest_id, q.requirement_value)] else []) := by
  unfold activeQuestRows
  congr 1
  funext q
  by_cases hc : q.requirement_type = type ∧ q.start_date ≤ today ∧ q.end_date > today
  · rw [if_pos hc, joined_rows db.user_quests u q.quest_id hk]
    by_cases hs : questSelected db today u type q
    · rw [if_pos hs]
      have h0 := hs.2.2.2
      unfold selectUserQuest at h0
      cases hfind : db.user_quests.find?
          (fun r => decide (r.user_id = u ∧ r.quest_id = q.quest_id)) with
      | none => simp
      | some r =>
        rw [hfind] at h0
        simp only [Option.map_some', Option.getD_some] at h0
        simp [h0]
    · rw [if_neg hs]
      cases hfind : db.user_quests.find?
          (fun r => decide (r.user_id = u ∧ r.quest_id = q.quest_id)) with
      | none =>
        exfalso
        apply hs
        refine ⟨hc.1, hc.2.1, hc.2.2, ?_⟩
        unfold selectUserQuest
        rw [hfind]
        rfl
      | some r =>
        have hne : ¬ r.completed = 0 := by
          intro h0
          apply hs
          refine ⟨hc.1, hc.2.1, hc.2.2, ?_⟩
          unfold selectUserQuest
          rw [hfind]
          simpa using h0
        simp [hne]
  · have hs : ¬ questSelected db today u type q := fun h => hc ⟨h.1, h.2.1, h.2.2.1⟩
    rw [if_neg hc, if_neg hs]

theorem selectedRows_keys (S : Quest → Prop) [DecidablePred S] (qs : List Quest) :
    List.Sublist
      ((qs.flatMap (fun q => if S q then [(q.quest_id, q.requirement_value)] else [])).map
        (fun x => x.1))
      (qs.map (fun q => q.quest_id)) := by
  induction qs with
  | nil => simp
  | cons q rest ih =>
    rw [List.flatMap_cons, List.map_append, List.map_cons]
    by_cases h : S q
    · rw [if_pos h]
      exact List.Sublist.cons₂ _ ih
    · rw [if_neg h]
      exact List.Sublist.cons _ ih

/-- The effect of `updateQuestProgress` on a database with unique keys. -/
theorem updateQuestProgress_spec (db : DB) (now : Nat) (u type : String) (amount : Int)
    (hq : questKeysUnique db) (hk : userQuestKeysUnique db) (hfk : fkOk db u = true) :
    (updateQuestProgress db now u type amount).2 = none
      ∧ sameButUserQuests db (updateQuestProgress db now u type amount).1
      ∧ (∀ q ∈ db.quests, questSelected db (isoDate now) u type q →
          ∃ r2, selectUserQuest (updateQuestProgress db now u type amount).1 u q.quest_id
              = some r2
            ∧ r2.progress
                = ((selectUserQuest db u q.quest_id).map (fun r => r.progress)).getD 0 + amount
            ∧ r2.completed = (if r2.progress ≥ q.requirement_value then 1 else 0))
      ∧ (∀ w k, ¬ (w = u ∧ ∃ q ∈ db.quests, q.quest_id = k
            ∧ questSelected db (isoDate now) u type q) →
          selectUserQuest (updateQuestProgress db now u type amount).1 w k
            = selectUserQuest db w k)
      ∧ ∃ f extra, (updateQuestProgress db now u type amount).1.user_quests
            = db.user_quests.map f ++ extra
          ∧ ∀ r, r.completed = 1 → (f r).completed = 1 := by
  have hrows := activeQuestRows_eq db (isoDate now) u type hk
  have hnd : ((activeQuestRows db (isoDate now) u type).map (fun x => x.1)).Nodup := by
    rw [hrows]
    exact List.Nodup.sublist (selectedRows_keys _ db.quests) hq
  obtain ⟨hnone, hsame, hsel, hother⟩ := progressLoop_select now u amount
    (activeQuestRows db (isoDate now) u type) db hnd hfk
  refine ⟨hnone, hsame, ?_, ?_, ?_⟩
  · intro q hqm hs
    have hmem : (q.quest_id, q.requirement_value) ∈ activeQuestRows db (isoDate now) u type := by
      rw [hrows, List.mem_flatMap]
      exact ⟨q, hqm, by rw [if_pos hs]; exact List.mem_singleton.2 rfl⟩
    refine ⟨_, hsel _ hmem, ?_, ?_⟩
    · cases selectUserQuest db u q.quest_id with
      | none =>
        simp only [progressedRow, freshUserQuest, Option.map_none', Option.getD_none, zero_add]
        split <;> rfl
      | some r =>
        simp only [progressedRow, Option.map_some', Option.getD_some]
        split <;> rfl
    · have h0 := hs.2.2.2
      cases hold : selectUserQuest db u q.quest_id with
      | none =>
        simp only [progressedRow, freshUserQuest]
        split
        · rename_i hge; simp only [hge, if_true]
        · rename_i hge; simp only [hge, if_false]
      | some r =>
        rw [hold] at h0
        simp only [Option.map_some', Option.getD_some] at h0
        simp only [progressedRow]
        split
        · rename_i hge; simp only [hge, if_true]
        · rename_i hge; simp only [hge, if_false]; exact h0
  · intro w k hne
    apply hother w k
    intro hc
    apply hne
    refine ⟨hc.1, ?_⟩
    obtain ⟨x, hx, hxk⟩ := List.mem_map.1 hc.2
    rw [hrows, List.mem_flatMap] at hx
    obtain ⟨q, hqm, hxq⟩ := hx
    by_cases hs : questSelected db (isoDate now) u type q
    · rw [if_pos hs, List.mem_singleton] at hxq
      refine ⟨q, hqm, ?_, hs⟩
      rw [← hxk, hxq]
    · rw [if_neg hs] at hxq
      cases hxq
  · obtain ⟨f, extra, hr, hf, -, -⟩ := progressLoop_rows now u amount
      (activeQuestRows db (isoDate now) u type) db
    refine ⟨f, extra, hr, ?_⟩
    intro r h1
    rcases (hf r).2.2.2.2.1 with h | h
    · rw [h, h1]
    · exact h

theorem quests_sameButUserQuests (db db1 : DB) (h : sameButUserQuests db db1) :
    db1.quests = db.quests := by
  unfold sameButUserQuests at h
  rw [h]

/-- One call of the scenario: the quest requires 20 messages, the user's row
holds `p` and is not completed (or is missing with `p` = 0), the amount is 7. -/
theorem updateQuestProgress_messages7 (db : DB) (now : Nat) (u : String) (q : Quest) (p : Int)
    (hq : questKeysUnique db) (hk : userQuestKeysUnique db) (hfk : fkOk db u = true)
    (hqm : q ∈ db.quests) (htype : q.requirement_type = "messages")
    (hreq : q.requirement_value = 20)
    (hact : q.start_date ≤ isoDate now ∧ q.end_date > isoDate now)
    (hp : ((selectUserQuest db u q.quest_id).map (fun r => r.progress)).getD 0 = p)
    (hc : ((selectUserQuest db u q.quest_id).map (fun r => r.completed)).getD 0 = 0) :
    (questKeysUnique (updateQuestProgress db now u "messages" 7).1
        ∧ userQuestKeysUnique (updateQuestProgress db now u "messages" 7).1
        ∧ fkOk (updateQuestProgress db now u "messages" 7).1 u = true
        ∧ q ∈ (updateQuestProgress db now u "messages" 7).1.quests)
      ∧ (selectUserQuest (updateQuestProgress db now u "messages" 7).1 u q.quest_id).map
          (fun r => (r.progress, r.completed)) = some (p + 7, if p + 7 ≥ 20 then 1 else 0) := by
  obtain ⟨-, hsame, hsel, -, -⟩ := updateQuestProgress_spec db now u "messages" 7 hq hk hfk
  obtain ⟨r2, hr2, hprog, hcomp⟩ := hsel q hqm ⟨htype, hact.1, hact.2, hc⟩
  have hquests := quests_sameButUserQuests db _ hsame
  refine ⟨⟨?_, progressLoop_keys now u 7 _ db hk, ?_, ?_⟩, ?_⟩
  · unfold questKeysUnique at hq ⊢
    rw [hquests]; exact hq
  · rw [fkOk_sameButUserQuests db _ u hsame]; exact hfk
  · rw [hquests]; exact hqm
  · rw [hr2, Option.map_some', hcomp, hprog, hp, hreq]

/-- C17: `updateQuestProgress(user, type, amount)` on a database whose declared
keys are unique (`quest_id` of `quests`, the pair of `user_id` and `quest_id` of
`user_quests`) and whose user can be referenced changes exactly the user's rows
for the quests that are active today, have the requirement type and are not yet
completed for this user.  The call does not throw and leaves every other table;
each such row's progress becomes old progress + amount (amount if no row
existed) and its `completed` is 1 exactly when the new progress is at least
`requirement_value`; the lookups of all other quests, users and already
completed quests are unchanged; no row goes back from completed = 1; and for a quest requiring 20 messages on
which the user has no row, three calls with amount 7 leave progress 7, 14, 21
with completed = 0 after the first two and completed = 1 after the third. -/
theorem C17_update_quest_progress (db : DB) (now : Nat) (u type : String) (amount : Int)
    (hq : questKeysUnique db) (hk : userQuestKeysUnique db) (hfk : fkOk db u = true) :
    ((updateQuestProgress db now u type amount).2 = none
      ∧ sameButUserQuests db (updateQuestProgress db now u type amount).1
      ∧ (∀ q ∈ db.quests, questSelected db (isoDate now) u type q →
          ∃ r2, selectUserQuest (updateQuestProgress db now u type amount).1 u q.quest_id
              = some r2
            ∧ r2.progress
                = ((selectUserQuest db u q.quest_id).map (fun r => r.progress)).getD 0 + amount
            ∧ r2.completed = (if r2.progress ≥ q.requirement_value then 1 else 0))
      ∧ (∀ w k, ¬ (w = u ∧ ∃ q ∈ db.quests, q.quest_id = k
            ∧ questSelected db (isoDate now) u type q) →
          selectUserQuest (updateQuestProgress db now u type amount).1 w k
            = selectUserQuest db w k)
      ∧ ∃ f extra, (updateQuestProgress db now u type amount).1.user_quests
            = db.user_quests.map f ++ extra
          ∧ ∀ r, r.completed = 1 → (f r).completed = 1)
    ∧ ∀ (q : Quest) (now1 now2 now3 : Nat), q ∈ db.quests → q.requirement_type = "messages" →
        q.requirement_value = 20 →
        (q.start_date ≤ isoDate now1 ∧ q.end_date > isoDate now1) →
        (q.start_date ≤ isoDate now2 ∧ q.end_date > isoDate now2) →
        (q.start_date ≤ isoDate now3 ∧ q.end_date > isoDate now3) →
        selectUserQuest db u q.quest_id = none →
        (selectUserQuest (updateQuestProgress db now1 u "messages" 7).1 u q.quest_id).map
            (fun r => (r.progress, r.completed)) = some (7, 0)
          ∧ (selectUserQuest
              (updateQuestProgress (updateQuestProgress db now1 u "messages" 7).1 now2 u
                "messages" 7).1 u q.quest_id).map
            (fun r => (r.progress, r.completed)) = some (14, 0)
          ∧ (selectUserQuest
              (updateQuestProgress
                (updateQuestProgress (updateQuestProgress db now1 u "messages" 7).1 now2 u
                  "messages" 7).1 now3 u "messages" 7).1 u q.quest_id).map
            (fun r => (r.progress, r.completed)) = some (21, 1) := by
  refine ⟨updateQuestProgress_spec db now u type amount hq hk hfk, ?_⟩
  intro q now1 now2 now3 hqm htype hreq h1 h2 h3 hnone
  obtain ⟨⟨hq1, hk1, hfk1, hqm1⟩, hs1⟩ := updateQuestProgress_messages7 db now1 u q 0 hq hk hfk
    hqm htype hreq h1 (by rw [hnone]; rfl) (by rw [hnone]; rfl)
  have hs1b : (selectUserQuest (updateQuestProgress db now1 u "messages" 7).1 u q.quest_id).map
      (fun r => (r.progress, r.completed)) = some (7, 0) := hs1
  obtain ⟨r1, hr1⟩ : ∃ r1, selectUserQuest (updateQuestProgress db now1 u "messages" 7).1 u
      q.quest_id = some r1 := by
    cases hx : selectUserQuest (updateQuestProgress db now1 u "messages" 7).1 u q.quest_id with
    | none => rw [hx] at hs1b; cases hs1b
    | some r1 => exact ⟨r1, rfl⟩
  rw [hr1] at hs1b
  simp only [Option.map_some', Option.some.injEq, Prod.mk.injEq] at hs1b
  obtain ⟨⟨hq2, hk2, hfk2, hqm2⟩, hs2⟩ := updateQuestProgress_messages7 _ now2 u q 7 hq1 hk1 hfk1
    hqm1 htype hreq h2 (by rw [hr1]; exact hs1b.1) (by rw [hr1]; exact hs1b.2)
  have hs2b : (selectUserQuest
      (updateQuestProgress (updateQuestProgress db now1 u "messages" 7).1 now2 u
        "messages" 7).1 u q.quest_id).map
      (fun r => (r.progress, r.completed)) = some (14, 0) := hs2
  obtain ⟨r2, hr2⟩ : ∃ r2, selectUserQuest
      (updateQuestProgress (updateQuestProgress db now1 u "messages" 7).1 now2 u
        "messages" 7).1 u q.quest_id = some r2 := by
    cases hx : selectUserQuest
      (updateQuestProgress (updateQuestProgress db now1 u "messages" 7).1 now2 u
        "messages" 7).1 u q.quest_id with
    | none => rw [hx] at hs2b; cases hs2b
    | some r2 => exact ⟨r2, rfl⟩
  rw [hr2] at hs2b
  simp only [Option.map_some', Option.some.injEq, Prod.mk.injEq] at hs2b
  obtain ⟨-, hs3⟩ := updateQuestProgress_messages7 _ now3 u q 14 hq2 hk2 hfk2
    hqm2 htype hreq h3 (by rw [hr2]; exact hs2b.1) (by rw [hr2]; exact hs2b.2)
  refine ⟨hs1, ?_, hs3⟩
  rw [hr2]
  simp only [Option.map_some', hs2b.1, hs2b.2]

/-- C17 at Scenario E: the quest `messagesQuest` requires 20 messages and `u`
has no row; after calls with amount 7 on day 10 the row reads progress 7, 14 and
21, completed only after the third. -/
theorem C17_update_quest_progress_witness :
    (selectUserQuest (updateQuestProgress questDb day10 "u" "messages" 7).1 "u" 1).map
        (fun r => (r.progress, r.completed)) = some (7, 0)
      ∧ (selectUserQuest
          (updateQuestProgress (updateQuestProgress questDb day10 "u" "messages" 7).1
            (day10 + 1) "u" "messages" 7).1 "u" 1).map
        (fun r => (r.progress, r.completed)) = some (14, 0)
      ∧ (selectUserQuest
          (updateQuestProgress
            (updateQuestProgress (updateQuestProgress questDb day10 "u" "messages" 7).1
              (day10 + 1) "u" "messages" 7).1 (day10 + 2) "u" "messages" 7).1 "u" 1).map
        (fun r => (r.progress, r.completed)) = some (21, 1) :=
  (C17_update_quest_progress questDb day10 "u" "messages" 7 (by decide) (by decide)
    (by decide)).2 messagesQuest day10 (day10 + 1) (day10 + 2) (by decide) (by decide)
    (by decide) (by decide) (by decide) (by decide) (by decide)

end Lbb

namespace Lbb

theorem areFriends_iff (db : DB) (a b : String) :
    areFriends db a b = true ↔ ∃ f ∈ db.friends, f.user_id = a ∧ f.friend_id = b := by
  simp [areFriends, List.any_eq_true]

/-- The friend rows are symmetric in an empty table, and both friend routes keep
them symmetric. -/
theorem friendsSymmetric_routes (db : DB) (now : Nat) (a b : String)
    (h : friendsSymmetric db) :
    friendsSymmetric { db with friends := [] } ∧ friendsSymmetric (addFriend db now a b) ∧
    friendsSymmetric (removeFriend db a b) := by
  refine ⟨?_, ?_, ?_⟩
  · intro f hf
    simp at hf
  · unfold addFriend
    split
    · exact h
    · split
      · exact h
      · rename_i hne hnf
        simp only
        have hba : areFriends db b a = false := by
          cases hx : areFriends db b a with
          | false => rfl
          | true =>
            obtain ⟨f, hf, h1, h2⟩ := (areFriends_iff db b a).1 hx
            have := h f hf
            rw [h1, h2] at this
            exact absurd this hnf
        have hne2 : ¬ a = b := fun e => hne (Or.inr (Or.inr e))
        split
        · rename_i hx
          exfalso
          obtain ⟨f, hf, h1, h2⟩ := (areFriends_iff _ b a).1 hx
          simp only [List.mem_append, List.mem_singleton] at hf
          rcases hf with hf | rfl
          · have : areFriends db b a = true := (areFriends_iff db b a).2 ⟨f, hf, h1, h2⟩
            rw [hba] at this
            exact Bool.noConfusion this
          · exact hne2 h1
        · intro f hf
          simp only [List.mem_append, List.mem_singleton] at hf
          rw [areFriends_iff]
          rcases hf with (hf | rfl) | rfl
          · obtain ⟨g, hg, g1, g2⟩ := (areFriends_iff db _ _).1 (h f hf)
            exact ⟨g, List.mem_append_left _ (List.mem_append_left _ hg), g1, g2⟩
          · exact ⟨_, List.mem_append_right _ (List.mem_singleton_self _), rfl, rfl⟩
          · exact ⟨_, List.mem_append_left _ (List.mem_append_right _ (List.mem_singleton_self _)),
              rfl, rfl⟩
  · unfold removeFriend
    split
    · exact h
    · intro f hf
      simp only [List.mem_filter, Bool.not_eq_true', decide_eq_false_iff_not, not_and] at hf
      obtain ⟨⟨hf, n1⟩, n2⟩ := hf
      obtain ⟨g, hg, g1, g2⟩ := (areFriends_iff db _ _).1 (h f hf)
      rw [areFriends_iff]
      refine ⟨g, ?_, g1, g2⟩
      simp only [List.mem_filter, Bool.not_eq_true', decide_eq_false_iff_not, not_and]
      refine ⟨⟨hg, ?_⟩, ?_⟩
      · intro e1 e2
        exact n2 (g2.symm.trans e2) (g1.symm.trans e1)
      · intro e1 e2
        exact n1 (g2.symm.trans e2) (g1.symm.trans e1)

/-- A refusal of `checkBalance` names the resource whose balance is below the
value. -/
theorem checkBalance_refused (db : DB) (u ty : String) (v : Option Int) (msg : String)
    (h : checkBalance db u ty v = .ok (some msg)) :
    (msg = "Insufficient gems" ∧ ty = "gems" ∧
        ∃ x, selectUser db u = some x ∧ lessThanParsed x.gems v = true) ∨
    (msg = "Insufficient respect" ∧ ty = "respect" ∧
        ∃ x, selectUser db u = some x ∧ lessThanParsed x.respect_count v = true) := by
  unfold checkBalance at h
  split at h
  · rename_i hty
    split at h
    · exact absurd h (by simp)
    · rename_i x hx
      split at h
      · rename_i hl
        simp only [Except.ok.injEq, Option.some.injEq] at h
        exact Or.inl ⟨h.symm, hty, x, hx, hl⟩
      · simp at h
  · split at h
    · rename_i hty
      split at h
      · exact absurd h (by simp)
      · rename_i x hx
        split at h
        · rename_i hl
          simp only [Except.ok.injEq, Option.some.injEq] at h
          exact Or.inr ⟨h.symm, hty, x, hx, hl⟩
        · simp at h
    · simp at h

/-- When `checkBalance` passes, the user read for a gems or respect check exists
and the balance is not below the value. -/
theorem checkBalance_passed (db : DB) (u ty : String) (v : Option Int)
    (h : checkBalance db u ty v = .ok none) :
    (ty = "gems" → ∃ x, selectUser db u = some x ∧ lessThanParsed x.gems v = false) ∧
    (ty = "respect" → ∃ x, selectUser db u = some x ∧ lessThanParsed x.respect_count v = false) := by
  unfold checkBalance at h
  split at h
  · rename_i hty
    split at h
    · exact absurd h (by simp)
    · rename_i x hx
      split at h
      · simp at h
      · rename_i hl
        refine ⟨fun _ => ⟨x, hx, by simpa using hl⟩, fun e => ?_⟩
        rw [hty] at e
        exact absurd e (by decide)
  · rename_i hng
    split at h
    · rename_i hty
      split at h
      · exact absurd h (by simp)
      · rename_i x hx
        split at h
        · simp at h
        · rename_i hl
          exact ⟨fun e => absurd e hng, fun _ => ⟨x, hx, by simpa using hl⟩⟩
    · rename_i hnr
      exact ⟨fun e => absurd e hng, fun e => absurd e hnr⟩

/-- The check passes for an existing user whose balances are not below the
value. -/
theorem checkBalance_of_enough (db : DB) (u ty : String) (v : Option Int) (x : User)
    (hx : selectUser db u = some x) (hg : ty = "gems" → lessThanParsed x.gems v = false)
    (hr : ty = "respect" → lessThanParsed x.respect_count v = false) :
    checkBalance db u ty v = .ok none := by
  unfold checkBalance
  split
  · rename_i hty
    simp only [hx, hg hty]
    rfl
  · split
    · rename_i hty
      simp only [hx, hr hty]
      rfl
    · rfl

theorem lessThanParsed_false (b a : Int) : lessThanParsed b (some a) = false ↔ a ≤ b := by
  simp [lessThanParsed]

theorem lessThanParsed_true (b a : Int) : lessThanParsed b (some a) = true ↔ b < a := by
  simp [lessThanParsed]

/-- The contract of `createTrade` for an offer text that reads as the number
`amount`, on friend rows kept in both directions.  A returned result is a
success only if sender and receiver are friends in both directions and the
sender holds at least `amount` of an offered gems or respect resource; a success
appends exactly one trade row, with status `pending`, and leaves every other
table, so every balance, as it was; a failure is one of the three refusals, each
with its reason, and leaves the database as it was; a thrown exception leaves
the database as it was too; and the call does succeed for friends when the
sender exists, holds enough, and both users can be referenced. -/
theorem createTrade_number_offer (db : DB) (now : Nat) (senderId receiverId offerType offerValue
    requestType requestValue : String) (amount : Int)
    (hnum : parseInt (some offerValue) = some amount) (hsym : friendsSymmetric db) :
    (∀ post res, createTrade db now senderId receiverId offerType offerValue requestType
        requestValue = (post, .ok res) →
      (res.success = true →
        areFriends db senderId receiverId = true ∧ areFriends db receiverId senderId = true ∧
        (offerType = "gems" → ∃ x, selectUser db senderId = some x ∧ amount ≤ x.gems) ∧
        (offerType = "respect" →
          ∃ x, selectUser db senderId = some x ∧ amount ≤ x.respect_count) ∧
        post = { db with trades := db.trades ++
          [newTrade (nextTradeId db.trades) senderId receiverId offerType offerValue requestType
            requestValue now] } ∧
        (newTrade (nextTradeId db.trades) senderId receiverId offerType offerValue requestType
            requestValue now).status = "pending" ∧
        post.trades.length = db.trades.length + 1 ∧ post.users = db.users ∧
        res.trade_id = some (nextTradeId db.trades)) ∧
      (res.success = false →
        post = db ∧
        ((res.error = some "Can only trade with friends" ∧
            areFriends db senderId receiverId = false) ∨
         (res.error = some "Insufficient gems" ∧ offerType = "gems" ∧
            ∃ x, selectUser db senderId = some x ∧ x.gems < amount) ∨
         (res.error = some "Insufficient respect" ∧ offerType = "respect" ∧
            ∃ x, selectUser db senderId = some x ∧ x.respect_count < amount)))) ∧
    (∀ post e, createTrade db now senderId receiverId offerType offerValue requestType
        requestValue = (post, .error e) → post = db) ∧
    (∀ x, areFriends db senderId receiverId = true → selectUser db senderId = some x →
      (offerType = "gems" → amount ≤ x.gems) → (offerType = "respect" → amount ≤ x.respect_count) →
      fkOk db receiverId = true →
      (createTrade db now senderId receiverId offerType offerValue requestType requestValue).2
        = .ok { success := true, trade_id := some (nextTradeId db.trades) }) := by
  have hmutual : areFriends db senderId receiverId = true →
      areFriends db receiverId senderId = true := by
    intro hf
    obtain ⟨f, hfm, h1, h2⟩ := (areFriends_iff db _ _).1 hf
    have := hsym f hfm
    rwa [h1, h2] at this
  refine ⟨?_, ?_, ?_⟩
  · intro post res h
    unfold createTrade at h
    rw [hnum] at h
    split at h
    · rename_i hnf
      simp only [Prod.mk.injEq, Except.ok.injEq] at h
      obtain ⟨rfl, rfl⟩ := h
      exact ⟨fun hs => absurd hs (by simp), fun _ => ⟨rfl, Or.inl ⟨rfl, hnf⟩⟩⟩
    · rename_i hfr
      have hfr2 : areFriends db senderId receiverId = true := by simpa using hfr
      split at h
      · simp at h
      · rename_i refusal hc
        simp only [Prod.mk.injEq, Except.ok.injEq] at h
        obtain ⟨rfl, rfl⟩ := h
        refine ⟨fun hs => absurd hs (by simp), fun _ => ⟨rfl, Or.inr ?_⟩⟩
        rcases checkBalance_refused _ _ _ _ _ hc with ⟨e1, e2, x, hx, hl⟩ | ⟨e1, e2, x, hx, hl⟩
        · exact Or.inl ⟨by rw [e1], e2, x, hx, (lessThanParsed_true _ _).1 hl⟩
        · exact Or.inr ⟨by rw [e1], e2, x, hx, (lessThanParsed_true _ _).1 hl⟩
      · rename_i hc
        obtain ⟨pg, pr⟩ := checkBalance_passed _ _ _ _ hc
        split at h
        · simp only [Prod.mk.injEq, Except.ok.injEq] at h
          obtain ⟨rfl, rfl⟩ := h
          refine ⟨fun _ => ⟨hfr2, hmutual hfr2, ?_, ?_, rfl, rfl, by simp, rfl, rfl⟩,
            fun hs => absurd hs (by simp)⟩
          · intro e
            obtain ⟨x, hx, hl⟩ := pg e
            exact ⟨x, hx, (lessThanParsed_false _ _).1 hl⟩
          · intro e
            obtain ⟨x, hx, hl⟩ := pr e
            exact ⟨x, hx, (lessThanParsed_false _ _).1 hl⟩
        · simp at h
  · intro post e h
    unfold createTrade at h
    split at h
    · simp at h
    · split at h
      · simp only [Prod.mk.injEq] at h
        exact h.1.symm
      · simp at h
      · split at h
        · simp at h
        · simp only [Prod.mk.injEq] at h
          exact h.1.symm
  · intro x hf hx hg hr hfk
    have hc : checkBalance db senderId offerType (some amount) = .ok none :=
      checkBalance_of_enough db _ _ _ x hx
        (fun e => (lessThanParsed_false _ _).2 (hg e))
        (fun e => (lessThanParsed_false _ _).2 (hr e))
    unfold createTrade
    rw [hnum]
    simp only [hf, hc, fkOk_of_selectUser db senderId x hx, hfk]
    simp

/-- An instance of `createTrade_number_offer`: between the friends `s` and `r`,
`s` holding 50 gems, the offer of 50 gems for 10 respect succeeds, appends one
trade row and leaves the users as they were. -/
theorem createTrade_number_offer_scenarioD :
    parseInt (some "50") = some 50 ∧ friendsSymmetric (tradeDb 10) ∧
    (areFriends (tradeDb 10) "s" "r" = true ∧ areFriends (tradeDb 10) "r" "s" = true ∧
      (scenarioD 10).trades.length = (tradeDb 10).trades.length + 1 ∧
      (scenarioD 10).users = (tradeDb 10).users) :=
  have h := ((createTrade_number_offer (tradeDb 10) 5 "s" "r" "gems" "50" "respect" "10" 50
    (by decide) (by decide)).1 (scenarioD 10) { success := true, trade_id := some 1 } rfl).1 rfl
  ⟨by decide, by decide, h.1, h.2.1, h.2.2.2.2.2.2.1, h.2.2.2.2.2.2.2.1⟩

/-- C21 fails for an offer text that is not a number.  The friend `r` holds 0
gems and offers the text `abc` as gems: `parseInt` gives `NaN`, the test
`sender.gems < NaN` is false, and `createTrade` returns `success: true` and
inserts a pending trade row, although `r` does not hold the offer; it holds not
even 1 gem, as the refusal of the same offer with the text `1` shows. -/
theorem C21_text_offer_passes_balance_check :
    areFriends (tradeDb 2) "r" "s" = true ∧ areFriends (tradeDb 2) "s" "r" = true ∧
    selectUser (tradeDb 2) "r" = some { user_id := "r", gems := 0, respect_count := 2 } ∧
    parseInt (some "abc") = none ∧
    createTrade (tradeDb 2) 5 "r" "s" "gems" "abc" "respect" "1"
      = ({ tradeDb 2 with trades := [newTrade 1 "r" "s" "gems" "abc" "respect" "1" 5] },
         .ok { success := true, trade_id := some 1 }) ∧
    (newTrade 1 "r" "s" "gems" "abc" "respect" "1" 5).status = "pending" ∧
    createTrade (tradeDb 2) 5 "r" "s" "gems" "1" "respect" "1"
      = (tradeDb 2, .ok { success := false, error := some "Insufficient gems" }) := by
  refine ⟨by decide, by decide, by decide, by decide, rfl, rfl, rfl⟩

end Lbb

namespace Lbb

/-! ## Lemmas on the legs of a trade -/

theorem debit_eq_map (users : List User) (ty : String) (a : Int) (u : String) :
    debit users ty a u = users.map (fun x =>
      if x.user_id = u then
        { x with gems := x.gems - legAmount ty "gems" a,
                 respect_count := x.respect_count - legAmount ty "respect" a }
      else x) := by
  have hgr : ¬ ("gems" : String) = "respect" := by decide
  have hrg : ¬ ("respect" : String) = "gems" := by decide
  unfold debit legAmount
  by_cases hg : ty = "gems"
  · subst hg
    simp only [if_true, if_neg hgr, sub_zero]
  · by_cases hr : ty = "respect"
    · subst hr
      simp only [if_neg hrg, if_true, sub_zero]
    · simp only [if_neg hg, if_neg hr, sub_zero, ite_self, List.map_id_fun', id_eq]

theorem credit_eq_map (users : List User) (ty : String) (a : Int) (u : String) :
    credit users ty a u = users.map (fun x =>
      if x.user_id = u then
        { x with gems := x.gems + legAmount ty "gems" a,
                 respect_count := x.respect_count + legAmount ty "respect" a }
      else x) := by
  have hgr : ¬ ("gems" : String) = "respect" := by decide
  have hrg : ¬ ("respect" : String) = "gems" := by decide
  unfold credit legAmount
  by_cases hg : ty = "gems"
  · subst hg
    simp only [if_true, if_neg hgr, add_zero]
  · by_cases hr : ty = "respect"
    · subst hr
      simp only [if_neg hrg, if_true, add_zero]
    · simp only [if_neg hg, if_neg hr, add_zero, ite_self, List.map_id_fun', id_eq]

/-- The four legs of `executeTrade` between two different users, row by row. -/
theorem legs_eq_settledUsers (users : List User) (trade : Trade) (r : String) (offer request : Int)
    (hne : trade.sender_id ≠ r) :
    credit (debit (credit (debit users trade.offer_type offer trade.sender_id)
      trade.request_type request trade.sender_id) trade.request_type request r)
      trade.offer_type offer r = settledUsers users trade r offer request := by
  rw [debit_eq_map, credit_eq_map, debit_eq_map, credit_eq_map]
  unfold settledUsers settledRow
  simp only [List.map_map]
  apply List.map_congr_left
  intro x _
  simp only [Function.comp]
  have hne2 : ¬ r = trade.sender_id := fun e => hne e.symm
  by_cases h1 : x.user_id = trade.sender_id
  · have h2 : ¬ x.user_id = r := fun e => hne (h1.symm.trans e)
    simp only [if_pos h1, if_neg h2]
  · by_cases h2 : x.user_id = r
    · simp only [if_neg h1, if_pos h2]
    · simp only [if_neg h1, if_neg h2]

theorem any_map_update (l : List User) (u v : String) (f : User → User)
    (hf : ∀ x, (f x).user_id = x.user_id) :
    (l.map (fun x => if x.user_id = u then f x else x)).any (fun x => decide (x.user_id = v))
      = l.any (fun x => decide (x.user_id = v)) := by
  simp only [List.any_map]
  congr 1
  funext x
  by_cases h : x.user_id = u
  · simp only [Function.comp, if_pos h, hf]
  · simp only [Function.comp, if_neg h]

theorem any_debit (l : List User) (ty : String) (a : Int) (u v : String) :
    (debit l ty a u).any (fun x => decide (x.user_id = v))
      = l.any (fun x => decide (x.user_id = v)) := by
  rw [debit_eq_map]
  exact any_map_update l u v _ (fun _ => rfl)

theorem any_credit (l : List User) (ty : String) (a : Int) (u v : String) :
    (credit l ty a u).any (fun x => decide (x.user_id = v))
      = l.any (fun x => decide (x.user_id = v)) := by
  rw [credit_eq_map]
  exact any_map_update l u v _ (fun _ => rfl)

/-- A database whose users went through the four legs references the same users. -/
theorem fkOk_legs (db db1 : DB) (trade : Trade) (r : String) (offer request : Int) (v : String)
    (hfk : db1.foreign_keys = db.foreign_keys)
    (hu : db1.users = credit (debit (credit (debit db.users trade.offer_type offer trade.sender_id)
      trade.request_type request trade.sender_id) trade.request_type request r)
      trade.offer_type offer r) :
    fkOk db1 v = fkOk db v := by
  unfold fkOk userExists
  rw [hfk, hu, any_credit, any_debit, any_credit, any_debit]

/-- The users after `executeTrade` are the users after the four legs, whether
or not the transaction rows could be inserted. -/
theorem executeTrade_users (db : DB) (now id : Nat) (r : String) (trade : Trade)
    (offer request : Int) :
    (executeTrade db now id r trade offer request).1.users
      = credit (debit (credit (debit db.users trade.offer_type offer trade.sender_id)
          trade.request_type request trade.sender_id) trade.request_type request r)
          trade.offer_type offer r := by
  unfold executeTrade
  simp only
  split
  · split <;> rfl
  · rfl

/-- The result of `executeTrade` when both users can be referenced. -/
theorem executeTrade_ok (db : DB) (now id : Nat) (r : String) (trade : Trade)
    (offer request : Int) (hs : fkOk db trade.sender_id = true) (hr : fkOk db r = true) :
    executeTrade db now id r trade offer request
      = ({ db with
            users := credit (debit (credit (debit db.users trade.offer_type offer trade.sender_id)
              trade.request_type request trade.sender_id) trade.request_type request r)
              trade.offer_type offer r,
            trades := setTradeStatus db.trades id "accepted" now,
            transactions := db.transactions ++
              [tradeTransaction trade.sender_id (-offer) now] ++
              [tradeTransaction r (-request) now] },
         .ok { success := true }) := by
  unfold executeTrade
  simp only
  rw [if_pos, if_pos]
  · refine Eq.trans (fkOk_legs db _ trade r offer request r ?_ ?_) hr <;> rfl
  · refine Eq.trans (fkOk_legs db _ trade r offer request trade.sender_id ?_ ?_) hs <;> rfl

/-! ## The run on cells and its reading on number balances -/

theorem readUsers_cells (l : List User) : readUsers (l.map User.cells) = some l := by
  induction l with
  | nil => rfl
  | cons a t ih =>
    simp only [List.map_cons, readUsers, ih]
    rfl

/-- A run that wrote nothing is read back as the database before it. -/
theorem readBack_unchanged (db : DB) (result : Except String TradeResult) :
    (TradeRun.unchanged db result).readBack db = some (db, result) := by
  unfold TradeRun.readBack TradeRun.unchanged
  simp only [readUsers_cells]

theorem debitCells_cells (l : List User) (ty : String) (a : Int) (u : String) :
    debitCells (l.map User.cells) ty (some a) u = (debit l ty a u).map User.cells := by
  unfold debitCells debit
  split
  · simp only [List.map_map]
    apply List.map_congr_left
    intro x _
    by_cases h : x.user_id = u
    · simp [Function.comp, User.cells, sqlSub, h]
    · simp [Function.comp, User.cells, h]
  · split
    · simp only [List.map_map]
      apply List.map_congr_left
      intro x _
      by_cases h : x.user_id = u
      · simp [Function.comp, User.cells, sqlSub, h]
      · simp [Function.comp, User.cells, h]
    · rfl

theorem creditCells_cells (l : List User) (ty : String) (a : Int) (u : String) :
    creditCells (l.map User.cells) ty (some a) u = (credit l ty a u).map User.cells := by
  unfold creditCells credit
  split
  · simp only [List.map_map]
    apply List.map_congr_left
    intro x _
    by_cases h : x.user_id = u
    · simp [Function.comp, User.cells, sqlAdd, h]
    · simp [Function.comp, User.cells, h]
  · split
    · simp only [List.map_map]
      apply List.map_congr_left
      intro x _
      by_cases h : x.user_id = u
      · simp [Function.comp, User.cells, sqlAdd, h]
      · simp [Function.comp, User.cells, h]
    · rfl

theorem cellsFkOk_cells (db db1 : DB) (v : String) (hfk : db1.foreign_keys = db.foreign_keys) :
    cellsFkOk db (db1.users.map User.cells) v = fkOk db1 v := by
  unfold cellsFkOk fkOk userExists
  rw [hfk]
  congr 1
  induction db1.users with
  | nil => rfl
  | cons a t ih => simp [List.any_cons, ih, User.cells]

/-- With value texts that are numbers, the run of lines 238-290 on cells leaves
no NULL and is read back as `executeTrade`. -/
theorem executeTradeCells_numbers (db : DB) (now id : Nat) (r : String) (trade : Trade)
    (offer request : Int) (ho : parseInt (some trade.offer_value) = some offer)
    (hq : parseInt (some trade.request_value) = some request) :
    (executeTradeCells db now id r trade).readBack db
      = some (executeTrade db now id r trade offer request) := by
  unfold executeTradeCells executeTrade
  simp only [ho, hq, debitCells_cells, creditCells_cells]
  rw [cellsFkOk_cells db
    { db with
      users := credit (debit (credit (debit db.users trade.offer_type offer trade.sender_id)
        trade.request_type request trade.sender_id) trade.request_type request r)
        trade.offer_type offer r,
      trades := setTradeStatus db.trades id "accepted" now } trade.sender_id rfl]
  split
  · rw [cellsFkOk_cells db
      { db with
        users := credit (debit (credit (debit db.users trade.offer_type offer trade.sender_id)
          trade.request_type request trade.sender_id) trade.request_type request r)
          trade.offer_type offer r,
        trades := setTradeStatus db.trades id "accepted" now,
        transactions := db.transactions ++ [tradeTransaction trade.sender_id (-offer) now] }
      r rfl]
    split
    · simp only [TradeRun.readBack, readUsers_cells]
    · simp only [TradeRun.readBack, readUsers_cells]
  · simp only [TradeRun.readBack, readUsers_cells]

/-- The call `acceptTrade` is refused with the database unchanged when no pending
trade of the receiver is found. -/
theorem acceptTrade_not_found (db : DB) (now id : Nat) (r : String)
    (ht : selectPendingTrade db id r = none) :
    acceptTrade db now id r
      = some (db, .ok { success := false,
                        error := some "Trade not found or already processed" }) := by
  unfold acceptTrade acceptTradeCells
  simp only [ht, readBack_unchanged]

/-- The call `acceptTrade` returns the refusal of the check, or throws its
exception, with the database unchanged. -/
theorem acceptTrade_check_failed (db : DB) (now id : Nat) (r : String) (trade : Trade)
    (ht : selectPendingTrade db id r = some trade) :
    (∀ e, checkBalance db r trade.request_type (parseInt (some trade.request_value)) = .error e →
      acceptTrade db now id r = some (db, .error e)) ∧
    (∀ refusal,
      checkBalance db r trade.request_type (parseInt (some trade.request_value))
        = .ok (some refusal) →
      acceptTrade db now id r = some (db, .ok { success := false, error := some refusal })) := by
  constructor
  · intro e hc
    unfold acceptTrade acceptTradeCells
    simp only [ht, hc, readBack_unchanged]
  · intro refusal hc
    unfold acceptTrade acceptTradeCells
    simp only [ht, hc, readBack_unchanged]

/-- The call `acceptTrade` runs `executeTrade` when the trade is found, the
check passes and both value texts are numbers. -/
theorem acceptTrade_executes (db : DB) (now id : Nat) (r : String) (trade : Trade)
    (offer request : Int) (ht : selectPendingTrade db id r = some trade)
    (ho : parseInt (some trade.offer_value) = some offer)
    (hq : parseInt (some trade.request_value) = some request)
    (hc : checkBalance db r trade.request_type (some request) = .ok none) :
    acceptTrade db now id r = some (executeTrade db now id r trade offer request) := by
  unfold acceptTrade acceptTradeCells
  simp only [ht, hq, hc]
  exact executeTradeCells_numbers db now id r trade offer request ho hq

end Lbb

namespace Lbb

/-- The refusal of `checkBalance` for an existing user whose balance is below
the value. -/
theorem checkBalance_short (db : DB) (u ty : String) (a : Int) (x : User)
    (hx : selectUser db u = some x) :
    (ty = "gems" → x.gems < a →
      checkBalance db u ty (some a) = .ok (some "Insufficient gems")) ∧
    (ty = "respect" → x.respect_count < a →
      checkBalance db u ty (some a) = .ok (some "Insufficient respect")) := by
  constructor
  · intro hty hlt
    unfold checkBalance
    simp only [hty, if_true, hx, (lessThanParsed_true _ _).2 hlt]
  · intro hty hlt
    have hrg : ¬ ("respect" : String) = "gems" := by decide
    unfold checkBalance
    simp only [hty, if_neg hrg, if_true, hx, (lessThanParsed_true _ _).2 hlt]

/-- C22: for the pending trade that `acceptTrade` finds for the receiver, with a
request text that reads as the number `request`: when the receiver holds less
than `request` of the requested gems or respect at accept time, the call returns
`success: false` with `Insufficient gems` or `Insufficient respect` and the
database is as before, so the trade is still pending and no balance and no
transaction row changed; what the balances were at creation plays no part.  In
Scenario D, 50 gems offered for 10 respect and a receiver holding 5 respect, the
result is `Insufficient respect`. -/
theorem C22_accept_refused_when_receiver_short (db : DB) (now tradeId : Nat) (userId : String)
    (trade : Trade) (receiver : User) (request : Int)
    (ht : selectPendingTrade db tradeId userId = some trade)
    (hx : selectUser db userId = some receiver)
    (hq : parseInt (some trade.request_value) = some request) :
    (trade.request_type = "gems" → receiver.gems < request →
      acceptTrade db now tradeId userId
        = some (db, .ok { success := false, error := some "Insufficient gems" })) ∧
    (trade.request_type = "respect" → receiver.respect_count < request →
      acceptTrade db now tradeId userId
        = some (db, .ok { success := false, error := some "Insufficient respect" })) ∧
    trade.status = "pending" ∧
    acceptTrade (scenarioD 5) now 1 "r"
      = some (scenarioD 5, .ok { success := false, error := some "Insufficient respect" }) := by
  obtain ⟨cg, cr⟩ := checkBalance_short db userId trade.request_type request receiver hx
  refine ⟨?_, ?_, ?_, ?_⟩
  · intro hty hlt
    exact (acceptTrade_check_failed db now tradeId userId trade ht).2 _
      (by rw [hq]; exact cg hty hlt)
  · intro hty hlt
    exact (acceptTrade_check_failed db now tradeId userId trade ht).2 _
      (by rw [hq]; exact cr hty hlt)
  · have := List.find?_some ht
    simp only [decide_eq_true_eq] at this
    exact this.2.2
  · rfl

/-- Witness of C22, Scenario D: the trade of 50 gems for 10 respect is pending,
the receiver `r` holds 5 respect, and the acceptance is refused with the
database unchanged. -/
theorem C22_accept_refused_when_receiver_short_witness :
    selectPendingTrade (scenarioD 5) 1 "r"
        = some (newTrade 1 "s" "r" "gems" "50" "respect" "10" 5) ∧
    selectUser (scenarioD 5) "r" = some { user_id := "r", gems := 0, respect_count := 5 } ∧
    parseInt (some "10") = some 10 ∧
    acceptTrade (scenarioD 5) 9 1 "r"
      = some (scenarioD 5, .ok { success := false, error := some "Insufficient respect" }) :=
  ⟨by decide, by decide, by decide,
   (C22_accept_refused_when_receiver_short (scenarioD 5) 9 1 "r"
      (newTrade 1 "s" "r" "gems" "50" "respect" "10" 5)
      { user_id := "r", gems := 0, respect_count := 5 } 10 (by decide) (by decide)
      (by decide)).2.1 rfl (by decide)⟩

end Lbb

namespace Lbb

theorem find_map_preserving {α : Type} (key : α → String) (g : α → α)
    (hg : ∀ x, key (g x) = key x) (v : String) (l : List α) :
    (l.map g).find? (fun x => decide (key x = v))
      = (l.find? (fun x => decide (key x = v))).map g := by
  induction l with
  | nil => rfl
  | cons a t ih =>
    by_cases h : key a = v
    · simp [List.find?, h, hg]
    · simp [List.find?, h, hg, ih]

/-- The row of a user in the users settled by a trade: sender and receiver have
their settled rows, every other lookup is as before. -/
theorem find_settledUsers (users : List User) (trade : Trade) (r : String) (offer request : Int)
    (v : String) :
    (settledUsers users trade r offer request).find? (fun u => decide (u.user_id = v))
      = (users.find? (fun u => decide (u.user_id = v))).map (fun u =>
          if v = trade.sender_id then
            settledRow trade.offer_type offer trade.request_type request u
          else if v = r then settledRow trade.request_type request trade.offer_type offer u
          else u) := by
  unfold settledUsers
  rw [find_map_preserving (fun u : User => u.user_id)]
  · cases hx : users.find? (fun u => decide (u.user_id = v)) with
    | none => rfl
    | some x =>
      have hv : x.user_id = v := by simpa using List.find?_some hx
      simp only [Option.map_some', hv]
  · intro x
    split
    · rfl
    · split <;> rfl

theorem setTradeStatus_status (trades : List Trade) (id : Nat) (status : String) (now : Nat) :
    ∀ t ∈ setTradeStatus trades id status now, t.trade_id = id → t.status = status := by
  intro t ht hid
  simp only [setTradeStatus, List.mem_map] at ht
  obtain ⟨x, _, rfl⟩ := ht
  by_cases h : x.trade_id = id
  · rw [if_pos h]
  · rw [if_neg h] at hid
    exact absurd hid h

/-- C23: for the pending trade that `acceptTrade` finds for the receiver, between
two different existing users, with value texts that read as the numbers `offer`
and `request`, and a receiver who holds at least `request` of a requested gems
or respect resource: the call returns `success: true`; the trade has status
`accepted`; the sender row has the offered resource lowered by `offer` and the
requested resource raised by `request`, the receiver row has the requested
resource lowered by `request` and the offered resource raised by `offer`
(`settledRow`; with one resource on both sides the two amounts net on it); every
other user row is as before; exactly two `trade` transaction rows are appended,
the sender with amount `-offer` and the receiver with amount `-request`; no
other table changes. -/
theorem C23_accept_settles_trade (db : DB) (now tradeId : Nat) (userId : String)
    (trade : Trade) (sender receiver : User) (offer request : Int)
    (ht : selectPendingTrade db tradeId userId = some trade)
    (hs : selectUser db trade.sender_id = some sender)
    (hx : selectUser db userId = some receiver)
    (hne : trade.sender_id ≠ userId)
    (ho : parseInt (some trade.offer_value) = some offer)
    (hq : parseInt (some trade.request_value) = some request)
    (hg : trade.request_type = "gems" → request ≤ receiver.gems)
    (hr : trade.request_type = "respect" → request ≤ receiver.respect_count) :
    ∃ post, acceptTrade db now tradeId userId = some (post, .ok { success := true }) ∧
      post = { db with
        users := settledUsers db.users trade userId offer request,
        trades := setTradeStatus db.trades tradeId "accepted" now,
        transactions := db.transactions ++
          [tradeTransaction trade.sender_id (-offer) now, tradeTransaction userId (-request) now] } ∧
      (∀ t ∈ post.trades, t.trade_id = tradeId → t.status = "accepted") ∧
      selectUser post trade.sender_id
        = some (settledRow trade.offer_type offer trade.request_type request sender) ∧
      selectUser post userId
        = some (settledRow trade.request_type request trade.offer_type offer receiver) ∧
      (∀ v, v ≠ trade.sender_id → v ≠ userId → selectUser post v = selectUser db v) ∧
      (trade.offer_type = "gems" → trade.request_type = "respect" →
        selectUser post trade.sender_id
          = some { sender with gems := sender.gems - offer,
                               respect_count := sender.respect_count + request } ∧
        selectUser post userId
          = some { receiver with gems := receiver.gems + offer,
                                 respect_count := receiver.respect_count - request }) := by
  have hc : checkBalance db userId trade.request_type (some request) = .ok none :=
    checkBalance_of_enough db _ _ _ receiver hx
      (fun e => (lessThanParsed_false _ _).2 (hg e))
      (fun e => (lessThanParsed_false _ _).2 (hr e))
  have hexec := executeTrade_ok db now tradeId userId trade offer request
    (fkOk_of_selectUser db _ sender hs) (fkOk_of_selectUser db _ receiver hx)
  rw [legs_eq_settledUsers db.users trade userId offer request hne] at hexec
  have hsel : ∀ v, selectUser
      { db with
        users := settledUsers db.users trade userId offer request,
        trades := setTradeStatus db.trades tradeId "accepted" now,
        transactions := db.transactions ++
          [tradeTransaction trade.sender_id (-offer) now, tradeTransaction userId (-request) now] } v
      = (selectUser db v).map (fun u =>
          if v = trade.sender_id then
            settledRow trade.offer_type offer trade.request_type request u
          else if v = userId then settledRow trade.request_type request trade.offer_type offer u
          else u) := by
    intro v
    unfold selectUser
    exact find_settledUsers db.users trade userId offer request v
  have e1 := hsel trade.sender_id
  have e2 := hsel userId
  rw [hs] at e1
  rw [hx] at e2
  simp only [Option.map_some', if_true] at e1
  simp only [Option.map_some', if_neg (Ne.symm hne), if_true] at e2
  refine ⟨_, ?_, rfl, ?_, e1, e2, ?_, ?_⟩
  · rw [acceptTrade_executes db now tradeId userId trade offer request ht ho hq hc, hexec]
    simp
  · exact setTradeStatus_status db.trades tradeId "accepted" now
  · intro v h1 h2
    rw [hsel v]
    simp only [if_neg h1, if_neg h2]
    cases selectUser db v <;> rfl
  · intro og rr
    have hgr : ¬ ("gems" : String) = "respect" := by decide
    have hrg : ¬ ("respect" : String) = "gems" := by decide
    rw [e1, e2]
    simp [settledRow, legAmount, og, rr]

/-- Witness of C23: in Scenario D with a receiver holding 10 respect, the
acceptance moves 50 gems to `r` and 10 respect to `s`. -/
theorem C23_accept_settles_trade_witness :
    selectPendingTrade (scenarioD 10) 1 "r"
        = some (newTrade 1 "s" "r" "gems" "50" "respect" "10" 5) ∧
    (∃ post, acceptTrade (scenarioD 10) 9 1 "r" = some (post, .ok { success := true }) ∧
      selectUser post "s" = some { user_id := "s", gems := 50 - 50, respect_count := 0 + 10 } ∧
      selectUser post "r" = some { user_id := "r", gems := 0 + 50, respect_count := 10 - 10 }) :=
  ⟨by decide,
   let ⟨post, h1, _, _, _, _, _, h7⟩ := C23_accept_settles_trade (scenarioD 10) 9 1 "r"
      (newTrade 1 "s" "r" "gems" "50" "respect" "10" 5)
      { user_id := "s", gems := 50, respect_count := 0 }
      { user_id := "r", gems := 0, respect_count := 10 } 50 10 (by decide) (by decide)
      (by decide) (by decide) (by decide) (by decide) (by decide) (by decide)
   ⟨post, h1, (h7 rfl rfl).1, (h7 rfl rfl).2⟩⟩

end Lbb

namespace Lbb

/-- The query for a pending trade of the receiver finds nothing when every
trade with the id has another receiver or is not pending. -/
theorem selectPendingTrade_none (db : DB) (id : Nat) (u : String)
    (h : ∀ t ∈ db.trades, t.trade_id = id → t.receiver_id ≠ u ∨ t.status ≠ "pending") :
    selectPendingTrade db id u = none := by
  unfold selectPendingTrade
  rw [List.find?_eq_none]
  intro t ht
  simp only [decide_eq_true_eq, not_and]
  intro h1 h2 h3
  rcases h t ht h1 with e | e
  · exact e h2
  · exact e h3

/-- Both settlement functions refuse and leave the database as it was when the
query finds nothing. -/
theorem settle_refused_of_none (db : DB) (now id : Nat) (u : String)
    (h : selectPendingTrade db id u = none) :
    acceptTrade db now id u
        = some (db, .ok { success := false, error := some "Trade not found or already processed" }) ∧
    rejectTrade db now id u = (db, { success := false, error := some "Trade not found" }) := by
  refine ⟨acceptTrade_not_found db now id u h, ?_⟩
  unfold rejectTrade
  simp only [h]

/-- C24: a trade is settled only by its receiver while it is pending, and not
again afterwards.  When every trade with the id has another receiver than the
caller or a status other than `pending` (so also when no trade has the id, or
the status is `accepted` or `rejected`), `acceptTrade` and `rejectTrade` return
`success: false` and leave the database as it was.  A `rejectTrade` that finds
the pending trade returns `success: true`, sets the status to `rejected` and
changes no other table, so no gems and no respect.  And once the status of the
trade has been set to a value other than `pending`, as both functions do on
success, every later `acceptTrade` and `rejectTrade` on it, by any caller, is
refused and changes nothing. -/
theorem C24_settle_only_pending_by_receiver (db : DB) (now tradeId : Nat) (userId : String) :
    ((∀ t ∈ db.trades, t.trade_id = tradeId → t.receiver_id ≠ userId ∨ t.status ≠ "pending") →
      acceptTrade db now tradeId userId
          = some (db, .ok { success := false,
                            error := some "Trade not found or already processed" }) ∧
      rejectTrade db now tradeId userId
          = (db, { success := false, error := some "Trade not found" })) ∧
    (∀ trade, selectPendingTrade db tradeId userId = some trade →
      rejectTrade db now tradeId userId
          = ({ db with trades := setTradeStatus db.trades tradeId "rejected" now },
             { success := true }) ∧
      (rejectTrade db now tradeId userId).1.users = db.users ∧
      (rejectTrade db now tradeId userId).1.transactions = db.transactions ∧
      ∀ t ∈ (rejectTrade db now tradeId userId).1.trades,
        t.trade_id = tradeId → t.status = "rejected") ∧
    (∀ (post : DB) (status : String), status ≠ "pending" →
      post.trades = setTradeStatus db.trades tradeId status now →
      ∀ (later : Nat) (caller : String),
        acceptTrade post later tradeId caller
            = some (post, .ok { success := false,
                                error := some "Trade not found or already processed" }) ∧
        rejectTrade post later tradeId caller
            = (post, { success := false, error := some "Trade not found" })) := by
  refine ⟨?_, ?_, ?_⟩
  · intro h
    exact settle_refused_of_none db now tradeId userId (selectPendingTrade_none db tradeId userId h)
  · intro trade ht
    have e : rejectTrade db now tradeId userId
        = ({ db with trades := setTradeStatus db.trades tradeId "rejected" now },
           { success := true }) := by
      unfold rejectTrade
      simp only [ht]
    rw [e]
    exact ⟨rfl, rfl, rfl, setTradeStatus_status db.trades tradeId "rejected" now⟩
  · intro post status hst hpost later caller
    apply settle_refused_of_none
    apply selectPendingTrade_none
    intro t ht hid
    rw [hpost] at ht
    have := setTradeStatus_status db.trades tradeId status now t ht hid
    right
    rw [this]
    exact hst

/-- Witness of C24: in Scenario D the sender `s` is not the receiver of trade 1,
so the settlement by `s` is refused; the receiver `r` can reject it; and after
that rejection the acceptance by `r` is refused. -/
theorem C24_settle_only_pending_by_receiver_witness :
    (acceptTrade (scenarioD 10) 9 1 "s"
        = some (scenarioD 10, .ok { success := false,
                                    error := some "Trade not found or already processed" }) ∧
      rejectTrade (scenarioD 10) 9 1 "s"
        = (scenarioD 10, { success := false, error := some "Trade not found" })) ∧
    (rejectTrade (scenarioD 10) 9 1 "r").1.users = (scenarioD 10).users ∧
    acceptTrade (rejectTrade (scenarioD 10) 9 1 "r").1 12 1 "r"
        = some ((rejectTrade (scenarioD 10) 9 1 "r").1,
            .ok { success := false, error := some "Trade not found or already processed" }) :=
  ⟨(C24_settle_only_pending_by_receiver (scenarioD 10) 9 1 "s").1 (by decide),
   ((C24_settle_only_pending_by_receiver (scenarioD 10) 9 1 "r").2.1
      (newTrade 1 "s" "r" "gems" "50" "respect" "10" 5) (by decide)).2.1,
   ((C24_settle_only_pending_by_receiver (scenarioD 10) 9 1 "r").2.2
      (rejectTrade (scenarioD 10) 9 1 "r").1 "rejected" (by decide) rfl 12 "r").1⟩

end Lbb

namespace Lbb

/-- C25: there is a state in which `acceptTrade` by the receiver succeeds and
leaves the sender with negative gems.  The sender `s` holds 50 gems and offers
50 gems for 1 respect twice to the friend `r`, who holds 2 respect; both offers
pass the check at creation.  After `r` accepted the first offer, the second is
still pending, `s` holds 0 gems, less than the 50 offered, and `r` holds the 1
respect requested.  The acceptance of the second offer by `r` succeeds and
leaves `s` with -50 gems: no balance was negative before it, one is after. -/
theorem C25_accept_leaves_sender_negative :
    (createTrade (tradeDb 2) 5 "s" "r" "gems" "50" "respect" "1").2
        = .ok { success := true, trade_id := some 1 } ∧
    (createTrade (createTrade (tradeDb 2) 5 "s" "r" "gems" "50" "respect" "1").1 6 "s" "r" "gems"
        "50" "respect" "1").2 = .ok { success := true, trade_id := some 2 } ∧
    acceptTrade twoOffers 9 1 "r" = some (firstAccepted, .ok { success := true }) ∧
    selectPendingTrade firstAccepted 2 "r"
        = some (newTrade 2 "s" "r" "gems" "50" "respect" "1" 6) ∧
    parseInt (some "50") = some 50 ∧ parseInt (some "1") = some 1 ∧
    selectUser firstAccepted "s" = some { user_id := "s", gems := 0, respect_count := 1 } ∧
    selectUser firstAccepted "r" = some { user_id := "r", gems := 50, respect_count := 1 } ∧
    (∀ u ∈ firstAccepted.users, 0 ≤ u.gems ∧ 0 ≤ u.respect_count) ∧
    ∃ post, acceptTrade firstAccepted 10 2 "r" = some (post, .ok { success := true }) ∧
      selectUser post "s" = some { user_id := "s", gems := -50, respect_count := 2 } ∧
      selectUser post "r" = some { user_id := "r", gems := 100, respect_count := 0 } ∧
      ¬ (∀ u ∈ post.users, 0 ≤ u.gems) := by
  refine ⟨rfl, rfl, rfl, by decide, by decide, by decide, by decide, by decide, by decide,
    (match acceptTrade firstAccepted 10 2 "r" with
      | some (db, _) => db
      | none => firstAccepted), rfl, by decide, by decide, by decide⟩

end Lbb

namespace Lbb

/-- The computed reward of a day after day 7 that has no schedule entry. -/
theorem getDailyReward_computed (d : Int) (h7 : d > 7) (h14 : d ≠ 14) (h30 : d ≠ 30)
    (h60 : d ≠ 60) (h90 : d ≠ 90) :
    (getDailyReward d).gems = 40 + ((d - 1) / 7 + 1) * 5
      ∧ (getDailyReward d).respect = 3 + ((d - 1) / 7 + 1) / 2 := by
  have hnone := dailyRewardAt_none d
    ⟨by omega, by omega, by omega, by omega, by omega, by omega, by omega, h14, h30, h60, h90⟩
  unfold getDailyReward
  simp only [hnone, h7, if_true]
  constructor <;> trivial

/-- The rewards of the days 1 to 7 and of the later milestone days. -/
theorem getDailyReward_entries :
    [1, 2, 3, 4, 5, 6, 7, 14, 30, 60, 90].map
        (fun d => ((getDailyReward d).gems, (getDailyReward d).respect))
      = [(10, 1), (15, 1), (20, 2), (25, 2), (30, 3), (40, 3), (100, 10), (250, 25), (500, 50),
         (1000, 100), (2000, 200)] := by
  decide

/-- Counterexample to C26 as stated: day 7 pays 100 gems and 10 respect, the
later day 8 pays 50 gems and 4 respect. -/
theorem C26_day8_pays_less_than_day7 :
    (1 : Int) ≤ 7 ∧ (7 : Int) ≤ 8 ∧
    ¬ ((getDailyReward 7).gems ≤ (getDailyReward 8).gems) ∧
    ¬ ((getDailyReward 7).respect ≤ (getDailyReward 8).respect) ∧
    (getDailyReward 7).gems = 100 ∧ (getDailyReward 8).gems = 50 ∧
    (getDailyReward 7).respect = 10 ∧ (getDailyReward 8).respect = 4 := by
  decide

/-- C26, amended: for all streak days `1 ≤ d1 ≤ d2` where `d1` is none of the
milestone days 7, 14, 30, 60, 90, the gems of `getDailyReward d1` are at most
the gems of `getDailyReward d2`, and likewise for respect. -/
theorem C26_reward_monotone_off_milestones (d1 d2 : Int) (h1 : 1 ≤ d1) (h12 : d1 ≤ d2)
    (hm : d1 ≠ 7 ∧ d1 ≠ 14 ∧ d1 ≠ 30 ∧ d1 ≠ 60 ∧ d1 ≠ 90) :
    (getDailyReward d1).gems ≤ (getDailyReward d2).gems ∧
    (getDailyReward d1).respect ≤ (getDailyReward d2).respect := by
  obtain ⟨m7, m14, m30, m60, m90⟩ := hm
  have E := getDailyReward_entries
  simp only [List.map, List.cons.injEq, Prod.mk.injEq, and_true] at E
  obtain ⟨⟨g1, r1⟩, ⟨g2, r2⟩, ⟨g3, r3⟩, ⟨g4, r4⟩, ⟨g5, r5⟩, ⟨g6, r6⟩, ⟨g7, r7⟩, ⟨g14, r14⟩,
    ⟨g30, r30⟩, ⟨g60, r60⟩, ⟨g90, r90⟩⟩ := E
  -- the reward of d2, by cases
  have B : ∀ d : Int, 1 ≤ d →
      (d = 1 ∨ d = 2 ∨ d = 3 ∨ d = 4 ∨ d = 5 ∨ d = 6 ∨ d = 7 ∨ d = 14 ∨ d = 30 ∨ d = 60
        ∨ d = 90) ∨ (d > 7 ∧ d ≠ 14 ∧ d ≠ 30 ∧ d ≠ 60 ∧ d ≠ 90) := by
    intro d hd; omega
  rcases B d1 h1 with c1 | ⟨a7, a14, a30, a60, a90⟩
  · rcases B d2 (le_trans h1 h12) with c2 | ⟨b7, b14, b30, b60, b90⟩
    · rcases c1 with rfl | rfl | rfl | rfl | rfl | rfl | rfl | rfl | rfl | rfl | rfl <;>
        rcases c2 with rfl | rfl | rfl | rfl | rfl | rfl | rfl | rfl | rfl | rfl | rfl <;> omega
    · obtain ⟨eg, er⟩ := getDailyReward_computed d2 b7 b14 b30 b60 b90
      rw [eg, er]
      rcases c1 with rfl | rfl | rfl | rfl | rfl | rfl | rfl | rfl | rfl | rfl | rfl <;> omega
  · obtain ⟨eg1, er1⟩ := getDailyReward_computed d1 a7 a14 a30 a60 a90
    rw [eg1, er1]
    rcases B d2 (le_trans h1 h12) with c2 | ⟨b7, b14, b30, b60, b90⟩
    · rcases c2 with rfl | rfl | rfl | rfl | rfl | rfl | rfl | rfl | rfl | rfl | rfl <;> omega
    · obtain ⟨eg, er⟩ := getDailyReward_computed d2 b7 b14 b30 b60 b90
      rw [eg, er]
      omega

/-- Witness of C26, amended: day 6 (40 gems, 3 respect) against day 8 (50 gems,
4 respect). -/
theorem C26_reward_monotone_off_milestones_witness :
    (getDailyReward 6).gems ≤ (getDailyReward 8).gems ∧
    (getDailyReward 6).respect ≤ (getDailyReward 8).respect :=
  C26_reward_monotone_off_milestones 6 8 (by decide) (by decide) (by decide)

end Lbb

namespace Lbb

/-- The achievements that the loop of `checkAchievements` adds to its result are
entries whose requirement the statistics meet. -/
theorem foldl_checkStep_mem (now : Nat) (u : String) (stats : List (String × Int))
    (l : List Achievement) (acc : DB × List Achievement) (a : Achievement)
    (h : a ∈ (l.foldl (checkStep now u stats) acc).2) :
    a ∈ acc.2 ∨ (a ∈ l ∧ statValue stats a.requirement_type ≥ a.requirement_value) := by
  induction l generalizing acc with
  | nil => exact Or.inl h
  | cons b t ih =>
    rw [List.foldl_cons] at h
    rcases ih _ h with h1 | ⟨h1, h2⟩
    · unfold checkStep at h1
      split at h1
      · rename_i hb
        simp only at h1
        split at h1
        · simp only [List.mem_append, List.mem_singleton] at h1
          rcases h1 with h1 | rfl
          · exact Or.inl h1
          · exact Or.inr ⟨List.mem_cons_self _ _, hb⟩
        · exact Or.inl h1
      · exact Or.inl h1
    · exact Or.inr ⟨List.mem_cons_of_mem _ h1, h2⟩

/-- A run of `checkAchievements` unlocks `completionist` only for a user who had
at least 20 unlocked rows of `user_achievements` before the run. -/
theorem completionist_needs_twenty_unlocked (db post : DB) (now : Nat) (u : String)
    (unlocked : List Achievement) (a : Achievement)
    (h : checkAchievements db now u = (post, some unlocked)) (ha : a ∈ unlocked)
    (hid : a.achievement_id = "completionist") :
    20 ≤ countRows db.user_achievements (fun r => decide (r.user_id = u ∧ r.unlocked = 1)) := by
  unfold checkAchievements at h
  split at h
  · simp at h
  · rename_i user _
    simp only [Prod.mk.injEq, Option.some.injEq] at h
    rw [← h.2] at ha
    rcases foldl_checkStep_mem now u _ ACHIEVEMENTS (db, []) a ha with h1 | ⟨h1, h2⟩
    · simp at h1
    · have hty : a.requirement_type = "achievements_unlocked" ∧ a.requirement_value = 20 := by
        simp only [ACHIEVEMENTS, List.mem_cons, List.mem_singleton, List.not_mem_nil,
          or_false] at h1
        rcases h1 with rfl | rfl | rfl | rfl | rfl | rfl | rfl | rfl | rfl | rfl | rfl | rfl |
          rfl | rfl | rfl | rfl | rfl | rfl | rfl | rfl <;>
          first
            | exact ⟨rfl, rfl⟩
            | exact absurd hid (by decide)
      rw [hty.1, hty.2] at h2
      have hs : statValue (achievementStats db u user) "achievements_unlocked"
          = orDefault (some (countRows db.user_achievements
              (fun r => decide (r.user_id = u ∧ r.unlocked = 1)))) 0 := by
        simp [statValue, achievementStats, List.find?]
      rw [hs] at h2
      unfold orDefault at h2
      simp only at h2
      split at h2 <;> omega

/-- C27 fails: `completionist`, described as `Unlock all non-secret
achievements`, requires 20 unlocked rows, the number of all entries of
`ACHIEVEMENTS`, of which only 18 are not secret.  For the user `u` who has
unlocked all 18 of them, `checkAchievements` counts 18, unlocks nothing, returns
the empty list and leaves the database as it was, so a second run does the
same: no `completionist` row exists and the 5000 gems are not credited. -/
theorem C27_completionist_not_granted :
    ACHIEVEMENTS.length = 20 ∧ nonSecretAchievements.length = 18 ∧
    (achievementOf "completionist").map
        (fun a => (a.description, a.requirement_type, a.requirement_value, a.reward_gems))
      = some ("Unlock all non-secret achievements", "achievements_unlocked", 20, 5000) ∧
    (∀ a ∈ nonSecretAchievements,
      (selectUserAchievement allNonSecretUnlocked "u" a.achievement_id).map (fun r => r.unlocked)
        = some 1) ∧
    statValue (achievementStats allNonSecretUnlocked "u"
        { user_id := "u", gems := 0, respect_count := 0 }) "achievements_unlocked" = 18 ∧
    checkAchievements allNonSecretUnlocked 9 "u" = (allNonSecretUnlocked, some []) ∧
    checkAchievements (checkAchievements allNonSecretUnlocked 9 "u").1 10 "u"
      = (allNonSecretUnlocked, some []) ∧
    selectUserAchievement (checkAchievements allNonSecretUnlocked 9 "u").1 "u" "completionist"
      = none ∧
    selectUser (checkAchievements allNonSecretUnlocked 9 "u").1 "u"
      = some { user_id := "u", gems := 0, respect_count := 0 } := by
  refine ⟨by decide, by decide, by decide, by decide, by decide, by decide, ?_, ?_, ?_⟩
  · have h : checkAchievements allNonSecretUnlocked 9 "u" = (allNonSecretUnlocked, some []) := by
      decide
    rw [h]
    decide
  · have h : checkAchievements allNonSecretUnlocked 9 "u" = (allNonSecretUnlocked, some []) := by
      decide
    rw [h]
    decide
  · have h : checkAchievements allNonSecretUnlocked 9 "u" = (allNonSecretUnlocked, some []) := by
      decide
    rw [h]
    decide

end Lbb

namespace Lbb

/-! ## Sums over the users -/

theorem sum_gems_map_update (l : List User) (u : String) (f : User → User) (d : Int)
    (hf : ∀ x, (f x).gems = x.gems + d) :
    ((l.map (fun x => if x.user_id = u then f x else x)).map (fun x => x.gems)).sum
      = (l.map (fun x => x.gems)).sum + d * ((l.map (fun x => x.user_id)).count u : Int) := by
  induction l with
  | nil => simp
  | cons a t ih =>
    simp only [List.map_cons, List.sum_cons, List.count_cons, ih]
    by_cases h : a.user_id = u
    · simp only [if_pos h, hf, beq_iff_eq, Nat.cast_add, Nat.cast_one]
      ring
    · simp only [if_neg h, beq_iff_eq, Nat.cast_add, Nat.cast_zero, add_zero]
      ring

theorem sum_respect_map_update (l : List User) (u : String) (f : User → User) (d : Int)
    (hf : ∀ x, (f x).respect_count = x.respect_count + d) :
    ((l.map (fun x => if x.user_id = u then f x else x)).map (fun x => x.respect_count)).sum
      = (l.map (fun x => x.respect_count)).sum
        + d * ((l.map (fun x => x.user_id)).count u : Int) := by
  induction l with
  | nil => simp
  | cons a t ih =>
    simp only [List.map_cons, List.sum_cons, List.count_cons, ih]
    by_cases h : a.user_id = u
    · simp only [if_pos h, hf, beq_iff_eq, Nat.cast_add, Nat.cast_one]
      ring
    · simp only [if_neg h, beq_iff_eq, Nat.cast_add, Nat.cast_zero, add_zero]
      ring

theorem ids_map_update (l : List User) (u : String) (f : User → User)
    (hf : ∀ x, (f x).user_id = x.user_id) :
    (l.map (fun x => if x.user_id = u then f x else x)).map (fun x => x.user_id)
      = l.map (fun x => x.user_id) := by
  rw [List.map_map]
  apply List.map_congr_left
  intro x _
  by_cases h : x.user_id = u
  · simp only [Function.comp, if_pos h, hf]
  · simp only [Function.comp, if_neg h]

/-- A debit keeps the user ids and lowers the sums by the amount, once for every
row of the user. -/
theorem debit_sums (l : List User) (ty : String) (a : Int) (u : String) :
    (debit l ty a u).map (fun x => x.user_id) = l.map (fun x => x.user_id) ∧
    ((debit l ty a u).map (fun x => x.gems)).sum
      = (l.map (fun x => x.gems)).sum
        + (-legAmount ty "gems" a) * ((l.map (fun x => x.user_id)).count u : Int) ∧
    ((debit l ty a u).map (fun x => x.respect_count)).sum
      = (l.map (fun x => x.respect_count)).sum
        + (-legAmount ty "respect" a) * ((l.map (fun x => x.user_id)).count u : Int) := by
  rw [debit_eq_map]
  refine ⟨ids_map_update l u _ (fun _ => rfl), sum_gems_map_update l u _ _ ?_,
    sum_respect_map_update l u _ _ ?_⟩
  · intro x
    simp only
    ring
  · intro x
    simp only
    ring

/-- A credit keeps the user ids and raises the sums by the amount, once for
every row of the user. -/
theorem credit_sums (l : List User) (ty : String) (a : Int) (u : String) :
    (credit l ty a u).map (fun x => x.user_id) = l.map (fun x => x.user_id) ∧
    ((credit l ty a u).map (fun x => x.gems)).sum
      = (l.map (fun x => x.gems)).sum
        + legAmount ty "gems" a * ((l.map (fun x => x.user_id)).count u : Int) ∧
    ((credit l ty a u).map (fun x => x.respect_count)).sum
      = (l.map (fun x => x.respect_count)).sum
        + legAmount ty "respect" a * ((l.map (fun x => x.user_id)).count u : Int) := by
  rw [credit_eq_map]
  exact ⟨ids_map_update l u _ (fun _ => rfl), sum_gems_map_update l u _ _ (fun _ => rfl),
    sum_respect_map_update l u _ _ (fun _ => rfl)⟩

/-- The four legs keep both sums when sender and receiver have equally many
rows. -/
theorem legs_conserve (l : List User) (trade : Trade) (r : String) (offer request : Int)
    (hcount : (l.map (fun x => x.user_id)).count trade.sender_id
      = (l.map (fun x => x.user_id)).count r) :
    ((credit (debit (credit (debit l trade.offer_type offer trade.sender_id)
        trade.request_type request trade.sender_id) trade.request_type request r)
        trade.offer_type offer r).map (fun x => x.gems)).sum = (l.map (fun x => x.gems)).sum ∧
    ((credit (debit (credit (debit l trade.offer_type offer trade.sender_id)
        trade.request_type request trade.sender_id) trade.request_type request r)
        trade.offer_type offer r).map (fun x => x.respect_count)).sum
      = (l.map (fun x => x.respect_count)).sum := by
  obtain ⟨i1, g1, r1⟩ := debit_sums l trade.offer_type offer trade.sender_id
  obtain ⟨i2, g2, r2⟩ := credit_sums (debit l trade.offer_type offer trade.sender_id)
    trade.request_type request trade.sender_id
  obtain ⟨i3, g3, r3⟩ := debit_sums (credit (debit l trade.offer_type offer trade.sender_id)
    trade.request_type request trade.sender_id) trade.request_type request r
  obtain ⟨_, g4, r4⟩ := credit_sums (debit (credit (debit l trade.offer_type offer
    trade.sender_id) trade.request_type request trade.sender_id) trade.request_type request r)
    trade.offer_type offer r
  rw [i3, i2, i1] at g4 r4
  rw [i2, i1] at g3 r3
  rw [i1] at g2 r2
  rw [g4, g3, g2, g1, r4, r3, r2, r1, hcount]
  constructor <;> ring

/-- A user that exists has exactly one row when the key is unique. -/
theorem count_of_unique (db : DB) (u : String) (hk : userKeysUnique db)
    (hu : userExists db u = true) : (db.users.map (fun x => x.user_id)).count u = 1 := by
  apply List.count_eq_one_of_mem hk
  unfold userExists at hu
  rw [List.any_eq_true] at hu
  obtain ⟨x, hx, he⟩ := hu
  rw [List.mem_map]
  exact ⟨x, hx, by simpa using he⟩

/-- For trades whose value texts are numbers, `acceptTrade` conserves currency.
On a database whose user key is unique and whose trades reference existing users
(the declared keys), every call of `acceptTrade` returns or throws and leaves
the sum of gems over all users and the sum of `respect_count` over all users as
they were, whether the trade is settled, refused or not found. -/
theorem acceptTrade_conserves_numbers (db : DB) (now tradeId : Nat) (userId : String)
    (hkeys : userKeysUnique db) (hrefs : tradesReferenceUsers db)
    (hnum : ∀ t ∈ db.trades, (parseInt (some t.offer_value)).isSome = true ∧
      (parseInt (some t.request_value)).isSome = true) :
    ∃ post res, acceptTrade db now tradeId userId = some (post, res) ∧
      totalGems post = totalGems db ∧ totalRespect post = totalRespect db := by
  cases ht : selectPendingTrade db tradeId userId with
  | none => exact ⟨db, _, acceptTrade_not_found db now tradeId userId ht, rfl, rfl⟩
  | some trade =>
    have hmem : trade ∈ db.trades := List.mem_of_find?_eq_some ht
    obtain ⟨ho, hq⟩ := hnum trade hmem
    obtain ⟨offer, ho2⟩ := Option.isSome_iff_exists.1 ho
    obtain ⟨request, hq2⟩ := Option.isSome_iff_exists.1 hq
    obtain ⟨cerr, cref⟩ := acceptTrade_check_failed db now tradeId userId trade ht
    cases hc : checkBalance db userId trade.request_type (parseInt (some trade.request_value)) with
    | error e => exact ⟨db, _, cerr e hc, rfl, rfl⟩
    | ok refusal =>
      cases refusal with
      | some msg => exact ⟨db, _, cref msg hc, rfl, rfl⟩
      | none =>
        rw [hq2] at hc
        refine ⟨(executeTrade db now tradeId userId trade offer request).1,
          (executeTrade db now tradeId userId trade offer request).2,
          acceptTrade_executes db now tradeId userId trade offer request ht ho2 hq2 hc, ?_⟩
        have hrecv : trade.receiver_id = userId := by
          have := List.find?_some ht
          simp only [decide_eq_true_eq] at this
          exact this.2.1
        obtain ⟨es, er⟩ := hrefs trade hmem
        rw [hrecv] at er
        have hcount : (db.users.map (fun x => x.user_id)).count trade.sender_id
            = (db.users.map (fun x => x.user_id)).count userId := by
          rw [count_of_unique db _ hkeys es, count_of_unique db _ hkeys er]
        unfold totalGems totalRespect
        rw [executeTrade_users]
        exact legs_conserve db.users trade userId offer request hcount

/-- An instance of `acceptTrade_conserves_numbers`: the settled trade of Scenario
D moves 50 gems and 10 respect between `s` and `r`; both sums stay as they
were. -/
theorem acceptTrade_conserves_numbers_scenarioD :
    userKeysUnique (scenarioD 10) ∧ tradesReferenceUsers (scenarioD 10) ∧
    ∃ post res, acceptTrade (scenarioD 10) 9 1 "r" = some (post, res) ∧
      totalGems post = totalGems (scenarioD 10) ∧
      totalRespect post = totalRespect (scenarioD 10) :=
  ⟨by decide, by decide,
   acceptTrade_conserves_numbers (scenarioD 10) 9 1 "r" (by decide) (by decide) (by decide)⟩

/-- C28 fails for a trade whose offer text is not a number.  The sender `s`,
holding 50 gems, offered the text `abc` as gems for 1 respect to the friend `r`,
who holds 2 respect; `createTrade` accepted the offer.  In the acceptance by `r`
the check of the request passes, the two gems statements bind `NaN` as NULL and
leave the gems of `s` and of `r` NULL, the respect moves, the status becomes
`accepted`, and the insert of the NULL amount into `transactions` throws.  The
sum of gems over all users was 50 and is the sum of no number afterwards; the
sum of respect stays 2. -/
theorem C28_text_offer_loses_gems :
    userKeysUnique textOffer ∧ tradesReferenceUsers textOffer ∧
    selectPendingTrade textOffer 1 "r"
      = some (newTrade 1 "s" "r" "gems" "abc" "respect" "1" 5) ∧
    parseInt (some "abc") = none ∧
    textOffer.users = [{ user_id := "s", gems := 50, respect_count := 0 },
                       { user_id := "r", gems := 0, respect_count := 2 }] ∧
    totalGems textOffer = 50 ∧ totalRespect textOffer = 2 ∧
    (acceptTradeCells textOffer 9 1 "r").users
      = [{ user_id := "s", gems := none, respect_count := some 1, total_voice_minutes := 0,
           total_messages := 0, streak_count := 0 },
         { user_id := "r", gems := none, respect_count := some 1, total_voice_minutes := 0,
           total_messages := 0, streak_count := 0 }] ∧
    cellsGems (acceptTradeCells textOffer 9 1 "r").users = 0 ∧
    cellsRespect (acceptTradeCells textOffer 9 1 "r").users = 2 ∧
    (acceptTradeCells textOffer 9 1 "r").trades.map (fun t => (t.trade_id, t.status))
      = [(1, "accepted")] ∧
    (acceptTradeCells textOffer 9 1 "r").transactions = [] ∧
    (acceptTradeCells textOffer 9 1 "r").result
      = .error "NOT NULL constraint failed: transactions.amount" ∧
    acceptTrade textOffer 9 1 "r" = none := by
  refine ⟨by decide, by decide, by decide, by decide, by decide, by decide, by decide, by decide,
    by decide, by decide, by decide, by decide, rfl, rfl⟩

end Lbb

namespace Lbb

/-- C29 fails on a Sunday: after `generateWeeklyQuests` on day 10 of an empty
quests table, two weekly quests start on day 10 and no daily quest does; the
count of `generateDailyQuests` has no `is_weekly` condition, finds the two
weekly rows and inserts nothing, so the table holds no daily quest of day 10
instead of three. -/
theorem C29_weekly_quests_block_daily_generation :
    getDay day10 = 0
      ∧ ((generateWeeklyQuests scenarioDb day10 weeklyTemplates).quests.map
          (fun q => (q.start_date, q.is_weekly))) = [(isoDate day10, 1), (isoDate day10, 1)]
      ∧ (generateWeeklyQuests scenarioDb day10 weeklyTemplates).quests.filter
          (fun q => decide (q.is_weekly = 0 ∧ q.start_date = isoDate day10)) = []
      ∧ generateDailyQuests (generateWeeklyQuests scenarioDb day10 weeklyTemplates) day10
          questTemplates = generateWeeklyQuests scenarioDb day10 weeklyTemplates
      ∧ ((generateDailyQuests (generateWeeklyQuests scenarioDb day10 weeklyTemplates) day10
          questTemplates).quests.filter
            (fun q => decide (q.is_weekly = 0 ∧ q.start_date = isoDate day10))).length = 0
      ∧ ((generateDailyQuests scenarioDb day10 questTemplates).quests.filter
            (fun q => decide (q.is_weekly = 0 ∧ q.start_date = isoDate day10))).length = 3 := by
  decide

end Lbb

namespace Lbb

theorem streaksBounded_updateStreak (db : DB) (u : String) (f : ActivityStreak → ActivityStreak)
    (h : streaksBounded db) (hf : ∀ r, streakBounds r → streakBounds (f r)) :
    streaksBounded (updateStreak db u f) := by
  intro r hr
  simp only [updateStreak, List.mem_map] at hr
  obtain ⟨x, hx, rfl⟩ := hr
  by_cases hu : x.user_id = u
  · rw [if_pos hu]; exact hf x (h x hx)
  · rw [if_neg hu]; exact h x hx

theorem streaksBounded_congr (a b : DB) (h : a.activity_streaks = b.activity_streaks)
    (hb : streaksBounded b) : streaksBounded a := by
  intro r hr
  rw [h] at hr
  exact hb r hr

theorem streaksBounded_applyActivity (db : DB) (now : Nat) (u : String) (s : ActivityStreak)
    (v m : Int) (h : streaksBounded db) (hs : streakBounds s) :
    streaksBounded (applyActivity db now u s v m) := by
  unfold applyActivity
  simp only
  split
  · split
    · apply streaksBounded_congr _ _ (checkAndAwardMilestone_streaks _ _ _ _)
      apply streaksBounded_updateStreak _ _ _ h
      intro r _
      unfold streakBounds at hs ⊢
      refine ⟨by simp only; omega, ?_⟩
      exact le_max_left _ _
    · split
      · apply streaksBounded_updateStreak _ _ _ h
        intro r hr
        unfold streakBounds at hr ⊢
        refine ⟨le_refl _, ?_⟩
        simp only; omega
      · apply streaksBounded_updateStreak _ _ _ h
        intro r hr
        exact hr
  · apply streaksBounded_updateStreak _ _ _ h
    intro r hr
    exact hr

theorem streaksBounded_checkQualified (db : DB) (st : Settings) (u : String)
    (s : ActivityStreak) (v m : Int) (h : streaksBounded db) :
    streaksBounded (checkQualified db st u s v m).1 := by
  unfold checkQualified
  simp only
  split
  · have := streaksBounded_updateStreak db u (fun r => { r with streak_qualified_today := 1 }) h
      (fun r hr => hr)
    exact this
  · exact h

theorem streaksBounded_withFreshStreak (db : DB) (today : Int) (u : String)
    (h : streaksBounded db) : streaksBounded (withFreshStreak db today u) := by
  intro r hr
  simp only [withFreshStreak, List.mem_append, List.mem_singleton] at hr
  rcases hr with hr | rfl
  · exact h r hr
  · exact ⟨le_refl _, le_refl _⟩

theorem streakBounds_of_select (db : DB) (u : String) (s : ActivityStreak)
    (h : streaksBounded db) (hs : selectStreak db u = some s) : streakBounds s :=
  h s (List.mem_of_find?_eq_some hs)

/-- C30: the bounds `0 ≤ current_streak ≤ longest_streak` hold for the row
inserted for a user without a record, and when they hold for every row of
`activity_streaks` before a call of `trackUserActivity`, they hold for every row
after it, whichever branch the call takes (continue, reset, carry, same-day
update, qualification, refused insert). -/
theorem C30_streak_bounds_invariant (db : DB) (now : Nat) (userId : String)
    (voiceMinutes messages : Int) (h : streaksBounded db) :
    streakBounds (freshStreak (isoDate now) userId) ∧
    streaksBounded (trackUserActivity db now userId voiceMinutes messages).1 := by
  refine ⟨⟨le_refl _, le_refl _⟩, ?_⟩
  cases hs : selectStreak db userId with
  | some s =>
    rw [track_existing db now userId s voiceMinutes messages hs]
    exact streaksBounded_checkQualified _ _ _ _ _ _
      (streaksBounded_applyActivity db now userId s _ _ h (streakBounds_of_select db userId s h hs))
  | none =>
    cases hfk : fkOk db userId with
    | false =>
      rw [track_fail db now userId voiceMinutes messages hs hfk]
      exact h
    | true =>
      rw [track_new db now userId voiceMinutes messages hs hfk]
      exact streaksBounded_checkQualified _ _ _ _ _ _
        (streaksBounded_applyActivity _ now userId _ _ _
          (streaksBounded_withFreshStreak db _ userId h) ⟨le_refl _, le_refl _⟩)

/-- Witness of C30: a qualified record of day 9 with streak 8 is continued on
day 10 to streak 9, and the bounds hold before and after. -/
theorem C30_streak_bounds_invariant_witness :
    streaksBounded (scenarioWith (rowDay9 8 1)) ∧
    (streakBounds (freshStreak (isoDate day10) "u") ∧
     streaksBounded (trackUserActivity (scenarioWith (rowDay9 8 1)) day10 "u" 1 1).1) :=
  ⟨by decide, C30_streak_bounds_invariant (scenarioWith (rowDay9 8 1)) day10 "u" 1 1 (by decide)⟩

end Lbb
